import Mathlib

/-!
# Task / future core of `hpx::lcos::local` (futures_factory.hpp)

A shallow embedding of `hpx/lcos/local/futures_factory.hpp`:

* `task_object` : the deferred computation with its completion state,
  its run-as-child handle and its optional bound executor;
* `World` : the heap of shared states, the units registered with the thread
  pool and the work posted to executors;
* `futures_factory` : the facade owning (a reference to) one task;
* `memory` : the allocator bookkeeping of `create_task_object::call` and
  `destroy()`;
* `target_distribution_policy` (host/target_distribution_policy.hpp) and the
  thread-local thread numbers (thread_num_tss.cpp).

Exceptions are values of `error`; an operation that may throw returns the
thrown exception next to the state it leaves behind.
-/

namespace hpx

/-! ## Errors and enumerations -/

/-- Exceptions that can travel through the task core.  `task_moved` and
`future_already_retrieved` are the error codes named in futures_factory.hpp;
`already_started` and `already_resolved` are the rejections of the base class
(see `check_started`, `set_value`); `submission_failed` is what an executor
may throw from `post`; `cancelled` is the cancellation error of the spec;
`user` is anything the bound callable throws. -/
inductive error where
  | task_moved
  | future_already_retrieved
  | already_started
  | already_resolved
  | submission_failed
  | cancelled
  | user (code : Nat)
deriving DecidableEq, Repr

/-- The launch policies (`hpx::launch`). -/
inductive launch where
  | async
  | deferred
  | task
  | sync
  | fork
  | apply
deriving DecidableEq, Repr

/-- Scheduler states of a unit of work (`threads::thread_state_enum`). -/
inductive thread_state_enum where
  | unknown
  | active
  | pending
  | suspended
  | depleted
  | terminated
  | staged
  | pending_do_not_schedule
  | pending_boost
deriving DecidableEq, Repr

/-- Priorities (`threads::thread_priority`). -/
inductive thread_priority where
  | thread_priority_default
  | thread_priority_low
  | thread_priority_normal
  | thread_priority_high_recursive
  | thread_priority_boost
  | thread_priority_high
deriving DecidableEq, Repr

/-- Stack sizes (`threads::thread_stacksize`). -/
inductive thread_stacksize where
  | thread_stacksize_default
  | thread_stacksize_small
  | thread_stacksize_medium
  | thread_stacksize_large
  | thread_stacksize_huge
  | thread_stacksize_nostack
deriving DecidableEq, Repr

/-- Interpretation of the number held by a schedule hint. -/
inductive thread_schedule_hint_mode where
  | thread_schedule_hint_mode_none
  | thread_schedule_hint_mode_thread
  | thread_schedule_hint_mode_numa
deriving DecidableEq, Repr

/-- The schedule hint passed to `apply`: `hint` is a `std::int16_t`. -/
structure thread_schedule_hint where
  mode : thread_schedule_hint_mode
  hint : Int
  runs_as_child : Bool
deriving DecidableEq, Repr

/-- A thread id; `none` is `threads::invalid_thread_id`, and `if (id)` is
`id.isSome`. -/
abbrev thread_id_type := Option Nat

/-- The value `static_cast<std::int16_t>(n)` of a `std::size_t` `n`: `n` modulo
`2^16`, read as two's complement. -/
def to_int16 (n : Nat) : Int :=
  if n % 65536 < 32768 then ((n % 65536 : Nat) : Int) else ((n % 65536 : Nat) : Int) - 65536

/-! ## Completion state (base class, not part of the given sources) -/

/-- Modelled from the spec: the shared state `future_data` / `task_base` is not
among the given sources.  The spec's CompletionState has the lifecycle tag
Empty, Running, Ready, Faulted and a result slot holding either a value or an
error. -/
inductive lifecycle (V : Type) where
  | empty
  | running
  | ready (v : V)
  | faulted (e : error)
deriving DecidableEq, Repr

namespace lifecycle

variable {V : Type}

/-- The test `state == this->empty`. -/
def is_empty : lifecycle V → Bool
  | empty => true
  | _ => false

/-- Ready and Faulted are the terminal states. -/
def is_terminal : lifecycle V → Bool
  | ready _ => true
  | faulted _ => true
  | _ => false

/-- Rank of the lifecycle tag in the order Empty < Running < Ready, Faulted. -/
def rank : lifecycle V → Nat
  | empty => 0
  | running => 1
  | ready _ => 2
  | faulted _ => 2

/-- Modelled from the spec: `set_value(v)` is not among the given sources.
Spec 4.1: it moves Empty/Running to Ready and publishes the result; calling
it after a terminal state is a programming error that must be detected, not
silently ignored (spec 8: rejected). -/
def set_value (s : lifecycle V) (v : V) : Except error (lifecycle V) :=
  if s.is_terminal then .error .already_resolved else .ok (ready v)

/-- Modelled from the spec: `set_exception(e)` is not among the given sources.
Spec 4.1: it moves Empty/Running to Faulted; calling it after a terminal state
is rejected like `set_value`. -/
def set_exception (s : lifecycle V) (e : error) : Except error (lifecycle V) :=
  if s.is_terminal then .error .already_resolved else .ok (faulted e)

end lifecycle

/-! ## The task object -/

/-- A bound executor (`Executor& exec`): its identity and whether
`parallel::execution::post` on it throws. -/
structure executor where
  id : Nat
  post_raises : Option error
deriving DecidableEq, Repr

/-- Modelled from the spec: the base class `cancelable_task_base` is not among
the given sources.  Spec 3: a CancellableTask carries a cancellation flag,
tri-state: not requested / requested-before-start / requested-after-start. -/
inductive cancellation where
  | not_requested
  | requested_before_start
  | requested_after_start
deriving DecidableEq, Repr

/-- The members of `task_object<Result, F, Executor, Base>` and of its base
classes.  `f_` is what one invocation of the bound callable produces (a value
or a thrown exception) and `calls` counts its invocations.  `exec_` is the bound
executor pointer (`none` is `nullptr`); an object of the specialisation
`task_object<Result, F, void, Base>`, which has no such member, is represented
with `exec_ = none`.  `state_` and `started_` belong to the base class.
`cancellation_` is what the choice of `Base` adds: nothing (`none`) for
`task_base`, the cancellation flag for `cancelable_task_base`. -/
structure task_object (V : Type) where
  f_ : Except error V
  runs_as_child_ : thread_id_type
  exec_ : Option executor
  state_ : lifecycle V
  started_ : Bool
  calls : Nat
  cancellation_ : Option cancellation := none

/-- A unit of work registered with a thread pool by
`threads::register_thread_nullary`: the deferred call `run_impl(this_)`, its
description, the initial state, the `run_now` flag, priority, schedule hint and
stack size it was created with, its current scheduler state, and how often
`destroy_thread` was called on it. -/
structure thread_data where
  pool : Nat
  this_ : Nat
  description : String
  initial_state : thread_state_enum
  run_now : Bool
  priority : thread_priority
  schedulehint : thread_schedule_hint
  stacksize : thread_stacksize
  state : thread_state_enum
  destroyed : Nat
deriving DecidableEq, Repr

/-- A unit of work handed to an executor by `parallel::execution::post`: the
deferred call `run_impl(this_)`, the hint and the annotation; `done` records
that the executor has run it. -/
structure posted_work where
  exec : Nat
  this_ : Nat
  schedulehint : thread_schedule_hint
  annotation : String
  done : Bool
deriving DecidableEq, Repr

/-- Everything the task core acts on: the shared states by address, the units
registered with the pool (a thread id is an index into `threads`), the work
posted to executors, the value of `get_worker_thread_num()` for the calling
thread, and the number of calls of `threads::detail::execute_thread` made so
far. -/
structure World (V : Type) where
  heap : Nat → task_object V
  threads : List thread_data
  posted : List posted_work
  worker_thread_num : Nat
  inline_attempts : Nat

variable {V : Type}

/-- Replace the task stored at address `p`. -/
def World.store (w : World V) (p : Nat) (t : task_object V) : World V :=
  { w with heap := Function.update w.heap p t }

/-- The constructors of `task_object<Result, F, void, Base>` (lines 56-80):
the callable is stored and `runs_as_child_` is the invalid thread id.  The
base class starts Empty and not started. -/
def task_object.create (f : Except error V) : task_object V :=
  { f_ := f, runs_as_child_ := none, exec_ := none, state_ := .empty,
    started_ := false, calls := 0 }

/-- The constructors of `task_object<Result, F, Executor, Base>` taking
`Executor& exec` (lines 286-296 and 309-319): `exec_(&exec)`. -/
def task_object.create_with_executor (ex : executor) (f : Except error V) : task_object V :=
  { task_object.create f with exec_ := some ex }

/-- The overload `do_run_impl(std::false_type)` (lines 123-133):
`try { set_value(f_()); } catch (...) { set_exception(current_exception()); }`.
The callable is invoked once; whatever is thrown inside the try block, by the
callable or by `set_value`, is handed to `set_exception`; what `set_exception`
itself throws leaves the function.  The result is the task afterwards and the
exception that escaped, if any. -/
def task_object.do_run_impl (t : task_object V) : task_object V × Option error :=
  let t1 := { t with calls := t.calls + 1 }
  match t.f_ >>= fun v => t1.state_.set_value v with
  | .ok s => ({ t1 with state_ := s }, none)
  | .error e =>
    match t1.state_.set_exception e with
    | .ok s => ({ t1 with state_ := s }, none)
    | .error e2 => (t1, some e2)

/-- The override `do_run()` (lines 90-93): dispatch on `std::is_void<Result>`;
both overloads act alike on the model, see `do_run_impl_void`. -/
def task_object.do_run (t : task_object V) : task_object V × Option error :=
  t.do_run_impl

/-- Modelled from the spec: `task_base::check_started` is not among the given
sources.  The spec's Task invariant is that the computation executes at most
once: the first caller marks the task started, every later caller is
rejected. -/
def task_object.check_started (t : task_object V) : Except error (task_object V) :=
  if t.started_ then .error .already_started else .ok { t with started_ := true }

/-- Modelled from the spec: `task_base::run` is not among the given sources.
Spec 4.2/4.5: synchronous execution in the calling context, one-shot; it
guards with `check_started` like the `apply` overrides of the sources and then
calls `do_run`. -/
def task_object.run (t : task_object V) : task_object V × Option error :=
  match t.check_started with
  | .error e => (t, some e)
  | .ok t1 => t1.do_run

/-! ## Thread pool and executor (external collaborators) -/

/-- Apply `g` to the unit with index `i`, if there is one. -/
def World.modify_thread (w : World V) (i : Nat) (g : thread_data → thread_data) : World V :=
  match w.threads[i]? with
  | some u => { w with threads := w.threads.set i (g u) }
  | none => w

/-- Modelled from the spec: `threads::register_thread_nullary` is not among the
given sources.  Spec 6: `register_unit_of_work(callable, priority, stack_hint,
affinity_hint, start_suspended) -> unit_handle`.  The unit is appended to the
units of the pool with the arguments it was given; its id is returned. -/
def register_thread_nullary (w : World V) (pool this_ : Nat) (description : String)
    (initial_state : thread_state_enum) (run_now : Bool) (priority : thread_priority)
    (schedulehint : thread_schedule_hint) (stacksize : thread_stacksize) :
    World V × thread_id_type :=
  ({ w with threads := w.threads ++ [{ pool := pool, this_ := this_, description := description,
                                       initial_state := initial_state, run_now := run_now,
                                       priority := priority, schedulehint := schedulehint,
                                       stacksize := stacksize, state := initial_state,
                                       destroyed := 0 }] },
   some w.threads.length)

/-- Modelled from the spec: `threads::set_thread_state` is not among the given
sources.  Spec 6: `activate(unit_handle)`; the unit named by `id` gets the new
scheduler state.  The further arguments of the call in `apply`
(`wait_signaled`, `thread_priority_normal`, `true`, `ec`) have no counterpart
in the spec's interface and are left out. -/
def set_thread_state (w : World V) (id : thread_id_type) (new_state : thread_state_enum) :
    World V :=
  match id with
  | some i => w.modify_thread i fun u => { u with state := new_state }
  | none => w

/-- Modelled from the spec: `thread_data::destroy_thread` is not among the given
sources.  Spec 6: `destroy(unit_handle)`; the call is counted on the unit. -/
def destroy_thread (w : World V) (i : Nat) : World V :=
  w.modify_thread i fun u => { u with destroyed := u.destroyed + 1 }

/-- Modelled from the spec: `task_base::run_impl` is not among the given
sources.  Spec 4.2: the unit of work is `run_now`, that is `do_run` of the
task `this_`; what escapes `do_run` ends in the scheduler and is dropped. -/
def run_impl (w : World V) (this_ : Nat) : World V :=
  w.store this_ (w.heap this_).do_run.1

/-- A unit is claimed once some context runs or has run it. -/
def thread_data.claimed (u : thread_data) : Bool :=
  u.state == .active || u.state == .terminated

/-- Modelled from the spec: `threads::detail::execute_thread` is not among the
given sources.  Spec 6: `run_inline(unit_handle) -> bool`, true if this caller
executed it, false if already claimed elsewhere.  A unit not yet claimed is
run to completion in the calling context and is terminated afterwards. -/
def execute_thread (w : World V) (i : Nat) : World V × Bool :=
  let w0 := { w with inline_attempts := w.inline_attempts + 1 }
  match w.threads[i]? with
  | none => (w0, false)
  | some u =>
    if u.claimed then (w0, false)
    else ((run_impl w0 u.this_).modify_thread i fun u => { u with state := .terminated }, true)

/-- The pool claims unit `i` for one of its workers: a unit in a pending state
becomes active. -/
def pool_claim (w : World V) (i : Nat) : World V :=
  match w.threads[i]? with
  | none => w
  | some u =>
    if u.state = .pending ∨ u.state = .pending_boost ∨ u.state = .pending_do_not_schedule then
      w.modify_thread i fun u => { u with state := .active }
    else w

/-- The worker that claimed unit `i` runs it to completion. -/
def pool_finish (w : World V) (i : Nat) : World V :=
  match w.threads[i]? with
  | none => w
  | some u =>
    if u.state = .active then
      (run_impl w u.this_).modify_thread i fun u => { u with state := .terminated }
    else w

/-- Modelled from the spec: `parallel::execution::post` is not among the given
sources.  Spec 4.4: `post(unit_of_work, hint, label)` submits the work to the
executor; an error in submission is surfaced immediately. -/
def post (w : World V) (ex : executor) (this_ : Nat) (schedulehint : thread_schedule_hint)
    ( annotation : String) : Except error (World V) :=
  match ex.post_raises with
  | some e => .error e
  | none => .ok { w with posted := w.posted ++ [{ exec := ex.id, this_ := this_,
                                                   schedulehint := schedulehint,
                                                   annotation := annotation, done := false }] }

/-- The executor runs the posted unit `j`, once. -/
def executor_run (w : World V) (j : Nat) : World V :=
  match w.posted[j]? with
  | none => w
  | some q =>
    if q.done then w
    else { run_impl w q.this_ with posted := w.posted.set j { q with done := true } }

/-! ## Scheduling a task -/

/-- The override `apply` of `task_object<Result, F, void, Base>` (lines 150-211)
on the task at address `p`.  The result is the world afterwards and either the
returned thread id or the exception thrown. -/
def task_object.apply_void (w : World V) (p : Nat) (pool : Nat) ( annotation : String)
    (policy : launch) (priority : thread_priority) (stacksize : thread_stacksize)
    (schedulehint : thread_schedule_hint) : World V × Except error thread_id_type :=
  match (w.heap p).check_started with
  | .error e => (w, .error e)
  | .ok t1 =>
    let w1 := w.store p t1
    if policy = .fork then
      let schedulehint := { schedulehint with mode := .thread_schedule_hint_mode_thread,
                                              hint := to_int16 w1.worker_thread_num }
      let r := register_thread_nullary w1 pool p annotation .pending_do_not_schedule true
        .thread_priority_boost schedulehint stacksize
      if schedulehint.runs_as_child then
        (r.1.store p { r.1.heap p with runs_as_child_ := r.2 }, .ok r.2)
      else (r.1, .ok r.2)
    else if schedulehint.runs_as_child then
      let r := register_thread_nullary w1 pool p annotation .suspended true priority
        schedulehint stacksize
      let w3 := r.1.store p { r.1.heap p with runs_as_child_ := r.2 }
      (set_thread_state w3 r.2 .pending, .ok r.2)
    else
      let r := register_thread_nullary w1 pool p annotation .pending false priority
        schedulehint stacksize
      (r.1, .ok none)

/-- The override `apply` of `task_object<Result, F, Executor, Base>` (lines
323-347): with a bound executor the unit is posted to it, otherwise the call
goes to the base class. -/
def task_object.apply (w : World V) (p : Nat) (pool : Nat) ( annotation : String)
    (policy : launch) (priority : thread_priority) (stacksize : thread_stacksize)
    (schedulehint : thread_schedule_hint) : World V × Except error thread_id_type :=
  match (w.heap p).exec_ with
  | some ex =>
    match (w.heap p).check_started with
    | .error e => (w, .error e)
    | .ok t1 =>
      match post (w.store p t1) ex p schedulehint annotation with
      | .error e => (w.store p t1, .error e)
      | .ok w2 => (w2, .ok none)
  | none => task_object.apply_void w p pool annotation policy priority stacksize schedulehint

/-- The inline attempt at the head of `get_result_void` (lines 98-118): with a
retained child handle and an Empty state the child unit is executed in the
calling context; if that succeeded the handle is cleared and the unit is
destroyed. -/
def task_object.run_child_inline (w : World V) (p : Nat) : World V :=
  match (w.heap p).runs_as_child_ with
  | some child =>
    if (w.heap p).state_.is_empty then
      let r := execute_thread w child
      if r.2 then destroy_thread (r.1.store p { r.1.heap p with runs_as_child_ := none }) child
      else r.1
    else w
  | none => w

/-- The override `get_result_void` (lines 96-120): the inline attempt, then the
blocking wait of the base class, which is taken as the parameter
`base_get_result_void`. -/
def task_object.get_result_void {R : Type} (base_get_result_void : World V → Nat → World V × R)
    (w : World V) (p : Nat) : World V × R :=
  base_get_result_void (task_object.run_child_inline w p) p

/-- The destructor `~task_object` (lines 82-88): a retained child unit is
destroyed. -/
def task_object.destructor (w : World V) (p : Nat) : World V :=
  match (w.heap p).runs_as_child_ with
  | some child => destroy_thread w child
  | none => w

/-- What a wait on a completion state yields in a given world: the value, the
stored error re-raised, or the caller stays blocked. -/
inductive wait_result (V : Type) where
  | value (v : V)
  | raised (e : error)
  | blocked
deriving DecidableEq, Repr

/-- Modelled from the spec: `future_data::get_result_void` is not among the given
sources.  Spec 4.1: `wait()` / `get_result()` blocks the caller until the state
is terminal, then returns the value or re-raises the stored error. -/
def future_data.get_result_void (w : World V) (p : Nat) : World V × wait_result V :=
  match (w.heap p).state_ with
  | .ready v => (w, .value v)
  | .faulted e => (w, .raised e)
  | _ => (w, .blocked)

/-! ## The factory -/

/-- The class `lcos::future<Result>`: a reference to a shared state, `none` for
the empty future `lcos::future<Result>()`. -/
structure future where
  shared_state_ : Option Nat
deriving DecidableEq, Repr

/-- The members of `futures_factory<Result(), Cancelable>` (lines 915-916):
`task_` is the intrusive pointer to the task (`none` when it is null) and
`future_obtained_` the flag. -/
structure futures_factory where
  task_ : Option Nat
  future_obtained_ : Bool
deriving DecidableEq, Repr

namespace futures_factory

/-- The default constructor (lines 753-756): no task, `future_obtained_(false)`. -/
def default_constructed : futures_factory :=
  { task_ := none, future_obtained_ := false }

/-- The constructors from a callable (lines 776-792): `create_task_object::call`
makes a new task, here at the address `p`, and `task_` refers to it. -/
def create (w : World V) (p : Nat) (f : Except error V) : World V × futures_factory :=
  (w.store p (task_object.create f), { task_ := some p, future_obtained_ := false })

/-- The constructors from an executor and a callable (lines 758-774). -/
def create_with_executor (w : World V) (p : Nat) (ex : executor) (f : Except error V) :
    World V × futures_factory :=
  (w.store p (task_object.create_with_executor ex f),
   { task_ := some p, future_obtained_ := false })

/-- The move constructor (lines 799-805): the result is the new factory and the
state `rhs` is left in. -/
def move_construct (rhs : futures_factory) : futures_factory × futures_factory :=
  ({ task_ := rhs.task_, future_obtained_ := rhs.future_obtained_ },
   { task_ := none, future_obtained_ := false })

/-- The move assignment `operator=(futures_factory&&)` (lines 807-818) on a
store of factory objects: `this_` and `rhs` are the addresses of the two
objects, so that `this != &rhs` is `this_ ≠ rhs`. -/
def move_assign (objs : Nat → futures_factory) (this_ rhs : Nat) : Nat → futures_factory :=
  if this_ ≠ rhs then
    let objs1 := Function.update objs this_
      { task_ := (objs rhs).task_, future_obtained_ := (objs rhs).future_obtained_ }
    Function.update objs1 rhs { task_ := none, future_obtained_ := false }
  else objs

/-- The call operator `operator()()` (lines 821-831): `task_->run()`, or
`task_moved` when there is no task. -/
def call (fac : futures_factory) (w : World V) : World V × Option error :=
  match fac.task_ with
  | none => (w, some .task_moved)
  | some p => (w.store p (w.heap p).run.1, (w.heap p).run.2)

/-- The member `apply` (lines 850-870); the overload without a pool (lines
834-848) passes `get_self_or_default_pool()` for `pool`. -/
def apply (fac : futures_factory) (w : World V) (pool : Nat) ( annotation : String)
    (policy : launch) (priority : thread_priority) (stacksize : thread_stacksize)
    (schedulehint : thread_schedule_hint) : World V × Except error thread_id_type :=
  match fac.task_ with
  | none => (w, .error .task_moved)
  | some p => task_object.apply w p pool annotation policy priority stacksize schedulehint

/-- The member `get_future` (lines 872-895).  `HPX_THROWS_IF` reports the error
(by throwing, or through `ec` next to an empty future): the `error` outcome, in
which the factory is as before.  Otherwise the flag is set and
`std::move(task_)` hands the task to the returned future, which leaves `task_`
null. -/
def get_future (fac : futures_factory) : Except error (future × futures_factory) :=
  match fac.task_ with
  | none => .error .task_moved
  | some p =>
    if fac.future_obtained_ then .error .future_already_retrieved
    else .ok ({ shared_state_ := some p }, { task_ := none, future_obtained_ := true })

/-- The member `valid` (lines 897-900): `!!task_`. -/
def valid (fac : futures_factory) : Bool :=
  fac.task_.isSome

/-- The member `set_exception` (lines 902-912): `task_->set_exception(e)`, or
`task_moved` when there is no task. -/
def set_exception (fac : futures_factory) (w : World V) (e : error) : World V × Option error :=
  match fac.task_ with
  | none => (w, some .task_moved)
  | some p =>
    match (w.heap p).state_.set_exception e with
    | .ok s => (w.store p { w.heap p with state_ := s }, none)
    | .error e2 => (w, some e2)

end futures_factory

/-- Waiting on a future (`wait()` / `get()`) that has a shared state `p`:
`get_result_void` of that state, with the blocking wait of `future_data` as
the base class. -/
def future.wait (w : World V) (p : Nat) : World V × wait_result V :=
  task_object.get_result_void future_data.get_result_void w p

/-- A world in which every address holds the task `d`, nothing is registered or
posted, and the calling thread has worker number `n`. -/
def World.initial (d : task_object V) (n : Nat) : World V :=
  { heap := fun _ => d, threads := [], posted := [], worker_thread_num := n,
    inline_attempts := 0 }

/-- Two calls of `get_future` in a row on one factory: the outcome of the first
and the outcome of the second; the second acts on the factory as the first
left it. -/
def futures_factory.get_future_twice (fac : futures_factory) :
    Except error (future × futures_factory) × Except error (future × futures_factory) :=
  match fac.get_future with
  | .ok r => (.ok r, r.2.get_future)
  | .error e => (.error e, fac.get_future)

/-! ## Sequences of operations on one task -/

/-- The operations that act on a factory, its future and its task: the members
of the factory, a wait on the retrieved future, and the steps of the pool and
of the executors. -/
inductive op where
  | call
  | apply (pool : Nat) ( annotation : String) (policy : launch) (priority : thread_priority)
      (stacksize : thread_stacksize) (schedulehint : thread_schedule_hint)
  | get_future
  | set_exception (e : error)
  | wait
  | pool_claim (i : Nat)
  | pool_finish (i : Nat)
  | executor_run (j : Nat)

/-- A factory, the future retrieved from it so far, and the world. -/
structure system (V : Type) where
  factory : futures_factory
  retrieved : future
  world : World V

/-- One operation; an operation that throws leaves what it had done until
then. -/
def system.step (s : system V) : op → system V
  | .call => { s with world := (s.factory.call s.world).1 }
  | .apply pool annotation policy priority stacksize schedulehint =>
    { s with world :=
        (s.factory.apply s.world pool annotation policy priority stacksize schedulehint).1 }
  | .get_future =>
    match s.factory.get_future with
    | .ok r => { s with factory := r.2, retrieved := r.1 }
    | .error _ => s
  | .set_exception e => { s with world := (s.factory.set_exception s.world e).1 }
  | .wait =>
    match s.retrieved.shared_state_ with
    | some p => { s with world := (future.wait s.world p).1 }
    | none => s
  | .pool_claim i => { s with world := pool_claim s.world i }
  | .pool_finish i => { s with world := pool_finish s.world i }
  | .executor_run j => { s with world := executor_run s.world j }

/-- A sequence of operations, from left to right. -/
def system.run (s : system V) (ops : List op) : system V :=
  ops.foldl system.step s

/-- A factory freshly constructed from the callable `f` (and the executor `ex`,
if one is given) whose task is placed at the address `p`; no future has been
retrieved. -/
def system.start (w : World V) (p : Nat) (ex : Option executor) (f : Except error V) :
    system V :=
  match ex with
  | some e =>
    { factory := (futures_factory.create_with_executor w p e f).2,
      retrieved := { shared_state_ := none },
      world := (futures_factory.create_with_executor w p e f).1 }
  | none =>
    { factory := (futures_factory.create w p f).2,
      retrieved := { shared_state_ := none },
      world := (futures_factory.create w p f).1 }

/-- The unit runs the task at `p` and has not run to completion. -/
def thread_data.is_open (p : Nat) (u : thread_data) : Bool :=
  u.this_ == p && u.state != .terminated

/-- The posted work is for the task at `p` and the executor has not run it. -/
def posted_work.is_open (p : Nat) (q : posted_work) : Bool :=
  q.this_ == p && !q.done

/-- Number of units of the pool that will still run the task at `p`. -/
def open_units (p : Nat) (l : List thread_data) : Nat :=
  l.countP (thread_data.is_open p)

/-- Number of posted work items that will still run the task at `p`. -/
def open_posts (p : Nat) (l : List posted_work) : Nat :=
  l.countP (posted_work.is_open p)

/-- Invocations of the callable of the task at `p` made so far, plus the units
and posted work that will still invoke it. -/
def committed (p : Nat) (w : World V) : Nat :=
  (w.heap p).calls + open_units p w.threads + open_posts p w.posted

/-- The one-shot invariant of the task at `p`: nothing is committed before the
task is started, and at most one invocation afterwards. -/
def one_shot (p : Nat) (w : World V) : Prop :=
  committed p w ≤ if (w.heap p).started_ then 1 else 0

/-- The step from `w` to `w1` neither starts the task at `p` nor changes what is
committed for it. -/
def same_commitment (p : Nat) (w w1 : World V) : Prop :=
  committed p w1 = committed p w ∧ (w1.heap p).started_ = (w.heap p).started_

/-- The task at `q` has just been started and nothing has been committed for
it yet: seen from the task at `p`, one more commitment for `q` is covered. -/
def credit (p q : Nat) (w : World V) : Prop :=
  committed p w + (if p = q then 1 else 0) ≤ if (w.heap p).started_ then 1 else 0

/-- The run-as-child scenario of the spec (section 8): a factory is built from
a callable returning `v`, the task is scheduled with the given arguments, and
the future is retrieved; the pool has not touched the unit. -/
def child_scenario (w : World V) (p pool : Nat) (v : V) ( annotation : String)
    (policy : launch) (priority : thread_priority) (stacksize : thread_stacksize)
    (schedulehint : thread_schedule_hint) : system V :=
  (system.start w p none (.ok v)).run
    [.apply pool annotation policy priority stacksize schedulehint, .get_future]

/-- Number of `destroy_thread` calls made on the units of the pool. -/
def destroy_calls (l : List thread_data) : Nat :=
  (l.map thread_data.destroyed).sum

/-! ## Cancellable tasks -/

/-- The constructors of `cancelable_task_object` without an executor (lines
365-383, 450-458, 470-478): `base_type(f)`, the `task_object` constructor
with `cancelable_task_base` as `Base`; the class adds no member of its own. -/
def cancelable_task_object.create (f : Except error V) : task_object V :=
  { task_object.create f with cancellation_ := some .not_requested }

/-- The constructors of `cancelable_task_object` taking `Executor& exec` (lines
460-468, 480-490): `base_type(exec, f)`. -/
def cancelable_task_object.create_with_executor (ex : executor) (f : Except error V) :
    task_object V :=
  { task_object.create_with_executor ex f with cancellation_ := some .not_requested }

/-- Modelled from the spec: `request_cancellation()` belongs to
`cancelable_task_base`, which is not among the given sources.  Spec 4.3: if
the state is Empty the task goes directly to Faulted(cancelled) and the
computation never runs; if the state is Running only the advisory flag is
set.  A task cancelled while Empty counts as started from then on: that is
how the `check_started` guard of `run` and `apply` keeps the computation from
running.  A task whose base is `task_base` is not cancellable. -/
def task_object.request_cancellation (t : task_object V) : task_object V :=
  match t.cancellation_ with
  | none => t
  | some _ =>
    match t.state_ with
    | .empty =>
      { t with state_ := .faulted .cancelled, started_ := true,
               cancellation_ := some .requested_before_start }
    | .running => { t with cancellation_ := some .requested_after_start }
    | _ => t

/-- The same object with another base class part. -/
def task_object.with_base (t : task_object V) (b : Option cancellation) : task_object V :=
  { t with cancellation_ := b }

/-- The same world with the base class part of the object at every address `p`
replaced by `bs p`. -/
def World.with_base (w : World V) (bs : Nat → Option cancellation) : World V :=
  { w with heap := fun p => (w.heap p).with_base (bs p) }

/-- A cancellable factory (`Cancelable = true`) freshly constructed from the
callable `f` (and the executor `ex`, if one is given) with its task at the
address `p`, on which cancellation is requested before anything else
happens. -/
def system.start_cancelled (w : World V) (p : Nat) (ex : Option executor)
    (f : Except error V) : system V :=
  { factory := { task_ := some p, future_obtained_ := false },
    retrieved := { shared_state_ := none },
    world := w.store p
      (match ex with
       | some e => (cancelable_task_object.create_with_executor e f).request_cancellation
       | none => (cancelable_task_object.create f).request_cancellation) }

/-- The task at `p` was cancelled before it was started and has not run:
nothing is committed for it, it counts as started, and its state is
Faulted(cancelled). -/
def cancelled_unrun (p : Nat) (w : World V) : Prop :=
  committed p w = 0 ∧ (w.heap p).started_ = true ∧ (w.heap p).state_ = .faulted .cancelled

/-- The factory and the retrieved future of the system refer to no task other
than the one at `p`. -/
def system.refers_to (p : Nat) (s : system V) : Prop :=
  (s.factory.task_ = none ∨ s.factory.task_ = some p)
  ∧ (s.retrieved.shared_state_ = none ∨ s.retrieved.shared_state_ = some p)

/-- The completion state `s1` follows `s`: it is the same, or `s` was not yet
terminal and `s1` is. -/
def lifecycle.advances (s s1 : lifecycle V) : Prop :=
  s1 = s ∨ (s.is_terminal = false ∧ s1.is_terminal = true)

/-- The completion state of every task in `w1` follows its state in `w`. -/
def World.advances (w w1 : World V) : Prop :=
  ∀ p, lifecycle.advances (w.heap p).state_ (w1.heap p).state_

/-! ## Allocator-aware construction -/

/-- An allocator value names the arena it allocates from; a copy of an
allocator, rebound to another type or not, names the same arena. -/
abbrev allocator := Nat

/-- The allocator `hpx::util::internal_allocator<>{}` that the constructors of
the factory pass to `create_task_object::call`. -/
def internal_allocator : allocator := 0

/-- The world together with the memory bookkeeping: `alloc_` is the member
`alloc_` of the `task_object_allocator` at each address, `count_` the reference
count of the shared state at each address, and `outstanding` lists, for every
arena, the blocks handed out and not yet returned (address and number of
objects). -/
structure memory (V : Type) where
  world : World V
  alloc_ : Nat → allocator
  count_ : Nat → Nat
  outstanding : allocator → List (Nat × Nat)

/-- The call `std::allocator_traits::allocate(alloc, n)`: the arena of `alloc`
hands out a block for `n` objects, at the address `p`. -/
def allocate (m : memory V) (alloc : allocator) (p n : Nat) : memory V :=
  { m with outstanding := Function.update m.outstanding alloc ((p, n) :: m.outstanding alloc) }

/-- The call `std::allocator_traits::deallocate(alloc, p, n)`: the block goes
back to the arena of `alloc`. -/
def deallocate (m : memory V) (alloc : allocator) (p n : Nat) : memory V :=
  { m with outstanding := Function.update m.outstanding alloc ((m.outstanding alloc).erase (p, n)) }

/-- The overloads `create_task_object<Result, Cancelable, void>::call(a, f)`
(lines 553-603 and 661-712): `other_allocator alloc(a)` is the rebound copy,
`traits::allocate(alloc, 1)` takes the block (at the address `p`),
`traits::construct` builds the `task_object_allocator` (or, for `Cancelable`,
the `cancelable_task_object_allocator`) in it from `alloc` and `f`, with
`init_no_addref`, so that the returned pointer, made without adding a
reference, holds the one reference there is.  The model's callable cannot
throw while it is stored, so the `unique_ptr` guard never fires. -/
def create_task_object.call (m : memory V) (cancelable : Bool) (a : allocator) (p : Nat)
    (f : Except error V) : memory V × Nat :=
  let alloc := a
  let m1 := allocate m alloc p 1
  ({ m1 with
      world := m1.world.store p
        (if cancelable then cancelable_task_object.create f else task_object.create f)
      alloc_ := Function.update m1.alloc_ p alloc
      count_ := Function.update m1.count_ p 1 },
   p)

/-- The override `task_object_allocator::destroy` (lines 252-260):
`other_allocator alloc(alloc_)`, `traits::destroy(alloc, this)`, which runs the
destructor of the task, and `traits::deallocate(alloc, this, 1)`. -/
def task_object_allocator.destroy (m : memory V) (this_ : Nat) : memory V :=
  let alloc := m.alloc_ this_
  let m1 := { m with world := task_object.destructor m.world this_ }
  deallocate m1 alloc this_ 1

/-- The override `cancelable_task_object_allocator::destroy` (lines 426-434),
the same three statements. -/
def cancelable_task_object_allocator.destroy (m : memory V) (this_ : Nat) : memory V :=
  let alloc := m.alloc_ this_
  let m1 := { m with world := task_object.destructor m.world this_ }
  deallocate m1 alloc this_ 1

/-- Modelled from the spec: releasing a reference to a shared state
(`intrusive_ptr_release` of `future_data_refcnt_base`) is not among the given
sources.  Spec 3: the completion state is reference counted and destroyed
when the last holder releases it; `destroy()` is virtual and goes to the
class of the object. -/
def intrusive_ptr_release (m : memory V) (p : Nat) : memory V :=
  let m1 := { m with count_ := Function.update m.count_ p (m.count_ p - 1) }
  if m.count_ p = 1 then
    if (m.world.heap p).cancellation_.isSome then cancelable_task_object_allocator.destroy m1 p
    else task_object_allocator.destroy m1 p
  else m1

/-- The constructors of the factory from a callable (lines 776-792):
`create_task_object<Result, Cancelable>::call(internal_allocator<>{}, f)`. -/
def futures_factory.construct (m : memory V) (cancelable : Bool) (p : Nat)
    (f : Except error V) : memory V × futures_factory :=
  ((create_task_object.call m cancelable internal_allocator p f).1,
   { task_ := some (create_task_object.call m cancelable internal_allocator p f).2,
     future_obtained_ := false })

/-- The destructor `~futures_factory() = default` (line 794): the member `task_`
releases its reference, if it holds one. -/
def futures_factory.destructor (fac : futures_factory) (m : memory V) : memory V :=
  match fac.task_ with
  | some p => intrusive_ptr_release m p
  | none => m

/-- Construct one factory for every entry (address, callable) of the list. -/
def construct_all (m : memory V) (cancelable : Bool) :
    List (Nat × Except error V) → memory V × List futures_factory
  | [] => (m, [])
  | t :: ts =>
    ((construct_all (futures_factory.construct m cancelable t.1 t.2).1 cancelable ts).1,
     (futures_factory.construct m cancelable t.1 t.2).2 ::
       (construct_all (futures_factory.construct m cancelable t.1 t.2).1 cancelable ts).2)

/-- Run every factory of the list with `operator()()`. -/
def run_all (m : memory V) (facs : List futures_factory) : memory V :=
  facs.foldl (fun m fac => { m with world := (fac.call m.world).1 }) m

/-- Destroy every factory of the list. -/
def discard_all (m : memory V) (facs : List futures_factory) : memory V :=
  facs.foldl (fun m fac => fac.destructor m) m

/-- The allocator scenario of the spec (section 8): construct a factory for
every entry of the list, run all of them, destroy all of them. -/
def allocator_scenario (m : memory V) (cancelable : Bool) (tasks : List (Nat × Except error V)) :
    memory V :=
  discard_all (run_all (construct_all m cancelable tasks).1 (construct_all m cancelable tasks).2)
    (construct_all m cancelable tasks).2

/-- The bookkeeping a factory that solely owns the task at `p` relies on: one
reference, allocated from `a`, block outstanding. -/
def solely_owned (a : allocator) (m : memory V) (p : Nat) : Prop :=
  m.alloc_ p = a ∧ m.count_ p = 1 ∧ (p, 1) ∈ m.outstanding a

/-! ## Target distribution policy (host/target_distribution_policy.hpp) -/

/-- The value `std::size_t(-1)`, for a 64-bit `std::size_t`. -/
def size_t_max : Nat := 2 ^ 64 - 1

/-- Modelled from the spec: the base class
`compute::detail::target_distribution_policy<host::target>` is not among the
given sources, and the spec leaves distribution policies to external
collaborators.  A policy is represented by the two values its constructor
`base_type(targets, num_partitions)` is given: the targets it represents
(the member `targets_` that `bulk_create` reads) and the number of
partitions. -/
structure target_distribution_policy (T : Type) where
  targets_ : List T
  num_partitions_ : Nat
deriving DecidableEq, Repr

namespace target_distribution_policy

variable {T : Type}

/-- Modelled from the spec: `get_num_partitions()` of the base class, not among
the given sources: the number of partitions the policy was constructed
with. -/
def get_num_partitions (policy : target_distribution_policy T) : Nat :=
  policy.num_partitions_

/-- The call operator `operator()(std::vector<target_type> const& targets,
std::size_t num_partitions)` (lines 51-58): `size_t(-1)` stands for the size of
`targets`. -/
def call (targets : List T) (num_partitions : Nat) : target_distribution_policy T :=
  if num_partitions = size_t_max then
    { targets_ := targets, num_partitions_ := targets.length }
  else { targets_ := targets, num_partitions_ := num_partitions }

/-- The call operator `operator()(std::vector<target_type>&& targets,
std::size_t num_partitions)` (lines 65-73), which moves `targets` into the new
policy. -/
def call_move (targets : List T) (num_partitions : Nat) : target_distribution_policy T :=
  if num_partitions = size_t_max then
    { targets_ := targets, num_partitions_ := targets.length }
  else { targets_ := targets, num_partitions_ := num_partitions }

/-- Either call operator with `num_partitions` omitted: the default argument is
`std::size_t(-1)`. -/
def call_default (targets : List T) : target_distribution_policy T :=
  call targets size_t_max

end target_distribution_policy

/-- The trait `num_container_partitions<target_distribution_policy>::call`
(lines 245-253): `policy.get_num_partitions()`. -/
def num_container_partitions.call {T : Type} (policy : target_distribution_policy T) : Nat :=
  policy.get_num_partitions

/-! ## Thread-local thread numbers (thread_num_tss.cpp) -/

/-- The value `std::uint16_t(-1)`. -/
def uint16_max : Nat := 2 ^ 16 - 1

/-- The type `thread_tuple`: the global thread number and the pool index, two
`std::uint16_t`. -/
abbrev thread_tuple := Nat × Nat

/-- The two thread-local variables of one system thread (lines 16-28). -/
structure tss where
  thread_num_tss_ : Nat
  thread_numbers_tss_ : thread_tuple
deriving DecidableEq, Repr

/-- The initial values of the thread-local variables: `std::size_t(-1)` and
`{std::uint16_t(-1), std::uint16_t(-1)}`. -/
def tss.fresh : tss :=
  { thread_num_tss_ := size_t_max, thread_numbers_tss_ := (uint16_max, uint16_max) }

/-- The thread-local storage of all system threads, by thread; in the
functions below `self` is the calling thread. -/
abbrev thread_local_storage := Nat → tss

/-- Before any thread has stored anything. -/
def thread_local_storage.fresh : thread_local_storage :=
  fun _ => tss.fresh

/-- The function `set_thread_num_tss` (lines 30-35):
`std::swap(thread_num_tss(), num); return num;`. -/
def set_thread_num_tss (st : thread_local_storage) (self num : Nat) :
    thread_local_storage × Nat :=
  let swapped := (num, (st self).thread_num_tss_)
  (Function.update st self { st self with thread_num_tss_ := swapped.1 }, swapped.2)

/-- The function `get_thread_num_tss` (lines 37-41). -/
def get_thread_num_tss (st : thread_local_storage) (self : Nat) : Nat :=
  (st self).thread_num_tss_

/-- The function `set_thread_numbers_tss` (lines 43-48):
`thread_numbers_tss() = tup`. -/
def set_thread_numbers_tss (st : thread_local_storage) (self : Nat) (tup : thread_tuple) :
    thread_local_storage :=
  Function.update st self { st self with thread_numbers_tss_ := tup }

/-- The function `get_thread_numbers_tss` (lines 50-55). -/
def get_thread_numbers_tss (st : thread_local_storage) (self : Nat) : thread_tuple :=
  (st self).thread_numbers_tss_

/-! ## The constructors of `task_object<Result, F, Executor, Base>` without an executor -/

/-- The constructor `task_object(F const& f)` (lines 274-278): `base_type(f)`,
`exec_(nullptr)`. -/
def task_object.construct_copy (f : Except error V) : task_object V :=
  { task_object.create f with exec_ := none }

/-- The constructor `task_object(F&& f)` (lines 280-284):
`base_type(std::move(f))`, `exec_(nullptr)`. -/
def task_object.construct_move (f : Except error V) : task_object V :=
  { task_object.create f with exec_ := none }

/-- The constructor `task_object(init_no_addref no_addref, F const& f)` (lines
298-302): `base_type(no_addref, f)`, `exec_(nullptr)`. -/
def task_object.construct_no_addref_copy (f : Except error V) : task_object V :=
  { task_object.create f with exec_ := none }

/-- The constructor `task_object(init_no_addref no_addref, F&& f)` (lines
304-307): `base_type(no_addref, std::move(f))` and an empty body; `exec_` has
no initialiser, so the member keeps whatever the storage of the object holds,
the value `indeterminate`. -/
def task_object.construct_no_addref_move (indeterminate : Option executor)
    (f : Except error V) : task_object V :=
  { task_object.create f with exec_ := indeterminate }

/-! ## Sequences of operations on factory objects -/

/-- The member `get_future` (lines 874-895) as a step of the factory: the
factory after the call and the outcome.  The two guards return before
anything is assigned; only then `future_obtained_ = true` and
`std::move(task_)`. -/
def futures_factory.get_future_step (fac : futures_factory) :
    futures_factory × Except error future :=
  if fac.task_.isNone then (fac, .error .task_moved)
  else if fac.future_obtained_ then (fac, .error .future_already_retrieved)
  else
    ({ task_ := none, future_obtained_ := true }, .ok { shared_state_ := fac.task_ })

/-- The operations on factory objects; `i` and `j` are the addresses of the
objects operated on. -/
inductive factory_op (V : Type) where
  | construct_default (i : Nat)
  | construct (i p : Nat) (f : Except error V)
  | construct_with_executor (i p : Nat) (ex : executor) (f : Except error V)
  | move_construct (i j : Nat)
  | move_assign (i j : Nat)
  | get_future (i : Nat)
  | call (i : Nat)
  | apply (i pool : Nat) ( annotation : String) (policy : launch) (priority : thread_priority)
      (stacksize : thread_stacksize) (schedulehint : thread_schedule_hint)
  | set_exception (i : Nat) (e : error)

/-- The factory objects, by address, and the world their tasks live in. -/
structure factories (V : Type) where
  objs : Nat → futures_factory
  world : World V

/-- One operation on the factory objects.  `move_construct i j` constructs the
object `i` from the object `j`; `operator()()` and `apply` are `const` members
and `set_exception` assigns no member, so these three act on the world
only. -/
def factories.step (s : factories V) : factory_op V → factories V
  | .construct_default i =>
    { s with objs := Function.update s.objs i futures_factory.default_constructed }
  | .construct i p f =>
    { objs := Function.update s.objs i (futures_factory.create s.world p f).2,
      world := (futures_factory.create s.world p f).1 }
  | .construct_with_executor i p ex f =>
    { objs := Function.update s.objs i (futures_factory.create_with_executor s.world p ex f).2,
      world := (futures_factory.create_with_executor s.world p ex f).1 }
  | .move_construct i j =>
    { s with
      objs := Function.update
                (Function.update s.objs j (futures_factory.move_construct (s.objs j)).2) i
                (futures_factory.move_construct (s.objs j)).1 }
  | .move_assign i j => { s with objs := futures_factory.move_assign s.objs i j }
  | .get_future i => { s with objs := Function.update s.objs i (s.objs i).get_future_step.1 }
  | .call i => { s with world := ((s.objs i).call s.world).1 }
  | .apply i pool annotation policy priority stacksize schedulehint =>
    { s with world :=
        ((s.objs i).apply s.world pool annotation policy priority stacksize schedulehint).1 }
  | .set_exception i e => { s with world := ((s.objs i).set_exception s.world e).1 }

/-- A sequence of operations on the factory objects, from left to right. -/
def factories.run (s : factories V) (ops : List (factory_op V)) : factories V :=
  ops.foldl factories.step s

/-- Before any constructor with a callable has run: every object is as the
default constructor leaves it. -/
def factories.initial (w : World V) : factories V :=
  { objs := fun _ => futures_factory.default_constructed, world := w }

/-- The flag `future_obtained_` is set only on a factory without a task. -/
def futures_factory.obtained_only_moved (fac : futures_factory) : Prop :=
  fac.future_obtained_ = true → fac.task_ = none

/-- Number of `destroy_thread` calls made on the unit `c` of the pool (none on
a unit that does not exist). -/
def destroyed_at (c : Nat) (l : List thread_data) : Nat :=
  match l[c]? with
  | some u => u.destroyed
  | none => 0

/-- The destroy calls made so far, plus one if the task at `p` still retains a
child handle. -/
def destroy_potential (p : Nat) (w : World V) : Nat :=
  destroy_calls w.threads + (if (w.heap p).runs_as_child_.isSome then 1 else 0)

/-- The destroy calls made so far on the unit `c`, plus one if `c` is the child
handle that the task at `p` still retains. -/
def unit_potential (p c : Nat) (w : World V) : Nat :=
  destroyed_at c w.threads + (if (w.heap p).runs_as_child_ = some c then 1 else 0)

/-- One more as long as the task at `p` has not been started (and so may still
get a handle). -/
def unstarted (p : Nat) (w : World V) : Nat :=
  if (w.heap p).started_ then 0 else 1

/-- From `w` to `w1` neither the potential of the pool nor that of any unit
has grown, for the task at `p`. -/
def potential_le (p : Nat) (w1 w : World V) : Prop :=
  destroy_potential p w1 ≤ destroy_potential p w
  ∧ ∀ c, unit_potential p c w1 ≤ unit_potential p c w

/-- As `potential_le`, counting a task that has not been started as one more
possible destroy call. -/
def lifetime_le (p : Nat) (w1 w : World V) : Prop :=
  destroy_potential p w1 + unstarted p w1 ≤ destroy_potential p w + unstarted p w
  ∧ ∀ c, unit_potential p c w1 + unstarted p w1 ≤ unit_potential p c w + unstarted p w

/-- The step from `w` to `w1` makes no destroy call and leaves the child handle
and the started flag of the task at `p` as they were. -/
def keeps_handle (p : Nat) (w w1 : World V) : Prop :=
  destroy_calls w1.threads = destroy_calls w.threads
  ∧ (w1.heap p).runs_as_child_ = (w.heap p).runs_as_child_
  ∧ (w1.heap p).started_ = (w.heap p).started_
  ∧ ∀ c, destroyed_at c w1.threads = destroyed_at c w.threads

/-! ## Properties of the factory -/

/-- C1 (a failing input): for the factory built in an empty world from a
callable returning 42, the first `get_future` succeeds with a future on the
task, but the second does not fail with `future_already_retrieved`, the error
that the guard on `future_obtained_` (lines 883-889) is there to raise. -/
theorem get_future_twice_not_already_retrieved :
    ((futures_factory.create (World.initial (task_object.create (.ok 0)) 0) 0
        (.ok (42 : Nat))).2.get_future_twice).1
        = .ok ({ shared_state_ := some 0 }, { task_ := none, future_obtained_ := true })
    ∧ ((futures_factory.create (World.initial (task_object.create (.ok 0)) 0) 0
        (.ok (42 : Nat))).2.get_future_twice).2
        ≠ .error .future_already_retrieved := by
  constructor
  · rfl
  · simp [futures_factory.get_future_twice, futures_factory.get_future, futures_factory.create]

/-- C1 (the code at the failing input): for every factory constructed from a
callable, with or without an executor, the first `get_future` succeeds and
returns a future bound to the task, having set `future_obtained_` and moved
the task out of the factory; the second call then meets the guard on `task_`
(line 876) before the guard on `future_obtained_` (line 883) and fails with
`task_moved` instead of `future_already_retrieved`. -/
theorem get_future_twice_task_moved (w : World V) (p : Nat) (f : Except error V)
    (ex : executor) :
    (futures_factory.create w p f).2.get_future_twice
        = (.ok ({ shared_state_ := some p }, { task_ := none, future_obtained_ := true }),
           .error .task_moved)
    ∧ (futures_factory.create_with_executor w p ex f).2.get_future_twice
        = (.ok ({ shared_state_ := some p }, { task_ := none, future_obtained_ := true }),
           .error .task_moved) := by
  constructor <;> rfl

/-- C2: on a factory that holds no task, `operator()()`, `apply`, `get_future`
and `set_exception` each fail with `task_moved` and leave the whole world
(tasks, pool, executors) as it was. -/
theorem no_task_fails_task_moved (fac : futures_factory) (h : fac.task_ = none) (w : World V)
    (pool : Nat) ( annotation : String) (policy : launch) (priority : thread_priority)
    (stacksize : thread_stacksize) (schedulehint : thread_schedule_hint) (e : error) :
    fac.call w = (w, some .task_moved)
    ∧ fac.apply w pool annotation policy priority stacksize schedulehint
        = (w, .error .task_moved)
    ∧ fac.get_future = .error .task_moved
    ∧ fac.set_exception w e = (w, some .task_moved) := by
  simp [futures_factory.call, futures_factory.apply, futures_factory.get_future,
    futures_factory.set_exception, h]

/-- C2, witness: the default-constructed factory and the source of a move, in
an empty world. -/
theorem no_task_fails_task_moved_witness :
    (futures_factory.default_constructed.task_ = none
      ∧ (futures_factory.move_construct { task_ := some 3, future_obtained_ := true }).2.task_
          = none)
    ∧ (futures_factory.default_constructed.call (World.initial (task_object.create (.ok 0)) 0)
          = (World.initial (task_object.create (.ok (0 : Nat))) 0, some .task_moved)
      ∧ futures_factory.default_constructed.apply (World.initial (task_object.create (.ok 0)) 0)
          0 "futures_factory::apply" .async .thread_priority_default .thread_stacksize_default
          { mode := .thread_schedule_hint_mode_none, hint := -1, runs_as_child := false }
          = (World.initial (task_object.create (.ok (0 : Nat))) 0, .error .task_moved)
      ∧ futures_factory.default_constructed.get_future = .error .task_moved
      ∧ futures_factory.default_constructed.set_exception
          (World.initial (task_object.create (.ok 0)) 0) (.user 1)
          = (World.initial (task_object.create (.ok (0 : Nat))) 0, some .task_moved)) :=
  ⟨⟨rfl, rfl⟩, no_task_fails_task_moved futures_factory.default_constructed rfl _ _ _ _ _ _ _ _⟩

/-- C3 (as stated, refuted): after the successful `get_future` on the factory
built from a callable returning 42, `valid()` is false, not true, and
`operator()()` throws `task_moved` instead of running the task. -/
theorem get_future_leaves_factory_invalid :
    (futures_factory.create (World.initial (task_object.create (.ok 0)) 0) 0
        (.ok (42 : Nat))).2.get_future
        = .ok ({ shared_state_ := some 0 }, { task_ := none, future_obtained_ := true })
    ∧ ¬ (futures_factory.valid { task_ := none, future_obtained_ := true } = true)
    ∧ ((futures_factory.call { task_ := none, future_obtained_ := true }
          (futures_factory.create (World.initial (task_object.create (.ok 0)) 0) 0
            (.ok (42 : Nat))).1).2 = some .task_moved)
    ∧ ((futures_factory.call { task_ := none, future_obtained_ := true }
          (futures_factory.create (World.initial (task_object.create (.ok 0)) 0) 0
            (.ok (42 : Nat))).1).1.heap 0).calls = 0 := by
  refine ⟨rfl, by decide, rfl, rfl⟩

/-- C3 (amended): a successful `get_future()` moves the task into the returned
future: the future refers to the task the factory held, the factory afterwards
holds no task (`valid()` is false) with `future_obtained_` set, and
`operator()()` and `apply(...)` called on it fail with `task_moved` without
running or scheduling anything. -/
theorem get_future_moves_task (fac fac1 : futures_factory) (fut : future)
    (h : fac.get_future = .ok (fut, fac1)) (w : World V)
    (pool : Nat) ( annotation : String) (policy : launch) (priority : thread_priority)
    (stacksize : thread_stacksize) (schedulehint : thread_schedule_hint) :
    fut.shared_state_ = fac.task_
    ∧ fac.valid = true
    ∧ fac1.valid = false
    ∧ fac1.future_obtained_ = true
    ∧ fac1.call w = (w, some .task_moved)
    ∧ fac1.apply w pool annotation policy priority stacksize schedulehint
        = (w, .error .task_moved) := by
  unfold futures_factory.get_future at h
  cases ht : fac.task_ with
  | none => simp [ht] at h
  | some p =>
    simp only [ht] at h
    split at h
    · simp at h
    · simp only [Except.ok.injEq, Prod.mk.injEq] at h
      obtain ⟨h1, h2⟩ := h
      subst h1 h2
      simp [futures_factory.valid, futures_factory.call, futures_factory.apply, ht]

/-- C3 (amended), witness: the factory built from a callable returning 42. -/
theorem get_future_moves_task_witness :
    (futures_factory.get_future { task_ := some 0, future_obtained_ := false }
        = .ok ({ shared_state_ := some 0 }, { task_ := none, future_obtained_ := true }))
    ∧ (future.shared_state_ { shared_state_ := some 0 } = some 0
      ∧ futures_factory.valid { task_ := some 0, future_obtained_ := false } = true
      ∧ futures_factory.valid { task_ := none, future_obtained_ := true } = false
      ∧ futures_factory.future_obtained_ { task_ := none, future_obtained_ := true } = true
      ∧ futures_factory.call { task_ := none, future_obtained_ := true }
          (World.initial (task_object.create (.ok (42 : Nat))) 0)
          = (World.initial (task_object.create (.ok (42 : Nat))) 0, some .task_moved)
      ∧ futures_factory.apply { task_ := none, future_obtained_ := true }
          (World.initial (task_object.create (.ok (42 : Nat))) 0)
          0 "futures_factory::apply" .async .thread_priority_default .thread_stacksize_default
          { mode := .thread_schedule_hint_mode_none, hint := -1, runs_as_child := false }
          = (World.initial (task_object.create (.ok (42 : Nat))) 0, .error .task_moved)) :=
  ⟨rfl, get_future_moves_task { task_ := some 0, future_obtained_ := false } _ _ rfl _ _ _ _ _ _ _⟩

/-- C4: move construction gives the new factory exactly the task reference and
the `future_obtained_` flag of the source and leaves the source without a task
(`valid()` false) and with the flag false; move assignment from a different
object does the same for the assigned-to object and touches no third
object. -/
theorem move_transfers_task_and_flag (rhs : futures_factory) (objs : Nat → futures_factory)
    (this_ src : Nat) (h : this_ ≠ src) :
    ((futures_factory.move_construct rhs).1.task_ = rhs.task_
      ∧ (futures_factory.move_construct rhs).1.future_obtained_ = rhs.future_obtained_
      ∧ (futures_factory.move_construct rhs).2.task_ = none
      ∧ (futures_factory.move_construct rhs).2.valid = false
      ∧ (futures_factory.move_construct rhs).2.future_obtained_ = false)
    ∧ ((futures_factory.move_assign objs this_ src this_).task_ = (objs src).task_
      ∧ (futures_factory.move_assign objs this_ src this_).future_obtained_
          = (objs src).future_obtained_
      ∧ (futures_factory.move_assign objs this_ src src).task_ = none
      ∧ (futures_factory.move_assign objs this_ src src).valid = false
      ∧ (futures_factory.move_assign objs this_ src src).future_obtained_ = false
      ∧ ∀ o, o ≠ this_ → o ≠ src → futures_factory.move_assign objs this_ src o = objs o) := by
  refine ⟨⟨rfl, rfl, rfl, rfl, rfl⟩, ?_⟩
  simp only [futures_factory.move_assign, h, ne_eq, not_false_eq_true, if_true]
  refine ⟨?_, ?_, ?_, ?_, ?_, ?_⟩
  · simp [Function.update, h]
  · simp [Function.update, h]
  · simp [Function.update]
  · simp [Function.update, futures_factory.valid]
  · simp [Function.update]
  · intro o h1 h2
    simp [Function.update, h1, h2]

/-- C4, witness: object 0 holds task 7 with the flag set and is moved into
object 1, which held task 9. -/
theorem move_transfers_task_and_flag_witness :
    (0 : Nat) ≠ 1
    ∧ (futures_factory.move_assign
          (fun o => if o = 0 then { task_ := some 7, future_obtained_ := true }
                    else { task_ := some 9, future_obtained_ := false }) 1 0 1).task_ = some 7
    ∧ (futures_factory.move_assign
          (fun o => if o = 0 then { task_ := some 7, future_obtained_ := true }
                    else { task_ := some 9, future_obtained_ := false }) 1 0 0).task_ = none :=
  ⟨by decide,
   (move_transfers_task_and_flag { task_ := some 7, future_obtained_ := true }
      (fun o => if o = 0 then { task_ := some 7, future_obtained_ := true }
                else { task_ := some 9, future_obtained_ := false }) 1 0 (by decide)).2.1,
   (move_transfers_task_and_flag { task_ := some 7, future_obtained_ := true }
      (fun o => if o = 0 then { task_ := some 7, future_obtained_ := true }
                else { task_ := some 9, future_obtained_ := false }) 1 0 (by decide)).2.2.2.1⟩

/-! ## Running a task -/

theorem countP_set_add {α : Type} (P : α → Bool) (l : List α) (i : Nat) (u a : α)
    (h : l[i]? = some u) :
    (l.set i a).countP P + (if P u then 1 else 0) = l.countP P + (if P a then 1 else 0) := by
  induction l generalizing i with
  | nil => simp at h
  | cons b l ih =>
    cases i with
    | zero =>
      simp only [List.getElem?_cons_zero, Option.some.injEq] at h
      subst h
      simp only [List.set_cons_zero, List.countP_cons]
      omega
    | succ i =>
      simp only [List.getElem?_cons_succ] at h
      have := ih i h
      simp only [List.set_cons_succ, List.countP_cons]
      omega

@[simp] theorem store_heap_same (w : World V) (p : Nat) (t : task_object V) :
    (w.store p t).heap p = t := by
  simp [World.store]

theorem store_heap_other (w : World V) (p q : Nat) (t : task_object V) (h : p ≠ q) :
    (w.store q t).heap p = w.heap p := by
  simp [World.store, Function.update, h]

@[simp] theorem store_threads (w : World V) (p : Nat) (t : task_object V) :
    (w.store p t).threads = w.threads := rfl

@[simp] theorem store_posted (w : World V) (p : Nat) (t : task_object V) :
    (w.store p t).posted = w.posted := rfl

@[simp] theorem modify_thread_heap (w : World V) (i : Nat) (g : thread_data → thread_data) :
    (w.modify_thread i g).heap = w.heap := by
  unfold World.modify_thread
  split <;> rfl

@[simp] theorem modify_thread_posted (w : World V) (i : Nat) (g : thread_data → thread_data) :
    (w.modify_thread i g).posted = w.posted := by
  unfold World.modify_thread
  split <;> rfl

theorem modify_thread_threads (w : World V) (i : Nat) (g : thread_data → thread_data)
    (u : thread_data) (h : w.threads[i]? = some u) :
    (w.modify_thread i g).threads = w.threads.set i (g u) := by
  simp [World.modify_thread, h]

theorem modify_thread_none (w : World V) (i : Nat) (g : thread_data → thread_data)
    (h : w.threads[i]? = none) : w.modify_thread i g = w := by
  simp [World.modify_thread, h]

theorem do_run_shape (t : task_object V) :
    ∃ s, t.do_run.1 = { t with calls := t.calls + 1, state_ := s } := by
  unfold task_object.do_run task_object.do_run_impl
  simp only
  split
  · exact ⟨_, rfl⟩
  · split
    · exact ⟨_, rfl⟩
    · exact ⟨_, rfl⟩

@[simp] theorem do_run_calls (t : task_object V) : t.do_run.1.calls = t.calls + 1 := by
  obtain ⟨s, h⟩ := do_run_shape t
  rw [h]

@[simp] theorem do_run_started (t : task_object V) : t.do_run.1.started_ = t.started_ := by
  obtain ⟨s, h⟩ := do_run_shape t
  rw [h]

@[simp] theorem run_impl_threads (w : World V) (q : Nat) : (run_impl w q).threads = w.threads :=
  rfl

@[simp] theorem run_impl_posted (w : World V) (q : Nat) : (run_impl w q).posted = w.posted :=
  rfl

theorem run_impl_heap_same (w : World V) (p : Nat) :
    (run_impl w p).heap p = (w.heap p).do_run.1 := by
  simp [run_impl]

theorem run_impl_heap_other (w : World V) (p q : Nat) (h : p ≠ q) :
    (run_impl w q).heap p = w.heap p := by
  simp [run_impl, store_heap_other _ _ _ _ h]

theorem open_units_set (p : Nat) (l : List thread_data) (i : Nat) (u a : thread_data)
    (h : l[i]? = some u) :
    open_units p (l.set i a) + (if u.is_open p then 1 else 0)
      = open_units p l + (if a.is_open p then 1 else 0) :=
  countP_set_add (thread_data.is_open p) l i u a h

theorem open_posts_set (p : Nat) (l : List posted_work) (i : Nat) (u a : posted_work)
    (h : l[i]? = some u) :
    open_posts p (l.set i a) + (if u.is_open p then 1 else 0)
      = open_posts p l + (if a.is_open p then 1 else 0) :=
  countP_set_add (posted_work.is_open p) l i u a h

theorem run_and_terminate_committed (w : World V) (p i : Nat) (u : thread_data)
    (h : w.threads[i]? = some u) (hu : u.state ≠ .terminated) :
    committed p ((run_impl w u.this_).modify_thread i fun v => { v with state := .terminated })
        = committed p w
    ∧ (((run_impl w u.this_).modify_thread i
          fun v => { v with state := .terminated }).heap p).started_ = (w.heap p).started_ := by
  have hth : ((run_impl w u.this_).modify_thread i
      fun v => { v with state := .terminated }).threads
      = w.threads.set i { u with state := .terminated } :=
    modify_thread_threads _ _ _ u (by simpa using h)
  have hc := open_units_set p w.threads i u { u with state := .terminated } h
  have hclosed : thread_data.is_open p { u with state := .terminated } = false := by
    simp [thread_data.is_open]
  rw [hclosed] at hc
  by_cases hp : u.this_ = p
  · have hopen : u.is_open p = true := by simp [thread_data.is_open, hp, hu]
    rw [hopen] at hc
    simp only [if_true, Bool.false_eq_true, if_false, add_zero] at hc
    subst hp
    simp only [committed, hth, modify_thread_heap, modify_thread_posted,
      run_impl_heap_same, do_run_calls, do_run_started, run_impl_posted, and_true]
    omega
  · have hne : p ≠ u.this_ := fun e => hp e.symm
    have hopen : u.is_open p = false := by simp [thread_data.is_open, hp]
    rw [hopen] at hc
    simp only [Bool.false_eq_true, if_false, add_zero] at hc
    simp only [committed, hth, modify_thread_heap, modify_thread_posted,
      run_impl_heap_other _ _ _ hne, run_impl_posted, and_true]
    omega

theorem modify_thread_committed (w : World V) (p i : Nat) (g : thread_data → thread_data)
    (hg : ∀ u, w.threads[i]? = some u →
      ((g u).this_ = u.this_ ∧ ((g u).state = .terminated ↔ u.state = .terminated))) :
    committed p (w.modify_thread i g) = committed p w := by
  cases h : w.threads[i]? with
  | none => rw [modify_thread_none _ _ _ h]
  | some u =>
    obtain ⟨h1, h2⟩ := hg u h
    have hc := open_units_set p w.threads i u (g u) h
    have he : (g u).is_open p = u.is_open p := by
      unfold thread_data.is_open
      rw [h1]
      by_cases ht : u.state = .terminated
      · simp [ht, h2.2 ht]
      · have hgs : (g u).state ≠ .terminated := fun e => ht (h2.1 e)
        have e1 : ((g u).state != thread_state_enum.terminated) = true := by
          simpa using hgs
        have e2 : (u.state != thread_state_enum.terminated) = true := by
          simpa using ht
        rw [e1, e2]
    rw [he] at hc
    simp only [committed, modify_thread_threads _ _ _ u h, modify_thread_heap,
      modify_thread_posted]
    omega

theorem same_commitment_refl (p : Nat) (w : World V) : same_commitment p w w :=
  ⟨rfl, rfl⟩

theorem same_commitment_trans (p : Nat) (w w1 w2 : World V) (h1 : same_commitment p w w1)
    (h2 : same_commitment p w1 w2) : same_commitment p w w2 :=
  ⟨h2.1.trans h1.1, h2.2.trans h1.2⟩

theorem one_shot_of_same_commitment (p : Nat) (w w1 : World V) (h : same_commitment p w w1)
    (hw : one_shot p w) : one_shot p w1 := by
  unfold one_shot at *
  rw [h.1, h.2]
  exact hw

theorem store_same_commitment (w : World V) (p q : Nat) (t : task_object V)
    (hc : t.calls = (w.heap q).calls) (hs : t.started_ = (w.heap q).started_) :
    same_commitment p w (w.store q t) := by
  by_cases hq : p = q
  · subst hq
    simp [same_commitment, committed, hc, hs]
  · simp [same_commitment, committed, store_heap_other _ _ _ _ hq]

theorem modify_thread_same_commitment (w : World V) (p i : Nat) (g : thread_data → thread_data)
    (hg : ∀ u, w.threads[i]? = some u →
      ((g u).this_ = u.this_ ∧ ((g u).state = .terminated ↔ u.state = .terminated))) :
    same_commitment p w (w.modify_thread i g) :=
  ⟨modify_thread_committed w p i g hg, by simp⟩

theorem pool_claim_same_commitment (w : World V) (p i : Nat) :
    same_commitment p w (pool_claim w i) := by
  unfold pool_claim
  split
  · exact same_commitment_refl p w
  · rename_i u hu
    split
    · rename_i hst
      apply modify_thread_same_commitment
      intro v hv
      rw [hu] at hv
      cases hv
      refine ⟨rfl, ?_⟩
      rcases hst with h | h | h <;> simp [h]
    · exact same_commitment_refl p w

theorem pool_finish_same_commitment (w : World V) (p i : Nat) :
    same_commitment p w (pool_finish w i) := by
  unfold pool_finish
  split
  · exact same_commitment_refl p w
  · rename_i u hu
    split
    · rename_i hst
      exact run_and_terminate_committed w p i u hu (by simp [hst])
    · exact same_commitment_refl p w

theorem execute_thread_same_commitment (w : World V) (p i : Nat) :
    same_commitment p w (execute_thread w i).1 := by
  unfold execute_thread
  simp only
  split
  · exact ⟨rfl, rfl⟩
  · rename_i u hu
    split
    · exact ⟨rfl, rfl⟩
    · rename_i hcl
      have hne : u.state ≠ .terminated := by
        intro e
        apply hcl
        simp [thread_data.claimed, e]
      exact run_and_terminate_committed
        { w with inline_attempts := w.inline_attempts + 1 } p i u hu hne

theorem destroy_thread_same_commitment (w : World V) (p i : Nat) :
    same_commitment p w (destroy_thread w i) := by
  apply modify_thread_same_commitment
  intro u _
  exact ⟨rfl, Iff.rfl⟩

theorem run_child_inline_same_commitment (w : World V) (p q : Nat) :
    same_commitment p w (task_object.run_child_inline w q) := by
  unfold task_object.run_child_inline
  split
  · rename_i child _
    split
    · simp only
      split
      · refine same_commitment_trans p _ _ _ (execute_thread_same_commitment w p child) ?_
        refine same_commitment_trans p _ _ _ ?_ (destroy_thread_same_commitment _ p child)
        exact store_same_commitment _ p q _ rfl rfl
      · exact execute_thread_same_commitment w p child
    · exact same_commitment_refl p w
  · exact same_commitment_refl p w

theorem wait_same_commitment (w : World V) (p q : Nat) :
    same_commitment p w (future.wait w q).1 := by
  have h : (future.wait w q).1 = task_object.run_child_inline w q := by
    unfold future.wait task_object.get_result_void future_data.get_result_void
    split <;> rfl
  rw [h]
  exact run_child_inline_same_commitment w p q

theorem executor_run_same_commitment (w : World V) (p j : Nat) :
    same_commitment p w (executor_run w j) := by
  unfold executor_run
  split
  · exact same_commitment_refl p w
  · rename_i q hq
    split
    · exact same_commitment_refl p w
    · rename_i hd
      have hc := open_posts_set p w.posted j q { q with done := true } hq
      have hclosed : posted_work.is_open p { q with done := true } = false := by
        simp [posted_work.is_open]
      rw [hclosed] at hc
      by_cases hp : q.this_ = p
      · have hopen : q.is_open p = true := by simp [posted_work.is_open, hp, hd]
        rw [hopen] at hc
        simp only [if_true, Bool.false_eq_true, if_false, add_zero] at hc
        subst hp
        simp only [same_commitment, committed, run_impl_heap_same, do_run_calls,
          do_run_started, run_impl_threads, and_true]
        omega
      · have hne : p ≠ q.this_ := fun e => hp e.symm
        have hopen : q.is_open p = false := by simp [posted_work.is_open, hp]
        rw [hopen] at hc
        simp only [Bool.false_eq_true, if_false, add_zero] at hc
        simp only [same_commitment, committed, run_impl_heap_other _ _ _ hne,
          run_impl_threads, and_true]
        omega

theorem set_exception_same_commitment (fac : futures_factory) (w : World V) (p : Nat)
    (e : error) : same_commitment p w (fac.set_exception w e).1 := by
  unfold futures_factory.set_exception
  split
  · exact same_commitment_refl p w
  · split
    · exact store_same_commitment _ p _ _ rfl rfl
    · exact same_commitment_refl p w

theorem check_started_ok (t t1 : task_object V) (h : t.check_started = .ok t1) :
    t.started_ = false ∧ t1 = { t with started_ := true } := by
  unfold task_object.check_started at h
  split at h
  · cases h
  · rename_i hs
    simp only [Except.ok.injEq] at h
    exact ⟨by simpa using hs, h.symm⟩

theorem check_started_error (t : task_object V) (e : error)
    (h : t.check_started = .error e) : t.started_ = true ∧ e = .already_started := by
  unfold task_object.check_started at h
  split at h
  · rename_i hs
    simp only [Except.error.injEq] at h
    exact ⟨hs, h.symm⟩
  · cases h

theorem start_credit (w : World V) (p q : Nat) (t1 : task_object V) (hw : one_shot p w)
    (h : (w.heap q).check_started = .ok t1) : credit p q (w.store q t1) := by
  obtain ⟨hs, ht⟩ := check_started_ok _ _ h
  subst ht
  unfold one_shot at hw
  by_cases hq : p = q
  · subst hq
    rw [hs] at hw
    simp only [Bool.false_eq_true, if_false, Nat.le_zero_eq] at hw
    simp only [committed] at hw
    simp only [credit, committed, store_heap_same, store_threads, store_posted, if_true]
    omega
  · simp only [credit, committed, store_heap_other _ _ _ _ hq, store_threads, store_posted,
      hq, if_false, add_zero]
    exact hw

theorem one_shot_of_credit (w : World V) (p q : Nat) (h : credit p q w) : one_shot p w := by
  unfold credit at h
  unfold one_shot
  omega

theorem register_one_shot (w : World V) (p q pool : Nat) (description : String)
    (initial_state : thread_state_enum) (run_now : Bool) (priority : thread_priority)
    (schedulehint : thread_schedule_hint) (stacksize : thread_stacksize)
    (h : credit p q w) :
    one_shot p (register_thread_nullary w pool q description initial_state run_now priority
      schedulehint stacksize).1 := by
  unfold credit at h
  simp only [one_shot, committed, register_thread_nullary, open_units, List.countP_append,
    List.countP_cons, List.countP_nil, thread_data.is_open]
  simp only [committed, open_units] at h
  by_cases hq : p = q
  · subst hq
    simp only [if_true] at h
    split <;> omega
  · have hqp : (q == p) = false := by simpa using fun e : q = p => hq e.symm
    simp only [hq, if_false, add_zero] at h
    simp only [hqp, Bool.false_and, Bool.false_eq_true, if_false, add_zero, zero_add]
    omega

theorem post_one_shot (w w2 : World V) (p q : Nat) (ex : executor)
    (schedulehint : thread_schedule_hint) ( annotation : String) (h : credit p q w)
    (hp : post w ex q schedulehint annotation = .ok w2) : one_shot p w2 := by
  unfold post at hp
  split at hp
  · cases hp
  · simp only [Except.ok.injEq] at hp
    subst hp
    unfold credit at h
    simp only [one_shot, committed, open_posts, List.countP_append,
      List.countP_cons, List.countP_nil, posted_work.is_open]
    simp only [committed, open_posts] at h
    by_cases hq : p = q
    · subst hq
      simp only [if_true] at h
      split <;> omega
    · have hqp : (q == p) = false := by simpa using fun e : q = p => hq e.symm
      simp only [hq, if_false, add_zero] at h
      simp only [hqp, Bool.false_and, Bool.false_eq_true, if_false, add_zero, zero_add]
      omega

theorem activate_new_same_commitment (w : World V) (p q pool : Nat) (description : String)
    (run_now : Bool) (priority : thread_priority) (schedulehint : thread_schedule_hint)
    (stacksize : thread_stacksize) (t : task_object V) :
    same_commitment p
      ((register_thread_nullary w pool q description .suspended run_now priority
        schedulehint stacksize).1.store q t)
      (set_thread_state
        ((register_thread_nullary w pool q description .suspended run_now priority
          schedulehint stacksize).1.store q t)
        (register_thread_nullary w pool q description .suspended run_now priority
          schedulehint stacksize).2 .pending) := by
  simp only [register_thread_nullary, set_thread_state]
  apply modify_thread_same_commitment
  intro u hu
  simp only [store_threads, List.getElem?_concat_length, Option.some.injEq] at hu
  subst hu
  simp

theorem apply_void_one_shot (w : World V) (p q pool : Nat) ( annotation : String)
    (policy : launch) (priority : thread_priority) (stacksize : thread_stacksize)
    (schedulehint : thread_schedule_hint) (hw : one_shot p w) :
    one_shot p
      (task_object.apply_void w q pool annotation policy priority stacksize schedulehint).1 := by
  unfold task_object.apply_void
  split
  · exact hw
  · rename_i t1 ht1
    have hcr := start_credit w p q t1 hw ht1
    simp only
    split
    · split
      · exact one_shot_of_same_commitment p _ _ (store_same_commitment _ p q _ rfl rfl)
          (register_one_shot _ p q _ _ _ _ _ _ _ hcr)
      · exact register_one_shot _ p q _ _ _ _ _ _ _ hcr
    · split
      · refine one_shot_of_same_commitment p _ _
          (activate_new_same_commitment _ p q _ _ _ _ _ _ _) ?_
        exact one_shot_of_same_commitment p _ _ (store_same_commitment _ p q _ rfl rfl)
          (register_one_shot _ p q _ _ _ _ _ _ _ hcr)
      · exact register_one_shot _ p q _ _ _ _ _ _ _ hcr

theorem apply_one_shot (w : World V) (p q pool : Nat) ( annotation : String)
    (policy : launch) (priority : thread_priority) (stacksize : thread_stacksize)
    (schedulehint : thread_schedule_hint) (hw : one_shot p w) :
    one_shot p
      (task_object.apply w q pool annotation policy priority stacksize schedulehint).1 := by
  unfold task_object.apply
  split
  · split
    · exact hw
    · rename_i t1 ht1
      have hcr := start_credit w p q t1 hw ht1
      split
      · exact one_shot_of_credit _ p q hcr
      · rename_i w2 hw2
        exact post_one_shot _ w2 p q _ _ _ hcr hw2
  · exact apply_void_one_shot w p q pool annotation policy priority stacksize schedulehint hw

theorem run_one_shot (w : World V) (p q : Nat) (hw : one_shot p w) :
    one_shot p (w.store q (w.heap q).run.1) := by
  unfold task_object.run
  split
  · exact one_shot_of_same_commitment p _ _ (store_same_commitment _ p q _ rfl rfl) hw
  · rename_i t1 ht1
    have hcr := start_credit w p q t1 hw ht1
    unfold credit at hcr
    by_cases hq : p = q
    · subst hq
      simp only [committed, store_heap_same, store_threads, store_posted, if_true] at hcr
      simp only [one_shot, committed, store_heap_same, store_threads, store_posted,
        do_run_calls, do_run_started]
      omega
    · simp only [committed, store_heap_other _ _ _ _ hq, store_threads, store_posted, hq,
        if_false, add_zero] at hcr
      simp only [one_shot, committed, store_heap_other _ _ _ _ hq, store_threads,
        store_posted]
      exact hcr

theorem step_one_shot (s : system V) (p : Nat) (o : op) (hw : one_shot p s.world) :
    one_shot p (s.step o).world := by
  cases o with
  | call =>
    simp only [system.step, futures_factory.call]
    split
    · exact hw
    · exact run_one_shot _ p _ hw
  | apply pool a policy priority stacksize schedulehint =>
    simp only [system.step, futures_factory.apply]
    split
    · exact hw
    · exact apply_one_shot _ p _ _ _ _ _ _ _ hw
  | get_future =>
    simp only [system.step]
    split <;> exact hw
  | set_exception e =>
    exact one_shot_of_same_commitment p _ _ (set_exception_same_commitment _ _ p e) hw
  | wait =>
    simp only [system.step]
    split
    · exact one_shot_of_same_commitment p _ _ (wait_same_commitment _ p _) hw
    · exact hw
  | pool_claim i =>
    exact one_shot_of_same_commitment p _ _ (pool_claim_same_commitment _ p i) hw
  | pool_finish i =>
    exact one_shot_of_same_commitment p _ _ (pool_finish_same_commitment _ p i) hw
  | executor_run j =>
    exact one_shot_of_same_commitment p _ _ (executor_run_same_commitment _ p j) hw

theorem run_ops_one_shot (ops : List op) (s : system V) (p : Nat) (hw : one_shot p s.world) :
    one_shot p (s.run ops).world := by
  induction ops generalizing s with
  | nil => exact hw
  | cons o ops ih => exact ih (s.step o) (step_one_shot s p o hw)

theorem countP_eq_zero_of_forall {α : Type} (P : α → Bool) (l : List α)
    (h : ∀ a ∈ l, P a = false) : l.countP P = 0 := by
  induction l with
  | nil => rfl
  | cons b l ih =>
    have hb := h b (List.mem_cons_self b l)
    have hl := ih fun a ha => h a (List.mem_cons_of_mem b ha)
    simp [List.countP_cons, hb, hl]

theorem start_one_shot (w : World V) (p : Nat) (ex : Option executor) (f : Except error V)
    (hu : ∀ u ∈ w.threads, u.this_ ≠ p) (hq : ∀ q ∈ w.posted, q.this_ ≠ p) :
    one_shot p (system.start w p ex f).world := by
  have h1 : open_units p w.threads = 0 :=
    countP_eq_zero_of_forall _ _ fun u m => by simp [thread_data.is_open, hu u m]
  have h2 : open_posts p w.posted = 0 :=
    countP_eq_zero_of_forall _ _ fun q m => by simp [posted_work.is_open, hq q m]
  cases ex <;>
    simp [system.start, futures_factory.create, futures_factory.create_with_executor,
      one_shot, committed, h1, h2, task_object.create, task_object.create_with_executor]

/-- C6: starting from a factory freshly constructed (with or without an
executor) on a task that no unit and no posted work refers to yet, after any
sequence of `operator()()`, `apply`, `get_future`, `set_exception`, waits on
the future, and steps of the pool and of the executors, the callable has been
invoked at most once.  An `apply` (of either task class) on a task that is
already started is rejected by `check_started` and registers and posts
nothing; and an `apply` that returns has started its task. -/
theorem callable_invoked_at_most_once (w : World V) (p : Nat) (ex : Option executor)
    (f : Except error V) (ops : List op)
    (hu : ∀ u ∈ w.threads, u.this_ ≠ p) (hq : ∀ q ∈ w.posted, q.this_ ≠ p) :
    (((system.start w p ex f).run ops).world.heap p).calls ≤ 1
    ∧ (∀ (w1 : World V) (q pool : Nat) (a : String) (policy : launch)
        (priority : thread_priority) (stacksize : thread_stacksize)
        (schedulehint : thread_schedule_hint), (w1.heap q).started_ = true →
        task_object.apply_void w1 q pool a policy priority stacksize schedulehint
            = (w1, .error .already_started)
        ∧ task_object.apply w1 q pool a policy priority stacksize schedulehint
            = (w1, .error .already_started))
    ∧ (∀ (w1 : World V) (q pool : Nat) (a : String) (policy : launch)
        (priority : thread_priority) (stacksize : thread_stacksize)
        (schedulehint : thread_schedule_hint) (id : thread_id_type),
        (task_object.apply w1 q pool a policy priority stacksize schedulehint).2 = .ok id →
        ((task_object.apply w1 q pool a policy priority stacksize schedulehint).1.heap
            q).started_ = true) := by
  refine ⟨?_, ?_, ?_⟩
  · have h := run_ops_one_shot ops (system.start w p ex f) p (start_one_shot w p ex f hu hq)
    unfold one_shot committed at h
    split at h <;> omega
  · intro w1 q pool a policy priority stacksize schedulehint hs
    have hv : task_object.apply_void w1 q pool a policy priority stacksize schedulehint
        = (w1, .error .already_started) := by
      simp [task_object.apply_void, task_object.check_started, hs]
    refine ⟨hv, ?_⟩
    unfold task_object.apply
    split
    · simp [task_object.check_started, hs]
    · exact hv
  · intro w1 q pool a policy priority stacksize schedulehint id h
    cases hc : (w1.heap q).check_started with
    | error e =>
      obtain ⟨hs, he⟩ := check_started_error _ _ hc
      cases hx : (w1.heap q).exec_ <;>
        simp [task_object.apply, task_object.apply_void, hx, hc] at h
    | ok t1 =>
      obtain ⟨_, ht⟩ := check_started_ok _ _ hc
      cases hx : (w1.heap q).exec_ with
      | some e =>
        cases hp : post (w1.store q t1) e q schedulehint a with
        | error e2 => simp [task_object.apply, hx, hc, hp] at h
        | ok w2 =>
          simp only [task_object.apply, hx, hc, hp]
          unfold post at hp
          split at hp
          · cases hp
          · simp only [Except.ok.injEq] at hp
            subst hp
            simp [ht]
      | none =>
        simp only [task_object.apply, hx, task_object.apply_void, hc]
        split
        · split <;> simp [register_thread_nullary, ht]
        · split
          · simp [register_thread_nullary, set_thread_state, ht]
          · simp [register_thread_nullary, ht]

/-- C6, witness: schedule as child twice, retrieve the future, wait twice, call
the factory, let the pool service the unit: the callable ran exactly once. -/
theorem callable_invoked_at_most_once_witness :
    (((system.start (World.initial (task_object.create (.ok 0)) 0) 0 none
        (.ok (42 : Nat))).run
        [.apply 0 "futures_factory::apply" .async .thread_priority_default
            .thread_stacksize_default
            { mode := .thread_schedule_hint_mode_none, hint := -1, runs_as_child := true },
         .apply 0 "futures_factory::apply" .async .thread_priority_default
            .thread_stacksize_default
            { mode := .thread_schedule_hint_mode_none, hint := -1, runs_as_child := true },
         .get_future, .wait, .wait, .call, .pool_claim 0, .pool_finish 0]).world.heap 0).calls
        ≤ 1
    ∧ (((system.start (World.initial (task_object.create (.ok 0)) 0) 0 none
        (.ok (42 : Nat))).run
        [.apply 0 "futures_factory::apply" .async .thread_priority_default
            .thread_stacksize_default
            { mode := .thread_schedule_hint_mode_none, hint := -1, runs_as_child := true },
         .apply 0 "futures_factory::apply" .async .thread_priority_default
            .thread_stacksize_default
            { mode := .thread_schedule_hint_mode_none, hint := -1, runs_as_child := true },
         .get_future, .wait, .wait, .call, .pool_claim 0, .pool_finish 0]).world.heap 0).calls
        = 1 :=
  ⟨(callable_invoked_at_most_once (World.initial (task_object.create (.ok 0)) 0) 0 none
      (.ok (42 : Nat)) _ (by simp [World.initial]) (by simp [World.initial])).1, rfl⟩

/-! ## Waiting on a task that runs as a child -/

@[simp] theorem modify_thread_inline_attempts (w : World V) (i : Nat)
    (g : thread_data → thread_data) :
    (w.modify_thread i g).inline_attempts = w.inline_attempts := by
  unfold World.modify_thread
  split <;> rfl

theorem execute_thread_inline_attempts (w : World V) (i : Nat) :
    (execute_thread w i).1.inline_attempts = w.inline_attempts + 1 := by
  unfold execute_thread
  simp only
  split
  · rfl
  · split
    · rfl
    · simp [run_impl, World.store]

theorem execute_thread_failed (w : World V) (i : Nat) (h : (execute_thread w i).2 = false) :
    (execute_thread w i).1 = { w with inline_attempts := w.inline_attempts + 1 } := by
  unfold execute_thread at h ⊢
  simp only at h ⊢
  split
  · rfl
  · rename_i u hu
    simp only [hu] at h
    split
    · rfl
    · rename_i hc
      simp [hc] at h

/-- C7: `get_result_void` calls `execute_thread` on the retained unit exactly
when a run-as-child handle is retained and the completion state is Empty
(otherwise it leaves the world as it is); if the attempt fails nothing but the
attempt has happened and the handle is kept, if it succeeds the handle is
cleared; and in every case the call returns what the blocking wait of the base
class returns in the world after the attempt. -/
theorem get_result_void_inline_attempt {R : Type} (base : World V → Nat → World V × R)
    (w : World V) (p : Nat) :
    task_object.get_result_void base w p = base (task_object.run_child_inline w p) p
    ∧ ((task_object.run_child_inline w p).inline_attempts = w.inline_attempts + 1
        ↔ ((w.heap p).runs_as_child_.isSome = true ∧ (w.heap p).state_.is_empty = true))
    ∧ (¬ ((w.heap p).runs_as_child_.isSome = true ∧ (w.heap p).state_.is_empty = true) →
        task_object.run_child_inline w p = w)
    ∧ (∀ child, (w.heap p).runs_as_child_ = some child → (w.heap p).state_.is_empty = true →
        (execute_thread w child).2 = false →
          task_object.run_child_inline w p = (execute_thread w child).1
          ∧ ((task_object.run_child_inline w p).heap p).runs_as_child_ = some child
          ∧ (task_object.run_child_inline w p).heap = w.heap
          ∧ (task_object.run_child_inline w p).threads = w.threads)
    ∧ (∀ child, (w.heap p).runs_as_child_ = some child → (w.heap p).state_.is_empty = true →
        (execute_thread w child).2 = true →
          task_object.run_child_inline w p
            = destroy_thread ((execute_thread w child).1.store p
                { (execute_thread w child).1.heap p with runs_as_child_ := none }) child
          ∧ ((task_object.run_child_inline w p).heap p).runs_as_child_ = none) := by
  refine ⟨rfl, ?_, ?_, ?_, ?_⟩
  · unfold task_object.run_child_inline
    cases hc : (w.heap p).runs_as_child_ with
    | none => simp
    | some child =>
      cases he : (w.heap p).state_.is_empty with
      | false => simp
      | true =>
        simp only [if_true, Option.isSome_some, and_self, iff_true]
        split
        · simp [destroy_thread, execute_thread_inline_attempts, World.store]
        · exact execute_thread_inline_attempts w child
  · intro h
    unfold task_object.run_child_inline
    cases hc : (w.heap p).runs_as_child_ with
    | none => rfl
    | some child =>
      cases he : (w.heap p).state_.is_empty with
      | false => simp
      | true => simp [hc, he] at h
  · intro child hc he hf
    have hr : task_object.run_child_inline w p = (execute_thread w child).1 := by
      unfold task_object.run_child_inline
      simp [hc, he, hf]
    rw [hr, execute_thread_failed w child hf]
    exact ⟨rfl, hc, rfl, rfl⟩
  · intro child hc he hs
    have hr : task_object.run_child_inline w p
        = destroy_thread ((execute_thread w child).1.store p
            { (execute_thread w child).1.heap p with runs_as_child_ := none }) child := by
      unfold task_object.run_child_inline
      simp [hc, he, hs]
    rw [hr]
    exact ⟨rfl, by simp [destroy_thread]⟩

/-- C7, witness: the unit of a task scheduled as a child has been claimed by
the pool and is still running, so the state is Empty and the inline attempt
fails: the handle is kept. -/
theorem get_result_void_inline_attempt_witness :
    ((((system.start (World.initial (task_object.create (.ok 0)) 0) 0 none
        (.ok (42 : Nat))).run
        [.apply 0 "futures_factory::apply" .async .thread_priority_default
            .thread_stacksize_default
            { mode := .thread_schedule_hint_mode_none, hint := -1, runs_as_child := true },
         .pool_claim 0]).world.heap 0).runs_as_child_ = some 0)
    ∧ ((task_object.run_child_inline
        ((system.start (World.initial (task_object.create (.ok 0)) 0) 0 none
          (.ok (42 : Nat))).run
          [.apply 0 "futures_factory::apply" .async .thread_priority_default
              .thread_stacksize_default
              { mode := .thread_schedule_hint_mode_none, hint := -1, runs_as_child := true },
           .pool_claim 0]).world 0).heap 0).runs_as_child_ = some 0 :=
  ⟨rfl,
   ((get_result_void_inline_attempt future_data.get_result_void
      ((system.start (World.initial (task_object.create (.ok 0)) 0) 0 none
          (.ok (42 : Nat))).run
          [.apply 0 "futures_factory::apply" .async .thread_priority_default
              .thread_stacksize_default
              { mode := .thread_schedule_hint_mode_none, hint := -1, runs_as_child := true },
           .pool_claim 0]).world 0).2.2.2.1 0 rfl rfl rfl).2.1⟩

theorem apply_child_world (w : World V) (p pool : Nat) ( annotation : String)
    (policy : launch) (priority : thread_priority) (stacksize : thread_stacksize)
    (schedulehint : thread_schedule_hint) (hx : (w.heap p).exec_ = none)
    (hs : (w.heap p).started_ = false) (hpol : policy ≠ .fork)
    (hc : schedulehint.runs_as_child = true) :
    task_object.apply w p pool annotation policy priority stacksize schedulehint
      = ({ w with
            heap := Function.update w.heap p
              { w.heap p with started_ := true, runs_as_child_ := some w.threads.length }
            threads := w.threads ++ [{ pool := pool, this_ := p, description := annotation,
                                       initial_state := .suspended, run_now := true,
                                       priority := priority, schedulehint := schedulehint,
                                       stacksize := stacksize, state := .pending,
                                       destroyed := 0 }] },
         .ok (some w.threads.length)) := by
  simp [task_object.apply, task_object.apply_void, task_object.check_started, hx, hs, hpol, hc,
    register_thread_nullary, set_thread_state, World.modify_thread, World.store]

theorem wait_runs_child (w : World V) (p child : Nat) (u : thread_data) (v : V)
    (hh : (w.heap p).runs_as_child_ = some child) (he : (w.heap p).state_ = .empty)
    (hu : w.threads[child]? = some u) (hc : u.claimed = false) (hp : u.this_ = p)
    (hf : (w.heap p).f_ = .ok v) :
    future.wait w p
      = ({ w with
            heap := Function.update w.heap p
              { w.heap p with calls := (w.heap p).calls + 1, state_ := .ready v,
                              runs_as_child_ := none }
            threads := w.threads.set child
              { u with state := .terminated, destroyed := u.destroyed + 1 }
            inline_attempts := w.inline_attempts + 1 },
         .value v) := by
  have hlt : child < w.threads.length := by
    rcases Nat.lt_or_ge child w.threads.length with h | h
    · exact h
    · rw [List.getElem?_eq_none_iff.mpr h] at hu
      cases hu
  simp [future.wait, task_object.get_result_void, task_object.run_child_inline, hh, he,
    lifecycle.is_empty, execute_thread, hu, hc, hp, run_impl, task_object.do_run,
    task_object.do_run_impl, hf, lifecycle.set_value, lifecycle.is_terminal, bind, Except.bind,
    destroy_thread, World.modify_thread, World.store, future_data.get_result_void, hlt]

theorem wait_without_child (w : World V) (p : Nat) (v : V)
    (hh : (w.heap p).runs_as_child_ = none) (hs : (w.heap p).state_ = .ready v) :
    future.wait w p = (w, .value v) := by
  simp [future.wait, task_object.get_result_void, task_object.run_child_inline, hh,
    future_data.get_result_void, hs]

theorem child_scenario_world (w : World V) (p pool : Nat) (v : V) ( annotation : String)
    (policy : launch) (priority : thread_priority) (stacksize : thread_stacksize)
    (schedulehint : thread_schedule_hint) (hpol : policy ≠ .fork)
    (hc : schedulehint.runs_as_child = true) :
    child_scenario w p pool v annotation policy priority stacksize schedulehint
      = { factory := { task_ := none, future_obtained_ := true },
          retrieved := { shared_state_ := some p },
          world :=
            { w with
              heap := Function.update w.heap p
                { task_object.create (.ok v) with
                  started_ := true, runs_as_child_ := some w.threads.length }
              threads := w.threads ++ [{ pool := pool, this_ := p, description := annotation,
                                         initial_state := .suspended, run_now := true,
                                         priority := priority, schedulehint := schedulehint,
                                         stacksize := stacksize, state := .pending,
                                         destroyed := 0 }] } } := by
  have hx : ((w.store p (task_object.create (.ok v))).heap p).exec_ = none := by
    simp [task_object.create]
  have hs : ((w.store p (task_object.create (.ok v))).heap p).started_ = false := by
    simp [task_object.create]
  simp only [child_scenario, system.run, List.foldl, system.start, system.step,
    futures_factory.create, futures_factory.apply]
  rw [apply_child_world _ p pool annotation policy priority stacksize schedulehint hx hs hpol hc]
  simp [futures_factory.get_future, World.store]

/-- C8: in the run-as-child scenario (a factory built from a callable returning
`v`, scheduled on the pool with the run-as-child hint, the unit not yet touched
by the pool) the retrieved future is on the task and the unit's id is retained
as the child handle; waiting on the future attempts the unit inline, yields
`v` with the callable invoked exactly once, and clears the handle to the
invalid id; any number of later waits change nothing (no further attempt, the
call count stays 1) and yield `v` again. -/
theorem run_as_child_wait_runs_inline (w : World V) (p pool : Nat) (v : V)
    ( annotation : String) (policy : launch) (priority : thread_priority)
    (stacksize : thread_stacksize) (schedulehint : thread_schedule_hint)
    (hpol : policy ≠ .fork) (hc : schedulehint.runs_as_child = true) :
    (child_scenario w p pool v annotation policy priority stacksize
        schedulehint).retrieved.shared_state_ = some p
    ∧ ((child_scenario w p pool v annotation policy priority stacksize
        schedulehint).world.heap p).runs_as_child_ = some w.threads.length
    ∧ ((child_scenario w p pool v annotation policy priority stacksize
        schedulehint).world.heap p).calls = 0
    ∧ (future.wait (child_scenario w p pool v annotation policy priority stacksize
        schedulehint).world p).2 = .value v
    ∧ ((future.wait (child_scenario w p pool v annotation policy priority stacksize
        schedulehint).world p).1.heap p).calls = 1
    ∧ ((future.wait (child_scenario w p pool v annotation policy priority stacksize
        schedulehint).world p).1.heap p).runs_as_child_ = none
    ∧ (future.wait (child_scenario w p pool v annotation policy priority stacksize
        schedulehint).world p).1.inline_attempts = w.inline_attempts + 1
    ∧ ∀ n : Nat,
        (fun x => (future.wait x p).1)^[n]
            (future.wait (child_scenario w p pool v annotation policy priority stacksize
              schedulehint).world p).1
          = (future.wait (child_scenario w p pool v annotation policy priority stacksize
              schedulehint).world p).1
        ∧ (future.wait ((fun x => (future.wait x p).1)^[n]
            (future.wait (child_scenario w p pool v annotation policy priority stacksize
              schedulehint).world p).1) p).2 = .value v := by
  rw [child_scenario_world w p pool v annotation policy priority stacksize schedulehint hpol hc]
  simp only
  rw [wait_runs_child _ p w.threads.length
      { pool := pool, this_ := p, description := annotation, initial_state := .suspended,
        run_now := true, priority := priority, schedulehint := schedulehint,
        stacksize := stacksize, state := .pending, destroyed := 0 } v
      (by simp) (by simp [task_object.create]) (by simp) (by simp [thread_data.claimed]) rfl
      (by simp [task_object.create])]
  refine ⟨trivial, by simp, by simp [task_object.create], rfl, by simp [task_object.create],
    by simp, rfl, ?_⟩
  have hw : ∀ x : World V, (x.heap p).runs_as_child_ = none → (x.heap p).state_ = .ready v →
      future.wait x p = (x, .value v) := fun x h1 h2 => wait_without_child x p v h1 h2
  intro n
  simp only
  have hit : ∀ (m : Nat) (x : World V), (x.heap p).runs_as_child_ = none →
      (x.heap p).state_ = .ready v → (fun y => (future.wait y p).1)^[m] x = x := by
    intro m
    induction m with
    | zero => intro x _ _; rfl
    | succ m ih =>
      intro x h1 h2
      rw [Function.iterate_succ_apply]
      simp only [hw x h1 h2]
      exact ih x h1 h2
  rw [hit n _ (by simp) (by simp)]
  exact ⟨rfl, by rw [hw _ (by simp) (by simp)]⟩

/-- C8, witness: the callable returns 42, default arguments with the
run-as-child hint, empty pool. -/
theorem run_as_child_wait_runs_inline_witness :
    (launch.async ≠ launch.fork)
    ∧ (future.wait (child_scenario (World.initial (task_object.create (.ok 0)) 0) 0 0
        (42 : Nat) "futures_factory::apply" .async .thread_priority_default
        .thread_stacksize_default
        { mode := .thread_schedule_hint_mode_none, hint := -1, runs_as_child := true }).world
        0).2 = .value 42
    ∧ ((future.wait (child_scenario (World.initial (task_object.create (.ok 0)) 0) 0 0
        (42 : Nat) "futures_factory::apply" .async .thread_priority_default
        .thread_stacksize_default
        { mode := .thread_schedule_hint_mode_none, hint := -1, runs_as_child := true }).world
        0).1.heap 0).calls = 1 :=
  ⟨by decide,
   (run_as_child_wait_runs_inline (World.initial (task_object.create (.ok 0)) 0) 0 0
      (42 : Nat) "futures_factory::apply" .async .thread_priority_default
      .thread_stacksize_default
      { mode := .thread_schedule_hint_mode_none, hint := -1, runs_as_child := true }
      (by decide) rfl).2.2.2.1,
   (run_as_child_wait_runs_inline (World.initial (task_object.create (.ok 0)) 0) 0 0
      (42 : Nat) "futures_factory::apply" .async .thread_priority_default
      .thread_stacksize_default
      { mode := .thread_schedule_hint_mode_none, hint := -1, runs_as_child := true }
      (by decide) rfl).2.2.2.2.1⟩

/-! ## The branches of `apply` -/

/-- C9: on a task that has a bound executor, has not been started, and whose
executor accepts the submission, `apply` posts exactly one unit of work
(`run_impl` on this task) to that executor with the given schedule hint and
annotation, registers nothing with the pool whatever the policy and the
run-as-child hint are, leaves the child handle as it was (invalid, as
constructed), and returns the invalid thread id; the only other effect is that
the task is marked started. -/
theorem apply_posts_to_executor (w : World V) (p pool : Nat) (ex : executor)
    ( annotation : String) (policy : launch) (priority : thread_priority)
    (stacksize : thread_stacksize) (schedulehint : thread_schedule_hint)
    (hx : (w.heap p).exec_ = some ex) (hs : (w.heap p).started_ = false)
    (hpost : ex.post_raises = none) :
    (task_object.apply w p pool annotation policy priority stacksize schedulehint).2 = .ok none
    ∧ (task_object.apply w p pool annotation policy priority stacksize schedulehint).1.posted
        = w.posted ++ [{ exec := ex.id, this_ := p, schedulehint := schedulehint,
                         annotation := annotation, done := false }]
    ∧ (task_object.apply w p pool annotation policy priority stacksize schedulehint).1.threads
        = w.threads
    ∧ ((task_object.apply w p pool annotation policy priority stacksize schedulehint).1.heap
        p).runs_as_child_ = (w.heap p).runs_as_child_
    ∧ (task_object.apply w p pool annotation policy priority stacksize schedulehint).1.heap
        = Function.update w.heap p { w.heap p with started_ := true } := by
  have hc : (w.heap p).check_started = .ok { w.heap p with started_ := true } := by
    simp [task_object.check_started, hs]
  have hp : post (w.store p { w.heap p with started_ := true }) ex p schedulehint annotation
      = .ok { w.store p { w.heap p with started_ := true } with
              posted := w.posted ++ [{ exec := ex.id, this_ := p, schedulehint := schedulehint,
                                       annotation := annotation, done := false }] } := by
    simp [post, hpost]
  have ha : task_object.apply w p pool annotation policy priority stacksize schedulehint
      = ({ w.store p { w.heap p with started_ := true } with
            posted := w.posted ++ [{ exec := ex.id, this_ := p, schedulehint := schedulehint,
                                     annotation := annotation, done := false }] },
         .ok none) := by
    unfold task_object.apply
    rw [hx]
    simp only
    rw [hc]
    simp only
    rw [hp]
  rw [ha]
  refine ⟨rfl, rfl, rfl, ?_, rfl⟩
  simp [World.store]

/-- C9, witness: a task built with an accepting executor, scheduled with the
fork policy and the run-as-child hint. -/
theorem apply_posts_to_executor_witness :
    ((futures_factory.create_with_executor (World.initial (task_object.create (.ok 0)) 0) 0
        { id := 5, post_raises := none } (.ok (42 : Nat))).1.heap 0).runs_as_child_ = none
    ∧ (task_object.apply
        (futures_factory.create_with_executor (World.initial (task_object.create (.ok 0)) 0) 0
          { id := 5, post_raises := none } (.ok (42 : Nat))).1
        0 0 "futures_factory::apply" .fork .thread_priority_default .thread_stacksize_default
        { mode := .thread_schedule_hint_mode_none, hint := -1, runs_as_child := true }).1.posted
        = [{ exec := 5, this_ := 0,
             schedulehint := { mode := .thread_schedule_hint_mode_none, hint := -1,
                               runs_as_child := true },
             annotation := "futures_factory::apply", done := false }]
    ∧ (task_object.apply
        (futures_factory.create_with_executor (World.initial (task_object.create (.ok 0)) 0) 0
          { id := 5, post_raises := none } (.ok (42 : Nat))).1
        0 0 "futures_factory::apply" .fork .thread_priority_default .thread_stacksize_default
        { mode := .thread_schedule_hint_mode_none, hint := -1, runs_as_child := true }).1.threads
        = [] :=
  ⟨rfl,
   (apply_posts_to_executor
      (futures_factory.create_with_executor (World.initial (task_object.create (.ok 0)) 0) 0
        { id := 5, post_raises := none } (.ok (42 : Nat))).1
      0 0 { id := 5, post_raises := none } "futures_factory::apply" .fork
      .thread_priority_default .thread_stacksize_default
      { mode := .thread_schedule_hint_mode_none, hint := -1, runs_as_child := true }
      rfl rfl rfl).2.1,
   (apply_posts_to_executor
      (futures_factory.create_with_executor (World.initial (task_object.create (.ok 0)) 0) 0
        { id := 5, post_raises := none } (.ok (42 : Nat))).1
      0 0 { id := 5, post_raises := none } "futures_factory::apply" .fork
      .thread_priority_default .thread_stacksize_default
      { mode := .thread_schedule_hint_mode_none, hint := -1, runs_as_child := true }
      rfl rfl rfl).2.2.1⟩

/-- C10: on a task without a bound executor that has not been started, `apply`
with `policy == launch::fork` registers exactly one unit with the given pool:
`run_impl` on this task, created `pending_do_not_schedule` with `run_now`, with
priority `thread_priority_boost` whatever priority was passed, with the
schedule hint set to mode `thread` and to the current worker thread number
(as the `std::int16_t` the hint holds, which is that number itself below
`2^15`), and with the caller's stack size; nothing is posted to an executor.
The same holds for `apply` of the class without an executor member. -/
theorem apply_fork_registers_boosted (w : World V) (p pool : Nat) ( annotation : String)
    (priority : thread_priority) (stacksize : thread_stacksize)
    (schedulehint : thread_schedule_hint) (hs : (w.heap p).started_ = false) :
    ((w.heap p).exec_ = none →
      task_object.apply w p pool annotation .fork priority stacksize schedulehint
        = task_object.apply_void w p pool annotation .fork priority stacksize schedulehint)
    ∧ (task_object.apply_void w p pool annotation .fork priority stacksize schedulehint).2
        = .ok (some w.threads.length)
    ∧ (task_object.apply_void w p pool annotation .fork priority stacksize
        schedulehint).1.threads
        = w.threads ++ [{ pool := pool, this_ := p, description := annotation,
                          initial_state := .pending_do_not_schedule, run_now := true,
                          priority := .thread_priority_boost,
                          schedulehint :=
                            { mode := .thread_schedule_hint_mode_thread,
                              hint := to_int16 w.worker_thread_num,
                              runs_as_child := schedulehint.runs_as_child },
                          stacksize := stacksize, state := .pending_do_not_schedule,
                          destroyed := 0 }]
    ∧ (task_object.apply_void w p pool annotation .fork priority stacksize
        schedulehint).1.posted = w.posted
    ∧ (w.worker_thread_num < 32768 →
        to_int16 w.worker_thread_num = (w.worker_thread_num : Int)) := by
  refine ⟨?_, ?_, ?_, ?_, ?_⟩
  · intro hx
    simp [task_object.apply, hx]
  · simp only [task_object.apply_void, task_object.check_started, hs]
    cases schedulehint.runs_as_child <;> simp [register_thread_nullary, World.store]
  · simp only [task_object.apply_void, task_object.check_started, hs]
    cases schedulehint.runs_as_child <;> simp [register_thread_nullary, World.store]
  · simp only [task_object.apply_void, task_object.check_started, hs]
    cases schedulehint.runs_as_child <;> simp [register_thread_nullary, World.store]
  · intro h
    unfold to_int16
    have h1 : w.worker_thread_num % 65536 = w.worker_thread_num := Nat.mod_eq_of_lt (by omega)
    rw [h1]
    simp [h]

/-- C10, witness: worker 3 forks a fresh task with low priority, a large stack
and a hint asking for another thread. -/
theorem apply_fork_registers_boosted_witness :
    (task_object.apply
        (futures_factory.create (World.initial (task_object.create (.ok 0)) 3) 0
          (.ok (42 : Nat))).1
        0 1 "fork" .fork .thread_priority_low .thread_stacksize_large
        { mode := .thread_schedule_hint_mode_numa, hint := 9, runs_as_child := false })
      = task_object.apply_void
        (futures_factory.create (World.initial (task_object.create (.ok 0)) 3) 0
          (.ok (42 : Nat))).1
        0 1 "fork" .fork .thread_priority_low .thread_stacksize_large
        { mode := .thread_schedule_hint_mode_numa, hint := 9, runs_as_child := false }
    ∧ (task_object.apply_void
        (futures_factory.create (World.initial (task_object.create (.ok 0)) 3) 0
          (.ok (42 : Nat))).1
        0 1 "fork" .fork .thread_priority_low .thread_stacksize_large
        { mode := .thread_schedule_hint_mode_numa, hint := 9, runs_as_child := false }).1.threads
      = [{ pool := 1, this_ := 0, description := "fork",
           initial_state := .pending_do_not_schedule, run_now := true,
           priority := .thread_priority_boost,
           schedulehint := { mode := .thread_schedule_hint_mode_thread, hint := 3,
                             runs_as_child := false },
           stacksize := .thread_stacksize_large, state := .pending_do_not_schedule,
           destroyed := 0 }] :=
  ⟨(apply_fork_registers_boosted
      (futures_factory.create (World.initial (task_object.create (.ok 0)) 3) 0
        (.ok (42 : Nat))).1
      0 1 "fork" .thread_priority_low .thread_stacksize_large
      { mode := .thread_schedule_hint_mode_numa, hint := 9, runs_as_child := false } rfl).1 rfl,
   (apply_fork_registers_boosted
      (futures_factory.create (World.initial (task_object.create (.ok 0)) 3) 0
        (.ok (42 : Nat))).1
      0 1 "fork" .thread_priority_low .thread_stacksize_large
      { mode := .thread_schedule_hint_mode_numa, hint := 9, runs_as_child := false }
      rfl).2.2.1⟩

/-- C11: on a task without a bound executor that has not been started, `apply`
with a policy other than fork and a hint that requests run-as-child registers
exactly one unit with the pool, created `suspended` (with `run_now`) with the
caller's priority, stack size and hint, stores the id of that unit as the
child handle of the task, then sets that same unit to `pending`, and returns
its id; nothing is posted to an executor.  The same holds for `apply` of the
class without an executor member. -/
theorem apply_child_registers_suspended (w : World V) (p pool : Nat) ( annotation : String)
    (policy : launch) (priority : thread_priority) (stacksize : thread_stacksize)
    (schedulehint : thread_schedule_hint) (hs : (w.heap p).started_ = false)
    (hpol : policy ≠ .fork) (hc : schedulehint.runs_as_child = true) :
    ((w.heap p).exec_ = none →
      task_object.apply w p pool annotation policy priority stacksize schedulehint
        = task_object.apply_void w p pool annotation policy priority stacksize schedulehint)
    ∧ (register_thread_nullary (w.store p { w.heap p with started_ := true }) pool p annotation
        .suspended true priority schedulehint stacksize).2 = some w.threads.length
    ∧ (register_thread_nullary (w.store p { w.heap p with started_ := true }) pool p annotation
        .suspended true priority schedulehint stacksize).1.threads
        = w.threads ++ [{ pool := pool, this_ := p, description := annotation,
                          initial_state := .suspended, run_now := true,
                          priority := priority, schedulehint := schedulehint,
                          stacksize := stacksize, state := .suspended, destroyed := 0 }]
    ∧ task_object.apply_void w p pool annotation policy priority stacksize schedulehint
        = (set_thread_state
            ((register_thread_nullary (w.store p { w.heap p with started_ := true }) pool p
                annotation .suspended true priority schedulehint stacksize).1.store p
              { w.heap p with started_ := true, runs_as_child_ := some w.threads.length })
            (some w.threads.length) .pending,
           .ok (some w.threads.length))
    ∧ (task_object.apply_void w p pool annotation policy priority stacksize
        schedulehint).1.threads
        = w.threads ++ [{ pool := pool, this_ := p, description := annotation,
                          initial_state := .suspended, run_now := true,
                          priority := priority, schedulehint := schedulehint,
                          stacksize := stacksize, state := .pending, destroyed := 0 }]
    ∧ ((task_object.apply_void w p pool annotation policy priority stacksize
        schedulehint).1.heap p).runs_as_child_ = some w.threads.length
    ∧ (task_object.apply_void w p pool annotation policy priority stacksize
        schedulehint).1.posted = w.posted := by
  have hv : task_object.apply_void w p pool annotation policy priority stacksize schedulehint
      = (set_thread_state
          ((register_thread_nullary (w.store p { w.heap p with started_ := true }) pool p
              annotation .suspended true priority schedulehint stacksize).1.store p
            { w.heap p with started_ := true, runs_as_child_ := some w.threads.length })
          (some w.threads.length) .pending,
         .ok (some w.threads.length)) := by
    simp [task_object.apply_void, task_object.check_started, hs, hpol, hc,
      register_thread_nullary, World.store]
  refine ⟨?_, rfl, rfl, hv, ?_, ?_, ?_⟩
  · intro hx
    simp [task_object.apply, hx]
  · rw [hv]
    simp [register_thread_nullary, set_thread_state, World.modify_thread, World.store]
  · rw [hv]
    simp [register_thread_nullary, set_thread_state, World.modify_thread, World.store]
  · rw [hv]
    simp [register_thread_nullary, set_thread_state, World.modify_thread, World.store]

/-- C11, witness: a fresh task scheduled with the default policy, high
priority, a small stack and the run-as-child hint, in a pool that already
holds one unit of another task. -/
theorem apply_child_registers_suspended_witness :
    launch.async ≠ launch.fork
    ∧ (task_object.apply_void
        (futures_factory.create
          { World.initial (task_object.create (.ok 0)) 0 with
            threads := [{ pool := 0, this_ := 7, description := "other",
                          initial_state := .pending, run_now := false,
                          priority := .thread_priority_normal,
                          schedulehint := { mode := .thread_schedule_hint_mode_none, hint := -1,
                                            runs_as_child := false },
                          stacksize := .thread_stacksize_default, state := .pending,
                          destroyed := 0 }] }
          0 (.ok (42 : Nat))).1
        0 2 "child" .async .thread_priority_high .thread_stacksize_small
        { mode := .thread_schedule_hint_mode_thread, hint := 4, runs_as_child := true }).2
      = .ok (some 1)
    ∧ ((task_object.apply_void
        (futures_factory.create
          { World.initial (task_object.create (.ok 0)) 0 with
            threads := [{ pool := 0, this_ := 7, description := "other",
                          initial_state := .pending, run_now := false,
                          priority := .thread_priority_normal,
                          schedulehint := { mode := .thread_schedule_hint_mode_none, hint := -1,
                                            runs_as_child := false },
                          stacksize := .thread_stacksize_default, state := .pending,
                          destroyed := 0 }] }
          0 (.ok (42 : Nat))).1
        0 2 "child" .async .thread_priority_high .thread_stacksize_small
        { mode := .thread_schedule_hint_mode_thread, hint := 4, runs_as_child := true }).1.heap
        0).runs_as_child_ = some 1 :=
  ⟨by decide, rfl,
   (apply_child_registers_suspended
      (futures_factory.create
        { World.initial (task_object.create (.ok 0)) 0 with
          threads := [{ pool := 0, this_ := 7, description := "other",
                        initial_state := .pending, run_now := false,
                        priority := .thread_priority_normal,
                        schedulehint := { mode := .thread_schedule_hint_mode_none, hint := -1,
                                          runs_as_child := false },
                        stacksize := .thread_stacksize_default, state := .pending,
                        destroyed := 0 }] }
        0 (.ok (42 : Nat))).1
      0 2 "child" .async .thread_priority_high .thread_stacksize_small
      { mode := .thread_schedule_hint_mode_thread, hint := 4, runs_as_child := true }
      rfl (by decide) rfl).2.2.2.2.2.1⟩

/-- C12: on a task without a bound executor that has not been started, `apply`
with a policy other than fork and a hint that does not request run-as-child
registers exactly one unit with the pool, created `pending` (without
`run_now`) with exactly the caller's priority, stack size and schedule hint,
leaves the child handle as it was (invalid, as constructed), and returns the
invalid thread id; nothing is posted to an executor.  The same holds for
`apply` of the class without an executor member. -/
theorem apply_default_registers_pending (w : World V) (p pool : Nat) ( annotation : String)
    (policy : launch) (priority : thread_priority) (stacksize : thread_stacksize)
    (schedulehint : thread_schedule_hint) (hs : (w.heap p).started_ = false)
    (hpol : policy ≠ .fork) (hc : schedulehint.runs_as_child = false) :
    ((w.heap p).exec_ = none →
      task_object.apply w p pool annotation policy priority stacksize schedulehint
        = task_object.apply_void w p pool annotation policy priority stacksize schedulehint)
    ∧ (task_object.apply_void w p pool annotation policy priority stacksize schedulehint).2
        = .ok none
    ∧ (task_object.apply_void w p pool annotation policy priority stacksize
        schedulehint).1.threads
        = w.threads ++ [{ pool := pool, this_ := p, description := annotation,
                          initial_state := .pending, run_now := false,
                          priority := priority, schedulehint := schedulehint,
                          stacksize := stacksize, state := .pending, destroyed := 0 }]
    ∧ ((task_object.apply_void w p pool annotation policy priority stacksize
        schedulehint).1.heap p).runs_as_child_ = (w.heap p).runs_as_child_
    ∧ (task_object.apply_void w p pool annotation policy priority stacksize
        schedulehint).1.heap = Function.update w.heap p { w.heap p with started_ := true }
    ∧ (task_object.apply_void w p pool annotation policy priority stacksize
        schedulehint).1.posted = w.posted := by
  have hv : task_object.apply_void w p pool annotation policy priority stacksize schedulehint
      = ((register_thread_nullary (w.store p { w.heap p with started_ := true }) pool p
            annotation .pending false priority schedulehint stacksize).1, .ok none) := by
    simp [task_object.apply_void, task_object.check_started, hs, hpol, hc]
  refine ⟨?_, ?_, ?_, ?_, ?_, ?_⟩
  · intro hx
    simp [task_object.apply, hx]
  · rw [hv]
  · rw [hv]
    rfl
  · rw [hv]
    simp [register_thread_nullary, World.store]
  · rw [hv]
    rfl
  · rw [hv]
    rfl

/-- C12, witness: a fresh task scheduled with the default arguments. -/
theorem apply_default_registers_pending_witness :
    launch.async ≠ launch.fork
    ∧ ((futures_factory.create (World.initial (task_object.create (.ok 0)) 0) 0
          (.ok (42 : Nat))).1.heap 0).runs_as_child_ = none
    ∧ (task_object.apply_void
        (futures_factory.create (World.initial (task_object.create (.ok 0)) 0) 0
          (.ok (42 : Nat))).1
        0 0 "futures_factory::apply" .async .thread_priority_default .thread_stacksize_default
        { mode := .thread_schedule_hint_mode_none, hint := -1, runs_as_child := false }).2
      = .ok none
    ∧ (task_object.apply_void
        (futures_factory.create (World.initial (task_object.create (.ok 0)) 0) 0
          (.ok (42 : Nat))).1
        0 0 "futures_factory::apply" .async .thread_priority_default .thread_stacksize_default
        { mode := .thread_schedule_hint_mode_none, hint := -1, runs_as_child := false }).1.threads
      = [{ pool := 0, this_ := 0, description := "futures_factory::apply",
           initial_state := .pending, run_now := false,
           priority := .thread_priority_default,
           schedulehint := { mode := .thread_schedule_hint_mode_none, hint := -1,
                             runs_as_child := false },
           stacksize := .thread_stacksize_default, state := .pending, destroyed := 0 }] :=
  ⟨by decide, rfl,
   (apply_default_registers_pending
      (futures_factory.create (World.initial (task_object.create (.ok 0)) 0) 0
        (.ok (42 : Nat))).1
      0 0 "futures_factory::apply" .async .thread_priority_default .thread_stacksize_default
      { mode := .thread_schedule_hint_mode_none, hint := -1, runs_as_child := false }
      rfl (by decide) rfl).2.1,
   (apply_default_registers_pending
      (futures_factory.create (World.initial (task_object.create (.ok 0)) 0) 0
        (.ok (42 : Nat))).1
      0 0 "futures_factory::apply" .async .thread_priority_default .thread_stacksize_default
      { mode := .thread_schedule_hint_mode_none, hint := -1, runs_as_child := false }
      rfl (by decide) rfl).2.2.1⟩

/-! ## Destruction of a task -/

theorem run_as_child_wait_runs_inline_aux (w : World V) (p pool : Nat) (v : V)
    ( annotation : String) (policy : launch) (priority : thread_priority)
    (stacksize : thread_stacksize) (schedulehint : thread_schedule_hint)
    (hpol : policy ≠ .fork) (hc : schedulehint.runs_as_child = true) :
    ((future.wait (child_scenario w p pool v annotation policy priority stacksize
        schedulehint).world p).1.heap p).runs_as_child_ = none := by
  rw [child_scenario_world w p pool v annotation policy priority stacksize schedulehint hpol hc]
  simp only
  rw [wait_runs_child _ p w.threads.length
      { pool := pool, this_ := p, description := annotation, initial_state := .suspended,
        run_now := true, priority := priority, schedulehint := schedulehint,
        stacksize := stacksize, state := .pending, destroyed := 0 } v
      (by simp) (by simp [task_object.create]) (by simp) (by simp [thread_data.claimed]) rfl
      (by simp [task_object.create])]
  simp

theorem sum_map_set_add {α : Type} (g : α → Nat) (l : List α) (i : Nat) (u a : α)
    (h : l[i]? = some u) :
    ((l.set i a).map g).sum + g u = (l.map g).sum + g a := by
  induction l generalizing i with
  | nil => simp at h
  | cons b l ih =>
    cases i with
    | zero =>
      simp only [List.getElem?_cons_zero, Option.some.injEq] at h
      subst h
      simp only [List.set_cons_zero, List.map_cons, List.sum_cons]
      omega
    | succ i =>
      simp only [List.getElem?_cons_succ] at h
      have := ih i h
      simp only [List.set_cons_succ, List.map_cons, List.sum_cons]
      omega

theorem destroy_thread_calls (w : World V) (c : Nat) (u : thread_data)
    (h : w.threads[c]? = some u) :
    (destroy_thread w c).threads = w.threads.set c { u with destroyed := u.destroyed + 1 }
    ∧ destroy_calls (destroy_thread w c).threads = destroy_calls w.threads + 1 := by
  have ht : (destroy_thread w c).threads
      = w.threads.set c { u with destroyed := u.destroyed + 1 } := by
    simp [destroy_thread, World.modify_thread, h]
  refine ⟨ht, ?_⟩
  have hsum := sum_map_set_add thread_data.destroyed w.threads c u
    { u with destroyed := u.destroyed + 1 } h
  rw [ht]
  simp only [destroy_calls]
  simp only at hsum
  omega

/-- C13: the destructor of a task destroys a unit if and only if a child
handle is retained: without a handle it leaves the world as it is; with a
handle it calls `destroy_thread` on exactly that unit (one more destroy call,
on that unit, nothing else changed), and a destroy call happens only when a
handle is retained.  In particular, for a task that `apply` scheduled as a
child the handle is set and destruction destroys its unit, while after a
successful inline execution the handle is cleared and destruction destroys
nothing. -/
theorem destructor_destroys_retained_child (w : World V) (p pool : Nat) (v : V)
    ( annotation : String) (policy : launch) (priority : thread_priority)
    (stacksize : thread_stacksize) (schedulehint : thread_schedule_hint) :
    ((w.heap p).runs_as_child_ = none → task_object.destructor w p = w)
    ∧ (∀ c u, (w.heap p).runs_as_child_ = some c → w.threads[c]? = some u →
        task_object.destructor w p = destroy_thread w c
        ∧ (task_object.destructor w p).threads
            = w.threads.set c { u with destroyed := u.destroyed + 1 }
        ∧ destroy_calls (task_object.destructor w p).threads = destroy_calls w.threads + 1
        ∧ (task_object.destructor w p).heap = w.heap
        ∧ (task_object.destructor w p).posted = w.posted)
    ∧ (destroy_calls (task_object.destructor w p).threads ≠ destroy_calls w.threads →
        (w.heap p).runs_as_child_.isSome = true)
    ∧ (policy ≠ .fork → schedulehint.runs_as_child = true →
        destroy_calls (task_object.destructor
            (child_scenario w p pool v annotation policy priority stacksize schedulehint).world
            p).threads
          = destroy_calls w.threads + 1
        ∧ task_object.destructor
            (future.wait (child_scenario w p pool v annotation policy priority stacksize
              schedulehint).world p).1 p
          = (future.wait (child_scenario w p pool v annotation policy priority stacksize
              schedulehint).world p).1) := by
  refine ⟨?_, ?_, ?_, ?_⟩
  · intro h
    simp [task_object.destructor, h]
  · intro c u hc hu
    have hd : task_object.destructor w p = destroy_thread w c := by
      simp [task_object.destructor, hc]
    rw [hd]
    exact ⟨rfl, (destroy_thread_calls w c u hu).1, (destroy_thread_calls w c u hu).2,
      by simp [destroy_thread], by simp [destroy_thread]⟩
  · intro h
    cases hc : (w.heap p).runs_as_child_ with
    | none =>
      exfalso
      apply h
      simp [task_object.destructor, hc]
    | some c => rfl
  · intro hpol hchild
    have hr := run_as_child_wait_runs_inline_aux w p pool v annotation policy priority stacksize
      schedulehint hpol hchild
    refine ⟨?_, ?_⟩
    · rw [child_scenario_world w p pool v annotation policy priority stacksize schedulehint
        hpol hchild]
      have hd := destroy_thread_calls
        ({ w with
            heap := Function.update w.heap p
              { task_object.create (.ok v) with
                started_ := true, runs_as_child_ := some w.threads.length }
            threads := w.threads ++ [{ pool := pool, this_ := p, description := annotation,
                                       initial_state := .suspended, run_now := true,
                                       priority := priority, schedulehint := schedulehint,
                                       stacksize := stacksize, state := .pending,
                                       destroyed := 0 }] } : World V)
        w.threads.length
        { pool := pool, this_ := p, description := annotation,
          initial_state := .suspended, run_now := true,
          priority := priority, schedulehint := schedulehint,
          stacksize := stacksize, state := .pending, destroyed := 0 } (by simp)
      simp only [task_object.destructor, Function.update_same]
      rw [hd.2]
      simp [destroy_calls]
    · simp [task_object.destructor, hr]

/-- C13, witness: a task scheduled as a child in an empty pool is destroyed
before anything ran: its unit gets the one destroy call; after a wait that ran
the unit inline the destructor changes nothing. -/
theorem destructor_destroys_retained_child_witness :
    launch.async ≠ launch.fork
    ∧ destroy_calls (task_object.destructor
        (child_scenario (World.initial (task_object.create (.ok 0)) 0) 0 0 (42 : Nat)
          "futures_factory::apply" .async .thread_priority_default .thread_stacksize_default
          { mode := .thread_schedule_hint_mode_none, hint := -1, runs_as_child := true }).world
        0).threads
      = destroy_calls (World.initial (task_object.create (.ok (0 : Nat))) 0).threads + 1
    ∧ task_object.destructor
        (future.wait (child_scenario (World.initial (task_object.create (.ok 0)) 0) 0 0
          (42 : Nat) "futures_factory::apply" .async .thread_priority_default
          .thread_stacksize_default
          { mode := .thread_schedule_hint_mode_none, hint := -1, runs_as_child := true }).world
          0).1 0
      = (future.wait (child_scenario (World.initial (task_object.create (.ok 0)) 0) 0 0
          (42 : Nat) "futures_factory::apply" .async .thread_priority_default
          .thread_stacksize_default
          { mode := .thread_schedule_hint_mode_none, hint := -1, runs_as_child := true }).world
          0).1 :=
  ⟨by decide,
   ((destructor_destroys_retained_child (World.initial (task_object.create (.ok 0)) 0) 0 0
      (42 : Nat) "futures_factory::apply" .async .thread_priority_default
      .thread_stacksize_default
      { mode := .thread_schedule_hint_mode_none, hint := -1, runs_as_child := true }).2.2.2
      (by decide) rfl).1,
   ((destructor_destroys_retained_child (World.initial (task_object.create (.ok 0)) 0) 0 0
      (42 : Nat) "futures_factory::apply" .async .thread_priority_default
      .thread_stacksize_default
      { mode := .thread_schedule_hint_mode_none, hint := -1, runs_as_child := true }).2.2.2
      (by decide) rfl).2⟩

/-! ## Failing submission -/

/-- C14: on a task with a bound executor that has not been started, when
`parallel::execution::post` throws `e`, `apply` throws that same `e` to its
caller, through the factory as well; the completion state of the task is what
it was (it is not made Faulted), the callable is not invoked, and nothing is
posted or registered.  The task has been marked started by then. -/
theorem apply_post_failure_propagates (w : World V) (p pool : Nat) (ex : executor) (e : error)
    ( annotation : String) (policy : launch) (priority : thread_priority)
    (stacksize : thread_stacksize) (schedulehint : thread_schedule_hint) (flag : Bool)
    (hx : (w.heap p).exec_ = some ex) (hs : (w.heap p).started_ = false)
    (hpost : ex.post_raises = some e) :
    (task_object.apply w p pool annotation policy priority stacksize schedulehint).2 = .error e
    ∧ (futures_factory.apply { task_ := some p, future_obtained_ := flag } w pool annotation
        policy priority stacksize schedulehint).2 = .error e
    ∧ ((task_object.apply w p pool annotation policy priority stacksize schedulehint).1.heap
        p).state_ = (w.heap p).state_
    ∧ ((task_object.apply w p pool annotation policy priority stacksize schedulehint).1.heap
        p).calls = (w.heap p).calls
    ∧ (task_object.apply w p pool annotation policy priority stacksize schedulehint).1.posted
        = w.posted
    ∧ (task_object.apply w p pool annotation policy priority stacksize schedulehint).1.threads
        = w.threads
    ∧ (task_object.apply w p pool annotation policy priority stacksize schedulehint).1.heap
        = Function.update w.heap p { w.heap p with started_ := true } := by
  have hc : (w.heap p).check_started = .ok { w.heap p with started_ := true } := by
    simp [task_object.check_started, hs]
  have hp : post (w.store p { w.heap p with started_ := true }) ex p schedulehint annotation
      = .error e := by
    simp [post, hpost]
  have ha : task_object.apply w p pool annotation policy priority stacksize schedulehint
      = (w.store p { w.heap p with started_ := true }, .error e) := by
    unfold task_object.apply
    rw [hx]
    simp only
    rw [hc]
    simp only
    rw [hp]
  refine ⟨?_, ?_, ?_, ?_, ?_, ?_, ?_⟩
  · rw [ha]
  · simp only [futures_factory.apply]
    rw [ha]
  · rw [ha]
    simp
  · rw [ha]
    simp
  · rw [ha]
    rfl
  · rw [ha]
    rfl
  · rw [ha]
    rfl

/-- C14, witness: a task bound to an executor whose `post` throws
`submission_failed`. -/
theorem apply_post_failure_propagates_witness :
    (task_object.apply
        (futures_factory.create_with_executor (World.initial (task_object.create (.ok 0)) 0) 0
          { id := 5, post_raises := some .submission_failed } (.ok (42 : Nat))).1
        0 0 "futures_factory::apply" .async .thread_priority_default .thread_stacksize_default
        { mode := .thread_schedule_hint_mode_none, hint := -1, runs_as_child := false }).2
      = .error .submission_failed
    ∧ ((task_object.apply
        (futures_factory.create_with_executor (World.initial (task_object.create (.ok 0)) 0) 0
          { id := 5, post_raises := some .submission_failed } (.ok (42 : Nat))).1
        0 0 "futures_factory::apply" .async .thread_priority_default .thread_stacksize_default
        { mode := .thread_schedule_hint_mode_none, hint := -1, runs_as_child := false }).1.heap
        0).state_ = .empty :=
  ⟨(apply_post_failure_propagates
      (futures_factory.create_with_executor (World.initial (task_object.create (.ok 0)) 0) 0
        { id := 5, post_raises := some .submission_failed } (.ok (42 : Nat))).1
      0 0 { id := 5, post_raises := some .submission_failed } .submission_failed
      "futures_factory::apply" .async .thread_priority_default .thread_stacksize_default
      { mode := .thread_schedule_hint_mode_none, hint := -1, runs_as_child := false } false
      rfl rfl rfl).1,
   (apply_post_failure_propagates
      (futures_factory.create_with_executor (World.initial (task_object.create (.ok 0)) 0) 0
        { id := 5, post_raises := some .submission_failed } (.ok (42 : Nat))).1
      0 0 { id := 5, post_raises := some .submission_failed } .submission_failed
      "futures_factory::apply" .async .thread_priority_default .thread_stacksize_default
      { mode := .thread_schedule_hint_mode_none, hint := -1, runs_as_child := false } false
      rfl rfl rfl).2.2.1⟩

/-! ## Monotonicity of the completion state -/

theorem advances_refl (s : lifecycle V) : lifecycle.advances s s :=
  Or.inl rfl

theorem advances_trans (s s1 s2 : lifecycle V) (h1 : lifecycle.advances s s1)
    (h2 : lifecycle.advances s1 s2) : lifecycle.advances s s2 := by
  rcases h1 with h1 | ⟨a, b⟩
  · subst h1
    exact h2
  · rcases h2 with h2 | ⟨c, _⟩
    · subst h2
      exact Or.inr ⟨a, b⟩
    · rw [b] at c
      cases c

theorem advances_rank (s s1 : lifecycle V) (h : lifecycle.advances s s1) :
    s.rank ≤ s1.rank ∧ (s.is_terminal = true → s1 = s) := by
  rcases h with h | ⟨a, b⟩
  · subst h
    exact ⟨Nat.le_refl _, fun _ => rfl⟩
  · refine ⟨?_, fun c => ?_⟩
    · cases s <;> cases s1 <;> simp_all [lifecycle.rank, lifecycle.is_terminal]
    · rw [a] at c
      cases c

theorem set_value_advances (s s1 : lifecycle V) (v : V) (h : s.set_value v = .ok s1) :
    lifecycle.advances s s1 := by
  unfold lifecycle.set_value at h
  split at h
  · cases h
  · rename_i hn
    simp only [Except.ok.injEq] at h
    subst h
    exact Or.inr ⟨by simpa using hn, rfl⟩

theorem set_exception_advances (s s1 : lifecycle V) (e : error)
    (h : s.set_exception e = .ok s1) : lifecycle.advances s s1 := by
  unfold lifecycle.set_exception at h
  split at h
  · cases h
  · rename_i hn
    simp only [Except.ok.injEq] at h
    subst h
    exact Or.inr ⟨by simpa using hn, rfl⟩

theorem do_run_advances (t : task_object V) : lifecycle.advances t.state_ t.do_run.1.state_ := by
  unfold task_object.do_run task_object.do_run_impl
  simp only
  split
  · rename_i s hs
    cases hf : t.f_ with
    | error e => simp [hf, bind, Except.bind] at hs
    | ok v =>
      simp only [hf, bind, Except.bind] at hs
      exact set_value_advances _ _ v hs
  · split
    · rename_i s hs
      exact set_exception_advances _ _ _ hs
    · exact advances_refl _

theorem run_advances (t : task_object V) : lifecycle.advances t.state_ t.run.1.state_ := by
  unfold task_object.run
  split
  · exact advances_refl _
  · rename_i t1 ht1
    obtain ⟨_, ht⟩ := check_started_ok _ _ ht1
    subst ht
    exact do_run_advances _

theorem world_advances_refl (w : World V) : World.advances w w :=
  fun _ => advances_refl _

theorem world_advances_trans (w w1 w2 : World V) (h1 : World.advances w w1)
    (h2 : World.advances w1 w2) : World.advances w w2 :=
  fun p => advances_trans _ _ _ (h1 p) (h2 p)

theorem world_advances_of_heap (w w1 : World V) (h : w1.heap = w.heap) : World.advances w w1 := by
  intro p
  rw [h]
  exact advances_refl _

theorem store_advances (w : World V) (q : Nat) (t : task_object V)
    (h : lifecycle.advances (w.heap q).state_ t.state_) : World.advances w (w.store q t) := by
  intro p
  by_cases hq : p = q
  · subst hq
    simpa using h
  · rw [store_heap_other _ _ _ _ hq]
    exact advances_refl _

theorem run_impl_advances (w : World V) (q : Nat) : World.advances w (run_impl w q) :=
  store_advances w q _ (do_run_advances _)

theorem modify_thread_advances (w : World V) (i : Nat) (g : thread_data → thread_data) :
    World.advances w (w.modify_thread i g) :=
  world_advances_of_heap _ _ (modify_thread_heap w i g)

theorem execute_thread_advances (w : World V) (i : Nat) :
    World.advances w (execute_thread w i).1 := by
  unfold execute_thread
  simp only
  split
  · exact world_advances_of_heap _ _ rfl
  · split
    · exact world_advances_of_heap _ _ rfl
    · refine world_advances_trans _ _ _ ?_ (modify_thread_advances _ _ _)
      exact run_impl_advances { w with inline_attempts := w.inline_attempts + 1 } _

theorem pool_claim_advances (w : World V) (i : Nat) : World.advances w (pool_claim w i) := by
  unfold pool_claim
  split
  · exact world_advances_refl w
  · split
    · exact modify_thread_advances _ _ _
    · exact world_advances_refl w

theorem pool_finish_advances (w : World V) (i : Nat) : World.advances w (pool_finish w i) := by
  unfold pool_finish
  split
  · exact world_advances_refl w
  · split
    · exact world_advances_trans _ _ _ (run_impl_advances w _) (modify_thread_advances _ _ _)
    · exact world_advances_refl w

theorem executor_run_advances (w : World V) (j : Nat) :
    World.advances w (executor_run w j) := by
  unfold executor_run
  split
  · exact world_advances_refl w
  · split
    · exact world_advances_refl w
    · exact world_advances_trans _ _ _ (run_impl_advances w _) (world_advances_of_heap _ _ rfl)

theorem run_child_inline_advances (w : World V) (q : Nat) :
    World.advances w (task_object.run_child_inline w q) := by
  unfold task_object.run_child_inline
  split
  · rename_i child _
    split
    · simp only
      split
      · refine world_advances_trans _ _ _ (execute_thread_advances w child) ?_
        refine world_advances_trans _ _ _ ?_ (modify_thread_advances _ _ _)
        exact store_advances _ q _ (advances_refl _)
      · exact execute_thread_advances w child
    · exact world_advances_refl w
  · exact world_advances_refl w

theorem wait_advances (w : World V) (q : Nat) : World.advances w (future.wait w q).1 := by
  have h : (future.wait w q).1 = task_object.run_child_inline w q := by
    unfold future.wait task_object.get_result_void future_data.get_result_void
    split <;> rfl
  rw [h]
  exact run_child_inline_advances w q

theorem apply_void_state (w : World V) (p q pool : Nat) ( annotation : String)
    (policy : launch) (priority : thread_priority) (stacksize : thread_stacksize)
    (schedulehint : thread_schedule_hint) :
    ((task_object.apply_void w q pool annotation policy priority stacksize schedulehint).1.heap
      p).state_ = (w.heap p).state_ := by
  unfold task_object.apply_void
  cases hc : (w.heap q).check_started with
  | error e => rfl
  | ok t1 =>
    obtain ⟨_, ht⟩ := check_started_ok _ _ hc
    subst ht
    simp only
    by_cases hq : p = q
    · subst hq
      split_ifs <;> simp [register_thread_nullary, set_thread_state, World.store]
    · split_ifs <;>
        simp [register_thread_nullary, set_thread_state, World.store, Function.update, hq]

theorem apply_state (w : World V) (p q pool : Nat) ( annotation : String)
    (policy : launch) (priority : thread_priority) (stacksize : thread_stacksize)
    (schedulehint : thread_schedule_hint) :
    ((task_object.apply w q pool annotation policy priority stacksize schedulehint).1.heap
      p).state_ = (w.heap p).state_ := by
  unfold task_object.apply
  cases hx : (w.heap q).exec_ with
  | none => exact apply_void_state w p q pool annotation policy priority stacksize schedulehint
  | some ex =>
    simp only
    cases hc : (w.heap q).check_started with
    | error e => rfl
    | ok t1 =>
      obtain ⟨_, ht⟩ := check_started_ok _ _ hc
      subst ht
      simp only
      have hst : ((w.store q { w.heap q with started_ := true }).heap p).state_
          = (w.heap p).state_ := by
        by_cases hq : p = q
        · subst hq
          simp
        · rw [store_heap_other _ _ _ _ hq]
      cases hp : post (w.store q { w.heap q with started_ := true }) ex q schedulehint
          annotation with
      | error e => exact hst
      | ok w2 =>
        simp only
        unfold post at hp
        split at hp
        · cases hp
        · simp only [Except.ok.injEq] at hp
          subst hp
          exact hst

theorem step_advances (s : system V) (o : op) : World.advances s.world (s.step o).world := by
  cases o with
  | call =>
    simp only [system.step, futures_factory.call]
    split
    · exact world_advances_refl _
    · exact store_advances _ _ _ (run_advances _)
  | apply pool a policy priority stacksize schedulehint =>
    simp only [system.step, futures_factory.apply]
    split
    · exact world_advances_refl _
    · intro p
      rw [apply_state]
      exact advances_refl _
  | get_future =>
    simp only [system.step]
    split <;> exact world_advances_refl _
  | set_exception e =>
    simp only [system.step, futures_factory.set_exception]
    split
    · exact world_advances_refl _
    · split
      · rename_i s1 hs1
        exact store_advances _ _ _ (set_exception_advances _ _ _ hs1)
      · exact world_advances_refl _
  | wait =>
    simp only [system.step]
    split
    · exact wait_advances _ _
    · exact world_advances_refl _
  | pool_claim i => exact pool_claim_advances _ i
  | pool_finish i => exact pool_finish_advances _ i
  | executor_run j => exact executor_run_advances _ j

theorem run_ops_advances (ops : List op) (s : system V) :
    World.advances s.world (s.run ops).world := by
  induction ops generalizing s with
  | nil => exact world_advances_refl _
  | cons o ops ih => exact world_advances_trans _ _ _ (step_advances s o) (ih (s.step o))

/-- C17: along every sequence of operations (the members of the factory, waits,
steps of the pool and of the executors) from any state of the system, the
lifecycle tag of every task never decreases in the order Empty < Running <
Ready, Faulted, and once a task is terminal its stored outcome never changes.
`set_value` and `set_exception` on a terminal state are rejected; in
particular, running a task whose state is already terminal (directly or as a
scheduled unit) invokes `do_run`, whose `set_value`/`set_exception` are
rejected, and leaves the stored outcome as it is. -/
theorem lifecycle_never_decreases (s : system V) (p : Nat) (ops1 ops2 : List op)
    (st : lifecycle V) (v : V) (e : error) (w : World V) :
    ((s.run ops1).world.heap p).state_.rank ≤ ((s.run (ops1 ++ ops2)).world.heap p).state_.rank
    ∧ (((s.run ops1).world.heap p).state_.is_terminal = true →
        ((s.run (ops1 ++ ops2)).world.heap p).state_ = ((s.run ops1).world.heap p).state_)
    ∧ (st.is_terminal = true →
        st.set_value v = .error .already_resolved
        ∧ st.set_exception e = .error .already_resolved)
    ∧ ((w.heap p).state_.is_terminal = true →
        (w.heap p).do_run.2 = some .already_resolved
        ∧ (w.heap p).do_run.1.state_ = (w.heap p).state_
        ∧ ((run_impl w p).heap p).state_ = (w.heap p).state_
        ∧ ((futures_factory.set_exception { task_ := some p, future_obtained_ := false }
              w e).1.heap p).state_ = (w.heap p).state_
        ∧ (futures_factory.set_exception { task_ := some p, future_obtained_ := false }
              w e).2 = some .already_resolved) := by
  have hrun : s.run (ops1 ++ ops2) = (s.run ops1).run ops2 := by
    simp [system.run, List.foldl_append]
  have hadv := advances_rank _ _ (run_ops_advances ops2 (s.run ops1) p)
  refine ⟨?_, ?_, ?_, ?_⟩
  · rw [hrun]
    exact hadv.1
  · intro h
    rw [hrun]
    exact hadv.2 h
  · intro h
    simp [lifecycle.set_value, lifecycle.set_exception, h]
  · intro h
    have hd : (w.heap p).do_run.2 = some .already_resolved
        ∧ (w.heap p).do_run.1.state_ = (w.heap p).state_ := by
      cases hf : (w.heap p).f_ <;>
        simp [task_object.do_run, task_object.do_run_impl, lifecycle.set_value,
          lifecycle.set_exception, h, hf, bind, Except.bind]
    refine ⟨hd.1, hd.2, ?_, ?_, ?_⟩
    · simp [run_impl, hd.2]
    · simp [futures_factory.set_exception, lifecycle.set_exception, h]
    · simp [futures_factory.set_exception, lifecycle.set_exception, h]

/-- C17, witness: the factory injects a fault, then the task is called,
scheduled and serviced; the stored outcome stays the injected fault. -/
theorem lifecycle_never_decreases_witness :
    (((system.start (World.initial (task_object.create (.ok 0)) 0) 0 none
        (.ok (42 : Nat))).run [.set_exception (.user 1)]).world.heap 0).state_.is_terminal = true
    ∧ (((system.start (World.initial (task_object.create (.ok 0)) 0) 0 none
        (.ok (42 : Nat))).run
        ([.set_exception (.user 1)] ++
          [.call, .set_exception (.user 2),
           .apply 0 "futures_factory::apply" .async .thread_priority_default
            .thread_stacksize_default
            { mode := .thread_schedule_hint_mode_none, hint := -1, runs_as_child := false },
           .pool_claim 0, .pool_finish 0])).world.heap 0).state_
      = (((system.start (World.initial (task_object.create (.ok 0)) 0) 0 none
        (.ok (42 : Nat))).run [.set_exception (.user 1)]).world.heap 0).state_
    ∧ (((system.start (World.initial (task_object.create (.ok 0)) 0) 0 none
        (.ok (42 : Nat))).run [.set_exception (.user 1)]).world.heap 0).state_
      = .faulted (.user 1) :=
  ⟨rfl,
   (lifecycle_never_decreases
      (system.start (World.initial (task_object.create (.ok 0)) 0) 0 none (.ok (42 : Nat))) 0
      [.set_exception (.user 1)]
      [.call, .set_exception (.user 2),
       .apply 0 "futures_factory::apply" .async .thread_priority_default
        .thread_stacksize_default
        { mode := .thread_schedule_hint_mode_none, hint := -1, runs_as_child := false },
       .pool_claim 0, .pool_finish 0]
      (.faulted (.user 1)) 42 (.user 2)
      (World.initial (task_object.create (.ok 0)) 0)).2.1 rfl,
   rfl⟩

/-! ## Cancellation before the start -/

theorem run_started (t : task_object V) (h : t.started_ = true) :
    t.run = (t, some .already_started) := by
  simp [task_object.run, task_object.check_started, h]

theorem apply_started (w : World V) (q pool : Nat) ( annotation : String)
    (policy : launch) (priority : thread_priority) (stacksize : thread_stacksize)
    (schedulehint : thread_schedule_hint) (h : (w.heap q).started_ = true) :
    task_object.apply w q pool annotation policy priority stacksize schedulehint
      = (w, .error .already_started) := by
  unfold task_object.apply
  split
  · simp [task_object.check_started, h]
  · simp [task_object.apply_void, task_object.check_started, h]

theorem cancelled_unrun_of (p : Nat) (w w1 : World V) (hc : same_commitment p w w1)
    (ha : World.advances w w1) (h : cancelled_unrun p w) : cancelled_unrun p w1 := by
  obtain ⟨h1, h2, h3⟩ := h
  refine ⟨by rw [hc.1, h1], by rw [hc.2, h2], ?_⟩
  have := (advances_rank _ _ (ha p)).2 (by rw [h3]; rfl)
  rw [this, h3]

theorem get_future_ok (fac : futures_factory) (r : future × futures_factory)
    (h : fac.get_future = .ok r) : r.2.task_ = none ∧ r.1.shared_state_ = fac.task_ := by
  unfold futures_factory.get_future at h
  cases ht : fac.task_ with
  | none => simp [ht] at h
  | some q =>
    simp only [ht] at h
    split at h
    · cases h
    · simp only [Except.ok.injEq] at h
      subst h
      exact ⟨rfl, rfl⟩

theorem step_refers_to (s : system V) (p : Nat) (o : op) (h : s.refers_to p) :
    (s.step o).refers_to p := by
  obtain ⟨hf, hr⟩ := h
  cases o with
  | get_future =>
    cases hg : s.factory.get_future with
    | error e =>
      simp only [system.step, hg]
      exact ⟨hf, hr⟩
    | ok r =>
      obtain ⟨h1, h2⟩ := get_future_ok _ _ hg
      simp only [system.step, hg]
      refine ⟨Or.inl h1, ?_⟩
      show r.1.shared_state_ = none ∨ r.1.shared_state_ = some p
      rw [h2]
      exact hf
  | wait =>
    cases hw : s.retrieved.shared_state_ <;> simp only [system.step, hw] <;> exact ⟨hf, hw ▸ hr⟩
  | call => exact ⟨hf, hr⟩
  | apply _ _ _ _ _ _ => exact ⟨hf, hr⟩
  | set_exception _ => exact ⟨hf, hr⟩
  | pool_claim _ => exact ⟨hf, hr⟩
  | pool_finish _ => exact ⟨hf, hr⟩
  | executor_run _ => exact ⟨hf, hr⟩

theorem step_cancelled_unrun (s : system V) (p : Nat) (o : op) (hr : s.refers_to p)
    (h : cancelled_unrun p s.world) : cancelled_unrun p (s.step o).world := by
  refine cancelled_unrun_of p _ _ ?_ (step_advances s o) h
  cases o with
  | call =>
    simp only [system.step, futures_factory.call]
    rcases hr.1 with hf | hf
    · simp only [hf]
      exact same_commitment_refl p _
    · simp only [hf]
      rw [run_started _ h.2.1]
      exact store_same_commitment _ p p _ rfl rfl
  | apply pool a policy priority stacksize schedulehint =>
    simp only [system.step, futures_factory.apply]
    rcases hr.1 with hf | hf
    · simp only [hf]
      exact same_commitment_refl p _
    · simp only [hf]
      rw [apply_started _ _ _ _ _ _ _ _ h.2.1]
      exact same_commitment_refl p _
  | get_future =>
    simp only [system.step]
    split <;> exact same_commitment_refl p _
  | set_exception e => exact set_exception_same_commitment _ _ p e
  | wait =>
    simp only [system.step]
    split
    · exact wait_same_commitment _ p _
    · exact same_commitment_refl p _
  | pool_claim i => exact pool_claim_same_commitment _ p i
  | pool_finish i => exact pool_finish_same_commitment _ p i
  | executor_run j => exact executor_run_same_commitment _ p j

theorem run_ops_cancelled_unrun (ops : List op) (s : system V) (p : Nat)
    (hr : s.refers_to p) (h : cancelled_unrun p s.world) :
    cancelled_unrun p (s.run ops).world := by
  induction ops generalizing s with
  | nil => exact h
  | cons o ops ih => exact ih (s.step o) (step_refers_to s p o hr) (step_cancelled_unrun s p o hr h)

theorem start_cancelled_unrun (w : World V) (p : Nat) (ex : Option executor)
    (f : Except error V) (hu : ∀ u ∈ w.threads, u.this_ ≠ p)
    (hq : ∀ q ∈ w.posted, q.this_ ≠ p) :
    cancelled_unrun p (system.start_cancelled w p ex f).world := by
  have h1 : open_units p w.threads = 0 :=
    countP_eq_zero_of_forall _ _ fun u m => by simp [thread_data.is_open, hu u m]
  have h2 : open_posts p w.posted = 0 :=
    countP_eq_zero_of_forall _ _ fun q m => by simp [posted_work.is_open, hq q m]
  cases ex <;>
    simp [system.start_cancelled, cancelled_unrun, committed, h1, h2,
      cancelable_task_object.create, cancelable_task_object.create_with_executor,
      task_object.request_cancellation, task_object.create, task_object.create_with_executor]

/-- C15: a cancellable factory is constructed from a callable (with or without
an executor) on a task that no unit and no posted work refers to yet, and
cancellation is requested before the task is scheduled or run.  Then, after
any sequence of `operator()()`, `apply`, `get_future`, `set_exception`, waits
and steps of the pool and of the executors, the callable has not been invoked
(its call count is 0), the completion state is Faulted with the cancellation
error, and a wait on the future re-raises the cancellation error, again
without invoking the callable.  The request itself leaves the flag at
requested-before-start. -/
theorem cancel_before_start_never_runs (w : World V) (p : Nat) (ex : Option executor)
    (f : Except error V) (ops : List op)
    (hu : ∀ u ∈ w.threads, u.this_ ≠ p) (hq : ∀ q ∈ w.posted, q.this_ ≠ p) :
    (((system.start_cancelled w p ex f).run ops).world.heap p).calls = 0
    ∧ (((system.start_cancelled w p ex f).run ops).world.heap p).state_ = .faulted .cancelled
    ∧ (future.wait ((system.start_cancelled w p ex f).run ops).world p).2 = .raised .cancelled
    ∧ ((future.wait ((system.start_cancelled w p ex f).run ops).world p).1.heap p).calls = 0
    ∧ ((system.start_cancelled w p ex f).world.heap p).cancellation_
        = some .requested_before_start := by
  have hr : (system.start_cancelled w p ex f).refers_to p :=
    ⟨Or.inr rfl, Or.inl rfl⟩
  have h := run_ops_cancelled_unrun ops _ p hr (start_cancelled_unrun w p ex f hu hq)
  obtain ⟨h1, h2, h3⟩ := h
  have hcalls : (((system.start_cancelled w p ex f).run ops).world.heap p).calls = 0 := by
    unfold committed at h1
    omega
  have hw : future.wait ((system.start_cancelled w p ex f).run ops).world p
      = (((system.start_cancelled w p ex f).run ops).world, .raised .cancelled) := by
    unfold future.wait task_object.get_result_void task_object.run_child_inline
      future_data.get_result_void
    cases hc : (((system.start_cancelled w p ex f).run ops).world.heap p).runs_as_child_ <;>
      simp [h3, lifecycle.is_empty]
  refine ⟨hcalls, h3, by rw [hw], by rw [hw]; exact hcalls, ?_⟩
  cases ex <;>
    simp [system.start_cancelled, cancelable_task_object.create,
      cancelable_task_object.create_with_executor, task_object.request_cancellation,
      task_object.create, task_object.create_with_executor]

/-- C15, witness: the callable would return 42; after the cancellation the
factory is called, scheduled as a child, the future is retrieved and waited
on, and the pool runs: the call count is still 0. -/
theorem cancel_before_start_never_runs_witness :
    (((system.start_cancelled (World.initial (task_object.create (.ok 0)) 0) 0 none
        (.ok (42 : Nat))).run
        [.call,
         .apply 0 "futures_factory::apply" .async .thread_priority_default
            .thread_stacksize_default
            { mode := .thread_schedule_hint_mode_none, hint := -1, runs_as_child := true },
         .get_future, .wait, .pool_claim 0, .pool_finish 0]).world.heap 0).calls = 0
    ∧ (future.wait ((system.start_cancelled (World.initial (task_object.create (.ok 0)) 0) 0
        none (.ok (42 : Nat))).run
        [.call,
         .apply 0 "futures_factory::apply" .async .thread_priority_default
            .thread_stacksize_default
            { mode := .thread_schedule_hint_mode_none, hint := -1, runs_as_child := true },
         .get_future, .wait, .pool_claim 0, .pool_finish 0]).world 0).2 = .raised .cancelled :=
  ⟨(cancel_before_start_never_runs (World.initial (task_object.create (.ok 0)) 0) 0 none
      (.ok (42 : Nat)) _ (by simp [World.initial]) (by simp [World.initial])).1,
   (cancel_before_start_never_runs (World.initial (task_object.create (.ok 0)) 0) 0 none
      (.ok (42 : Nat)) _ (by simp [World.initial]) (by simp [World.initial])).2.2.1⟩

/-! ## A cancellable task runs the code of a plain task -/

theorem with_base_heap (w : World V) (bs : Nat → Option cancellation) (p : Nat) :
    (w.with_base bs).heap p = (w.heap p).with_base (bs p) := rfl

theorem with_base_store (w : World V) (bs : Nat → Option cancellation) (p : Nat)
    (t : task_object V) :
    (w.with_base bs).store p (t.with_base (bs p)) = (w.store p t).with_base bs := by
  simp only [World.with_base, World.store]
  congr 1
  funext q
  by_cases hq : q = p
  · subst hq
    simp
  · simp [Function.update, hq]

theorem with_base_modify_thread (w : World V) (bs : Nat → Option cancellation) (i : Nat)
    (g : thread_data → thread_data) :
    (w.with_base bs).modify_thread i g = (w.modify_thread i g).with_base bs := by
  unfold World.modify_thread
  show (match w.threads[i]? with
    | some u => { w.with_base bs with threads := (w.with_base bs).threads.set i (g u) }
    | none => w.with_base bs) = _
  split <;> rfl

theorem with_base_check_started (t : task_object V) (b : Option cancellation) :
    (t.with_base b).check_started
      = match t.check_started with
        | .ok t1 => .ok (t1.with_base b)
        | .error e => .error e := by
  unfold task_object.check_started
  show (if t.started_ = true then _ else _) = _
  split <;> rfl

theorem with_base_do_run (t : task_object V) (b : Option cancellation) :
    (t.with_base b).do_run = (t.do_run.1.with_base b, t.do_run.2) := by
  unfold task_object.do_run task_object.do_run_impl
  show (match t.f_ >>= fun v => t.state_.set_value v with
    | .ok s => _
    | .error e => match t.state_.set_exception e with
      | .ok s => _
      | .error e2 => _) = _
  simp only
  split
  · rfl
  · split <;> rfl

theorem with_base_run_impl (w : World V) (bs : Nat → Option cancellation) (q : Nat) :
    run_impl (w.with_base bs) q = (run_impl w q).with_base bs := by
  unfold run_impl
  rw [with_base_heap, with_base_do_run]
  exact with_base_store w bs q _

theorem with_base_execute_thread (w : World V) (bs : Nat → Option cancellation) (i : Nat) :
    execute_thread (w.with_base bs) i
      = ((execute_thread w i).1.with_base bs, (execute_thread w i).2) := by
  unfold execute_thread
  show (match w.threads[i]? with
    | none => _
    | some u => _) = _
  simp only
  split
  · rfl
  · split
    · rfl
    · rename_i u _ _
      have h := with_base_run_impl { w with inline_attempts := w.inline_attempts + 1 } bs u.this_
      have h2 := with_base_modify_thread
        (run_impl { w with inline_attempts := w.inline_attempts + 1 } u.this_) bs i
        (fun u => { u with state := .terminated })
      rw [← h2, ← h]
      rfl

theorem with_base_destroy_thread (w : World V) (bs : Nat → Option cancellation) (i : Nat) :
    destroy_thread (w.with_base bs) i = (destroy_thread w i).with_base bs :=
  with_base_modify_thread w bs i _

theorem with_base_run_child_inline (w : World V) (bs : Nat → Option cancellation) (p : Nat) :
    task_object.run_child_inline (w.with_base bs) p
      = (task_object.run_child_inline w p).with_base bs := by
  unfold task_object.run_child_inline
  show (match (w.heap p).runs_as_child_ with
    | some child =>
      if (w.heap p).state_.is_empty then _ else _
    | none => _) = _
  split
  · rename_i child _
    split
    · rw [with_base_execute_thread]
      simp only
      split
      · rw [← with_base_destroy_thread, ← with_base_store]
        rfl
      · rfl
    · rfl
  · rfl

theorem with_base_destructor (w : World V) (bs : Nat → Option cancellation) (p : Nat) :
    task_object.destructor (w.with_base bs) p = (task_object.destructor w p).with_base bs := by
  unfold task_object.destructor
  show (match (w.heap p).runs_as_child_ with
    | some child => _
    | none => _) = _
  split
  · exact with_base_destroy_thread w bs _
  · rfl

theorem with_base_register (w : World V) (bs : Nat → Option cancellation) (pool this_ : Nat)
    (description : String) (initial_state : thread_state_enum) (run_now : Bool)
    (priority : thread_priority) (schedulehint : thread_schedule_hint)
    (stacksize : thread_stacksize) :
    register_thread_nullary (w.with_base bs) pool this_ description initial_state run_now
        priority schedulehint stacksize
      = ((register_thread_nullary w pool this_ description initial_state run_now priority
            schedulehint stacksize).1.with_base bs,
         (register_thread_nullary w pool this_ description initial_state run_now priority
            schedulehint stacksize).2) := rfl

theorem with_base_set_thread_state (w : World V) (bs : Nat → Option cancellation)
    (id : thread_id_type) (st : thread_state_enum) :
    set_thread_state (w.with_base bs) id st = (set_thread_state w id st).with_base bs := by
  cases id with
  | none => rfl
  | some i => exact with_base_modify_thread w bs i _

theorem with_base_apply_void (w : World V) (bs : Nat → Option cancellation) (p pool : Nat)
    ( annotation : String) (policy : launch) (priority : thread_priority)
    (stacksize : thread_stacksize) (schedulehint : thread_schedule_hint) :
    task_object.apply_void (w.with_base bs) p pool annotation policy priority stacksize
        schedulehint
      = ((task_object.apply_void w p pool annotation policy priority stacksize
            schedulehint).1.with_base bs,
         (task_object.apply_void w p pool annotation policy priority stacksize
            schedulehint).2) := by
  unfold task_object.apply_void
  rw [with_base_heap, with_base_check_started]
  cases hc : (w.heap p).check_started with
  | error e => rfl
  | ok t1 =>
    have key : ∀ (x : World V) (id : thread_id_type),
        (x.with_base bs).store p { (x.with_base bs).heap p with runs_as_child_ := id }
          = (x.store p { x.heap p with runs_as_child_ := id }).with_base bs :=
      fun x id => with_base_store x bs p { x.heap p with runs_as_child_ := id }
    simp only
    rw [with_base_store]
    split
    · rw [with_base_register]
      simp only
      split
      · exact Prod.ext (key _ _) rfl
      · rfl
    · split
      · rw [with_base_register]
        simp only
        refine Prod.ext ?_ rfl
        simp only
        rw [key, with_base_set_thread_state]
      · rw [with_base_register]

theorem with_base_apply (w : World V) (bs : Nat → Option cancellation) (p pool : Nat)
    ( annotation : String) (policy : launch) (priority : thread_priority)
    (stacksize : thread_stacksize) (schedulehint : thread_schedule_hint) :
    task_object.apply (w.with_base bs) p pool annotation policy priority stacksize schedulehint
      = ((task_object.apply w p pool annotation policy priority stacksize
            schedulehint).1.with_base bs,
         (task_object.apply w p pool annotation policy priority stacksize schedulehint).2) := by
  unfold task_object.apply
  show (match (w.heap p).exec_ with
    | some ex => _
    | none => _) = _
  split
  · rename_i ex _
    rw [with_base_heap, with_base_check_started]
    cases hc : (w.heap p).check_started with
    | error e => rfl
    | ok t1 =>
      simp only
      rw [with_base_store]
      unfold post
      cases ex.post_raises <;> rfl
  · exact with_base_apply_void w bs p pool annotation policy priority stacksize schedulehint

theorem with_base_wait (w : World V) (bs : Nat → Option cancellation) (p : Nat) :
    task_object.get_result_void future_data.get_result_void (w.with_base bs) p
      = ((task_object.get_result_void future_data.get_result_void w p).1.with_base bs,
         (task_object.get_result_void future_data.get_result_void w p).2) := by
  unfold task_object.get_result_void
  rw [with_base_run_child_inline]
  unfold future_data.get_result_void
  show (match ((task_object.run_child_inline w p).heap p).state_ with
    | .ready v => _
    | .faulted e => _
    | _ => _) = _
  split <;> rfl

/-- C16: a cancellable task runs the member functions of `task_object`, which
`cancelable_task_object` does not override, and these neither read nor write
what the base class `cancelable_task_base` adds.  The constructors build the
object of the plain class with the flag added, and for every task and world,
replacing the base class part of the objects (no flag for a plain task, any
flag value for a cancellable one) commutes with `do_run`, with both `apply`
overrides (same branch, same units registered or posted, same handle, same
returned id or exception), with `get_result_void` (the inline attempt and the
wait) and with the destructor. -/
theorem cancelable_task_behaves_like_task (t : task_object V) (b : Option cancellation)
    (w : World V) (bs : Nat → Option cancellation) (p pool : Nat) ( annotation : String)
    (policy : launch) (priority : thread_priority) (stacksize : thread_stacksize)
    (schedulehint : thread_schedule_hint) (f : Except error V) (ex : executor) :
    (cancelable_task_object.create f = (task_object.create f).with_base (some .not_requested)
      ∧ cancelable_task_object.create_with_executor ex f
          = (task_object.create_with_executor ex f).with_base (some .not_requested))
    ∧ (t.with_base b).do_run = (t.do_run.1.with_base b, t.do_run.2)
    ∧ task_object.apply_void (w.with_base bs) p pool annotation policy priority stacksize
          schedulehint
        = ((task_object.apply_void w p pool annotation policy priority stacksize
              schedulehint).1.with_base bs,
           (task_object.apply_void w p pool annotation policy priority stacksize
              schedulehint).2)
    ∧ task_object.apply (w.with_base bs) p pool annotation policy priority stacksize
          schedulehint
        = ((task_object.apply w p pool annotation policy priority stacksize
              schedulehint).1.with_base bs,
           (task_object.apply w p pool annotation policy priority stacksize schedulehint).2)
    ∧ task_object.run_child_inline (w.with_base bs) p
        = (task_object.run_child_inline w p).with_base bs
    ∧ task_object.get_result_void future_data.get_result_void (w.with_base bs) p
        = ((task_object.get_result_void future_data.get_result_void w p).1.with_base bs,
           (task_object.get_result_void future_data.get_result_void w p).2)
    ∧ task_object.destructor (w.with_base bs) p = (task_object.destructor w p).with_base bs :=
  ⟨⟨rfl, rfl⟩, with_base_do_run t b,
   with_base_apply_void w bs p pool annotation policy priority stacksize schedulehint,
   with_base_apply w bs p pool annotation policy priority stacksize schedulehint,
   with_base_run_child_inline w bs p, with_base_wait w bs p, with_base_destructor w bs p⟩

/-! ## Allocation and release -/

theorem release_solely_owned (m : memory V) (a : allocator) (p : Nat)
    (h : solely_owned a m p) :
    (intrusive_ptr_release m p).outstanding a = (m.outstanding a).erase (p, 1)
    ∧ (∀ q, q ≠ p → (intrusive_ptr_release m p).alloc_ q = m.alloc_ q
        ∧ (intrusive_ptr_release m p).count_ q = m.count_ q) := by
  obtain ⟨h1, h2, _⟩ := h
  unfold intrusive_ptr_release
  simp only [h2, if_true]
  split <;>
    · simp [cancelable_task_object_allocator.destroy, task_object_allocator.destroy, deallocate,
        h1, Function.update]
      intro q hq hq2
      exact absurd hq2 hq

theorem release_keeps_solely_owned (m : memory V) (a : allocator) (p q : Nat)
    (hp : solely_owned a m p) (hq : solely_owned a m q) (hne : q ≠ p) :
    solely_owned a (intrusive_ptr_release m p) q := by
  obtain ⟨ho, hf⟩ := release_solely_owned m a p hp
  obtain ⟨h1, h2, h3⟩ := hq
  refine ⟨by rw [(hf q hne).1, h1], by rw [(hf q hne).2, h2], ?_⟩
  rw [ho]
  have hpair : (q, 1) ≠ (p, 1) := fun e => hne (Prod.mk.inj e).1
  exact (List.mem_erase_of_ne hpair).mpr h3

theorem discard_all_length (a : allocator) (ps : List Nat) (m : memory V) (hn : ps.Nodup)
    (h : ∀ p ∈ ps, solely_owned a m p) :
    ((discard_all m (ps.map fun p => { task_ := some p, future_obtained_ := false })).outstanding
        a).length + ps.length = (m.outstanding a).length := by
  induction ps generalizing m with
  | nil => rfl
  | cons p ps ih =>
    have hp := h p (List.mem_cons_self p ps)
    have hnd := List.nodup_cons.mp hn
    have hrest : ∀ q ∈ ps, solely_owned a (intrusive_ptr_release m p) q := by
      intro q hq
      have hne : q ≠ p := fun e => hnd.1 (e ▸ hq)
      exact release_keeps_solely_owned m a p q hp (h q (List.mem_cons_of_mem p hq)) hne
    have hstep := ih (intrusive_ptr_release m p) hnd.2 hrest
    have hlen : ((intrusive_ptr_release m p).outstanding a).length + 1
        = (m.outstanding a).length := by
      rw [(release_solely_owned m a p hp).1, List.length_erase_of_mem hp.2.2]
      have := List.length_pos_of_mem hp.2.2
      omega
    simp only [discard_all, List.map_cons, List.foldl_cons, futures_factory.destructor,
      List.length_cons] at hstep ⊢
    omega

theorem run_all_fields (facs : List futures_factory) (m : memory V) :
    (run_all m facs).alloc_ = m.alloc_ ∧ (run_all m facs).count_ = m.count_
    ∧ (run_all m facs).outstanding = m.outstanding := by
  induction facs generalizing m with
  | nil => exact ⟨rfl, rfl, rfl⟩
  | cons fac facs ih =>
    simp only [run_all, List.foldl_cons]
    exact ih _

theorem construct_solely_owned (m : memory V) (cancelable : Bool) (p : Nat)
    (f : Except error V) :
    solely_owned internal_allocator (futures_factory.construct m cancelable p f).1 p
    ∧ (∀ q, q ≠ p → solely_owned internal_allocator m q →
        solely_owned internal_allocator (futures_factory.construct m cancelable p f).1 q)
    ∧ ((futures_factory.construct m cancelable p f).1.outstanding internal_allocator).length
        = (m.outstanding internal_allocator).length + 1
    ∧ (futures_factory.construct m cancelable p f).2
        = { task_ := some p, future_obtained_ := false } := by
  refine ⟨?_, ?_, ?_, rfl⟩
  · simp [solely_owned, futures_factory.construct, create_task_object.call, allocate]
  · intro q hq h
    obtain ⟨h1, h2, h3⟩ := h
    simp [solely_owned, futures_factory.construct, create_task_object.call, allocate,
      Function.update, hq, h1, h2, h3]
  · simp [futures_factory.construct, create_task_object.call, allocate]

theorem construct_all_facts (cancelable : Bool) (tasks : List (Nat × Except error V))
    (m : memory V) (hn : (tasks.map Prod.fst).Nodup) :
    (construct_all m cancelable tasks).2
        = (tasks.map Prod.fst).map (fun p => { task_ := some p, future_obtained_ := false })
    ∧ ((construct_all m cancelable tasks).1.outstanding internal_allocator).length
        = (m.outstanding internal_allocator).length + tasks.length
    ∧ (∀ q, (q ∈ tasks.map Prod.fst
          ∨ (solely_owned internal_allocator m q ∧ q ∉ tasks.map Prod.fst)) →
        solely_owned internal_allocator (construct_all m cancelable tasks).1 q) := by
  induction tasks generalizing m with
  | nil =>
    refine ⟨rfl, rfl, ?_⟩
    intro q hq
    rcases hq with hq | hq
    · simp at hq
    · exact hq.1
  | cons t ts ih =>
    simp only [List.map_cons, List.nodup_cons] at hn
    obtain ⟨hc1, hc2, hc3, hc4⟩ := construct_solely_owned m cancelable t.1 t.2
    obtain ⟨i1, i2, i3⟩ := ih (futures_factory.construct m cancelable t.1 t.2).1 hn.2
    refine ⟨?_, ?_, ?_⟩
    · simp only [construct_all, List.map_cons, i1, hc4]
    · simp only [construct_all, i2, hc3, List.length_cons]
      omega
    · intro q hq
      simp only [construct_all]
      apply i3
      by_cases hqt : q = t.1
      · subst hqt
        exact Or.inr ⟨hc1, hn.1⟩
      · rcases hq with hq | hq
        · simp only [List.map_cons, List.mem_cons] at hq
          rcases hq with hq | hq
          · exact absurd hq hqt
          · exact Or.inl hq
        · refine Or.inr ⟨hc2 q hqt hq.1, ?_⟩
          intro hmem
          exact hq.2 (by simp only [List.map_cons, List.mem_cons]; exact Or.inr hmem)

theorem allocator_scenario_length (m : memory V) (cancelable : Bool)
    (tasks : List (Nat × Except error V)) (hn : (tasks.map Prod.fst).Nodup) :
    ((allocator_scenario m cancelable tasks).outstanding internal_allocator).length
      = (m.outstanding internal_allocator).length := by
  obtain ⟨c1, c2, c3⟩ := construct_all_facts cancelable tasks m hn
  obtain ⟨r1, r2, r3⟩ := run_all_fields (construct_all m cancelable tasks).2
    (construct_all m cancelable tasks).1
  have hown : ∀ p ∈ tasks.map Prod.fst, solely_owned internal_allocator
      (run_all (construct_all m cancelable tasks).1 (construct_all m cancelable tasks).2) p := by
    intro p hp
    obtain ⟨h1, h2, h3⟩ := c3 p (Or.inl hp)
    exact ⟨by rw [r1]; exact h1, by rw [r2]; exact h2, by rw [r3]; exact h3⟩
  have hd := discard_all_length internal_allocator (tasks.map Prod.fst)
    (run_all (construct_all m cancelable tasks).1 (construct_all m cancelable tasks).2) hn hown
  rw [r3, c2] at hd
  unfold allocator_scenario
  rw [c1] at hd ⊢
  simp only [List.length_map] at hd
  omega

/-- C18: `create_task_object::call(a, f)`, for a plain and for a cancellable
task, takes exactly one block, sized for one object, from the arena of `a` and
from no other arena, and the object remembers that arena; `destroy()` of
either allocator class runs the destructor of the task and returns exactly
the block of that object to that arena and touches no other arena; so
releasing the only reference to a task just created restores the outstanding
allocations of every arena.  Hence, for any list of factories constructed at
distinct addresses, after constructing all of them, running all of them and
destroying all of them, the arena has as many outstanding allocations as
before: none if it had none. -/
theorem allocation_returned_on_destroy (m : memory V) (cancelable : Bool) (a : allocator)
    (p : Nat) (f : Except error V) (tasks : List (Nat × Except error V))
    (hn : (tasks.map Prod.fst).Nodup) :
    ((create_task_object.call m cancelable a p f).2 = p
      ∧ (create_task_object.call m cancelable a p f).1.outstanding a = (p, 1) :: m.outstanding a
      ∧ (∀ b, b ≠ a → (create_task_object.call m cancelable a p f).1.outstanding b
          = m.outstanding b)
      ∧ (create_task_object.call m cancelable a p f).1.alloc_ p = a
      ∧ (create_task_object.call m false a p f).1.world = (futures_factory.create m.world p f).1)
    ∧ ((task_object_allocator.destroy m p).outstanding (m.alloc_ p)
          = (m.outstanding (m.alloc_ p)).erase (p, 1)
      ∧ (∀ b, b ≠ m.alloc_ p → (task_object_allocator.destroy m p).outstanding b
          = m.outstanding b)
      ∧ (task_object_allocator.destroy m p).world = task_object.destructor m.world p
      ∧ cancelable_task_object_allocator.destroy m p = task_object_allocator.destroy m p)
    ∧ (intrusive_ptr_release (create_task_object.call m cancelable a p f).1 p).outstanding
        = m.outstanding
    ∧ ((allocator_scenario m cancelable tasks).outstanding internal_allocator).length
        = (m.outstanding internal_allocator).length
    ∧ (m.outstanding internal_allocator = [] →
        (allocator_scenario m cancelable tasks).outstanding internal_allocator = []) := by
  refine ⟨⟨rfl, ?_, ?_, ?_, ?_⟩, ⟨?_, ?_, rfl, rfl⟩, ?_, ?_, ?_⟩
  · simp [create_task_object.call, allocate]
  · intro b hb
    simp [create_task_object.call, allocate, Function.update, hb]
  · simp [create_task_object.call]
  · simp [create_task_object.call, allocate, futures_factory.create]
  · simp [task_object_allocator.destroy, deallocate]
  · intro b hb
    simp [task_object_allocator.destroy, deallocate, Function.update, hb]
  · funext b
    unfold intrusive_ptr_release
    have hc : (create_task_object.call m cancelable a p f).1.count_ p = 1 := by
      simp [create_task_object.call]
    simp only [hc, if_true]
    by_cases hb : b = a
    · subst hb
      split <;>
        simp [cancelable_task_object_allocator.destroy, task_object_allocator.destroy,
          deallocate, create_task_object.call, allocate]
    · split <;>
        simp [cancelable_task_object_allocator.destroy, task_object_allocator.destroy,
          deallocate, create_task_object.call, allocate, Function.update, hb]
  · exact allocator_scenario_length m cancelable tasks hn
  · intro h0
    have hl := allocator_scenario_length m cancelable tasks hn
    rw [h0] at hl
    exact List.length_eq_zero.mp hl

/-- C18, witness: three factories at the addresses 0, 1 and 2 in an arena
without outstanding allocations; their callables return 42, throw, and
return 7. -/
theorem allocation_returned_on_destroy_witness :
    ([(0, (.ok 42 : Except error Nat)), (1, .error (.user 3)), (2, .ok 7)].map Prod.fst).Nodup
    ∧ (allocator_scenario
        { world := World.initial (task_object.create (.ok (0 : Nat))) 0,
          alloc_ := fun _ => 0, count_ := fun _ => 0, outstanding := fun _ => [] }
        false [(0, .ok 42), (1, .error (.user 3)), (2, .ok 7)]).outstanding internal_allocator
      = [] :=
  ⟨by decide,
   (allocation_returned_on_destroy
      { world := World.initial (task_object.create (.ok (0 : Nat))) 0,
        alloc_ := fun _ => 0, count_ := fun _ => 0, outstanding := fun _ => [] }
      false 0 0 (.ok 0) [(0, .ok 42), (1, .error (.user 3)), (2, .ok 7)]
      (by decide)).2.2.2.2 rfl⟩

/-! ## Target distribution policy -/

/-- C19: for every vector of targets, either call operator
`operator()(targets, num_partitions)` yields a policy that represents exactly
the given targets and whose number of partitions, as reported by
`num_container_partitions`, is the given `num_partitions`, or the size of
`targets` when `num_partitions` is `size_t(-1)`, which is what an omitted
argument is. -/
theorem call_represents_targets {T : Type} (targets : List T) (num_partitions : Nat) :
    (target_distribution_policy.call targets num_partitions).targets_ = targets
    ∧ num_container_partitions.call (target_distribution_policy.call targets num_partitions)
        = (if num_partitions = size_t_max then targets.length else num_partitions)
    ∧ (target_distribution_policy.call_default targets).targets_ = targets
    ∧ num_container_partitions.call (target_distribution_policy.call_default targets)
        = targets.length
    ∧ target_distribution_policy.call_move targets num_partitions
        = target_distribution_policy.call targets num_partitions
    ∧ size_t_max = 18446744073709551615 := by
  refine ⟨?_, ?_, ?_, ?_, rfl, by decide⟩
  · unfold target_distribution_policy.call
    split <;> rfl
  · unfold num_container_partitions.call target_distribution_policy.get_num_partitions
      target_distribution_policy.call
    split <;> rfl
  · simp [target_distribution_policy.call_default, target_distribution_policy.call]
  · simp [target_distribution_policy.call_default, target_distribution_policy.call,
      num_container_partitions.call, target_distribution_policy.get_num_partitions]

/-! ## Thread-local thread numbers -/

/-- C20: `set_thread_num_tss(n)` exchanges the slot of the calling thread: it
returns the value `get_thread_num_tss()` gave before the call, which is
`size_t(-1)` on a thread that has stored nothing, and afterwards
`get_thread_num_tss()` gives `n`; `get_thread_numbers_tss()` gives the tuple
last passed to `set_thread_numbers_tss`, and `(65535, 65535)` on a thread
that has stored nothing.  The two slots do not affect each other, and no call
changes what another thread reads. -/
theorem set_thread_num_tss_exchanges (st : thread_local_storage) (self other n : Nat)
    (tup tup2 : thread_tuple) :
    (set_thread_num_tss st self n).2 = get_thread_num_tss st self
    ∧ get_thread_num_tss (set_thread_num_tss st self n).1 self = n
    ∧ (set_thread_num_tss thread_local_storage.fresh self n).2 = 18446744073709551615
    ∧ get_thread_num_tss thread_local_storage.fresh self = size_t_max
    ∧ get_thread_numbers_tss (set_thread_numbers_tss st self tup) self = tup
    ∧ get_thread_numbers_tss
        (set_thread_numbers_tss (set_thread_numbers_tss st self tup) self tup2) self = tup2
    ∧ get_thread_numbers_tss thread_local_storage.fresh self = (65535, 65535)
    ∧ get_thread_numbers_tss (set_thread_num_tss st self n).1 self
        = get_thread_numbers_tss st self
    ∧ get_thread_num_tss (set_thread_numbers_tss st self tup) self = get_thread_num_tss st self
    ∧ (other ≠ self →
        get_thread_num_tss (set_thread_num_tss st self n).1 other = get_thread_num_tss st other
        ∧ get_thread_numbers_tss (set_thread_numbers_tss st self tup) other
            = get_thread_numbers_tss st other) := by
  refine ⟨rfl, ?_, ?_, rfl, ?_, ?_, ?_, ?_, ?_, ?_⟩
  · simp [get_thread_num_tss, set_thread_num_tss]
  · simp [set_thread_num_tss, thread_local_storage.fresh, tss.fresh, size_t_max]
  · simp [get_thread_numbers_tss, set_thread_numbers_tss]
  · simp [get_thread_numbers_tss, set_thread_numbers_tss]
  · simp [get_thread_numbers_tss, thread_local_storage.fresh, tss.fresh, uint16_max]
  · simp [get_thread_numbers_tss, set_thread_num_tss]
  · simp [get_thread_num_tss, set_thread_numbers_tss]
  · intro h
    simp [get_thread_num_tss, set_thread_num_tss, get_thread_numbers_tss,
      set_thread_numbers_tss, Function.update, h]

/-- C20, witness: thread 1 stores 5, then 9; thread 2 still reads the initial
value. -/
theorem set_thread_num_tss_exchanges_witness :
    (2 : Nat) ≠ 1
    ∧ (set_thread_num_tss (set_thread_num_tss thread_local_storage.fresh 1 5).1 1 9).2 = 5
    ∧ get_thread_num_tss (set_thread_num_tss thread_local_storage.fresh 1 5).1 2
        = get_thread_num_tss thread_local_storage.fresh 2 :=
  ⟨by decide, rfl,
   ((set_thread_num_tss_exchanges thread_local_storage.fresh 1 2 5 (0, 0) (1, 1)).2.2.2.2.2.2.2.2.2
      (by decide)).1⟩

/-! ## The fork branch in detail -/

/-- C25: on a task without a bound executor that has not been started, `apply`
with `policy == launch::fork` takes the fork branch whatever the hint says:
exactly one unit is registered, created `pending_do_not_schedule` with
priority boost, and it stays in that state (it is never suspended and no
`set_thread_state` follows); its id is returned.  If the hint requests
run-as-child that id is stored as the child handle of the task; if it does
not, the handle is left as it was (invalid, as constructed). -/
theorem apply_fork_child_handle (w : World V) (p pool : Nat) ( annotation : String)
    (priority : thread_priority) (stacksize : thread_stacksize)
    (schedulehint : thread_schedule_hint) (hs : (w.heap p).started_ = false) :
    ((w.heap p).exec_ = none →
      task_object.apply w p pool annotation .fork priority stacksize schedulehint
        = task_object.apply_void w p pool annotation .fork priority stacksize schedulehint)
    ∧ (task_object.apply_void w p pool annotation .fork priority stacksize schedulehint).2
        = .ok (some w.threads.length)
    ∧ (∃ u, (task_object.apply_void w p pool annotation .fork priority stacksize
          schedulehint).1.threads = w.threads ++ [u]
        ∧ u.this_ = p ∧ u.initial_state = .pending_do_not_schedule
        ∧ u.state = .pending_do_not_schedule ∧ u.priority = .thread_priority_boost
        ∧ u.run_now = true ∧ u.destroyed = 0)
    ∧ (schedulehint.runs_as_child = true →
        ((task_object.apply_void w p pool annotation .fork priority stacksize
          schedulehint).1.heap p).runs_as_child_ = some w.threads.length)
    ∧ (schedulehint.runs_as_child = false →
        ((task_object.apply_void w p pool annotation .fork priority stacksize
          schedulehint).1.heap p).runs_as_child_ = (w.heap p).runs_as_child_) := by
  refine ⟨?_, ?_, ?_, ?_, ?_⟩
  · intro hx
    simp [task_object.apply, hx]
  · simp only [task_object.apply_void, task_object.check_started, hs]
    cases schedulehint.runs_as_child <;> simp [register_thread_nullary, World.store]
  · refine ⟨{ pool := pool, this_ := p, description := annotation,
              initial_state := .pending_do_not_schedule, run_now := true,
              priority := .thread_priority_boost,
              schedulehint := { mode := .thread_schedule_hint_mode_thread,
                                hint := to_int16 w.worker_thread_num,
                                runs_as_child := schedulehint.runs_as_child },
              stacksize := stacksize, state := .pending_do_not_schedule, destroyed := 0 },
      ?_, rfl, rfl, rfl, rfl, rfl, rfl⟩
    simp only [task_object.apply_void, task_object.check_started, hs]
    cases schedulehint.runs_as_child <;> simp [register_thread_nullary, World.store]
  · intro hc
    simp [task_object.apply_void, task_object.check_started, hs, hc, register_thread_nullary,
      World.store]
  · intro hc
    simp [task_object.apply_void, task_object.check_started, hs, hc, register_thread_nullary,
      World.store]

/-- C25, witness: worker 3 forks a fresh task, once with and once without the
run-as-child hint, into a pool that holds no unit yet. -/
theorem apply_fork_child_handle_witness :
    ((task_object.apply_void
        (futures_factory.create (World.initial (task_object.create (.ok 0)) 3) 0
          (.ok (42 : Nat))).1
        0 0 "fork" .fork .thread_priority_low .thread_stacksize_default
        { mode := .thread_schedule_hint_mode_none, hint := -1, runs_as_child := true }).1.heap
        0).runs_as_child_ = some 0
    ∧ ((task_object.apply_void
        (futures_factory.create (World.initial (task_object.create (.ok 0)) 3) 0
          (.ok (42 : Nat))).1
        0 0 "fork" .fork .thread_priority_low .thread_stacksize_default
        { mode := .thread_schedule_hint_mode_none, hint := -1, runs_as_child := false }).1.heap
        0).runs_as_child_ = none :=
  ⟨(apply_fork_child_handle
      (futures_factory.create (World.initial (task_object.create (.ok 0)) 3) 0
        (.ok (42 : Nat))).1
      0 0 "fork" .thread_priority_low .thread_stacksize_default
      { mode := .thread_schedule_hint_mode_none, hint := -1, runs_as_child := true }
      rfl).2.2.2.1 rfl,
   (apply_fork_child_handle
      (futures_factory.create (World.initial (task_object.create (.ok 0)) 3) 0
        (.ok (42 : Nat))).1
      0 0 "fork" .thread_priority_low .thread_stacksize_default
      { mode := .thread_schedule_hint_mode_none, hint := -1, runs_as_child := false }
      rfl).2.2.2.2 rfl⟩

/-- C26: under the fork policy the hint of the registered unit is the current
worker thread number converted to `std::int16_t`: the number modulo `2^16`,
read as two's complement, which lies in `[-2^15, 2^15)` and differs from the
number by a multiple of `2^16`.  It is the worker number itself for every
worker number below `2^15`, and it is `-1` when the caller is not a worker
thread, that is when the number is `size_t(-1)`, the initial value of the
thread-local slot. -/
theorem fork_hint_is_int16_of_worker (w : World V) (p pool n self : Nat) ( annotation : String)
    (priority : thread_priority) (stacksize : thread_stacksize)
    (schedulehint : thread_schedule_hint) (hs : (w.heap p).started_ = false) :
    (∃ u, (task_object.apply_void w p pool annotation .fork priority stacksize
          schedulehint).1.threads = w.threads ++ [u]
        ∧ u.schedulehint.hint = to_int16 w.worker_thread_num
        ∧ u.schedulehint.mode = .thread_schedule_hint_mode_thread)
    ∧ (-32768 ≤ to_int16 n ∧ to_int16 n < 32768)
    ∧ (to_int16 n - (n : Int)) % 65536 = 0
    ∧ (to_int16 n = ((n % 65536 : Nat) : Int) ∨ to_int16 n = ((n % 65536 : Nat) : Int) - 65536)
    ∧ (n < 32768 → to_int16 n = (n : Int))
    ∧ to_int16 size_t_max = -1
    ∧ to_int16 (get_thread_num_tss thread_local_storage.fresh self) = -1 := by
  refine ⟨?_, ?_, ?_, ?_, ?_, ?_, ?_⟩
  · refine ⟨{ pool := pool, this_ := p, description := annotation,
              initial_state := .pending_do_not_schedule, run_now := true,
              priority := .thread_priority_boost,
              schedulehint := { mode := .thread_schedule_hint_mode_thread,
                                hint := to_int16 w.worker_thread_num,
                                runs_as_child := schedulehint.runs_as_child },
              stacksize := stacksize, state := .pending_do_not_schedule, destroyed := 0 },
      ?_, rfl, rfl⟩
    simp only [task_object.apply_void, task_object.check_started, hs]
    cases schedulehint.runs_as_child <;> simp [register_thread_nullary, World.store]
  · unfold to_int16
    split <;> omega
  · unfold to_int16
    split <;> omega
  · unfold to_int16
    split
    · exact Or.inl rfl
    · exact Or.inr rfl
  · intro h
    unfold to_int16
    have h1 : n % 65536 = n := Nat.mod_eq_of_lt (by omega)
    rw [h1]
    simp [h]
  · decide
  · have h : get_thread_num_tss thread_local_storage.fresh self = size_t_max := rfl
    rw [h]
    decide

/-- C26, witness: worker 7 forks; a caller whose number is `2^15` gets the
hint `-2^15`. -/
theorem fork_hint_is_int16_of_worker_witness :
    (to_int16 7 = 7 ∧ to_int16 32768 = -32768)
    ∧ to_int16 (get_thread_num_tss thread_local_storage.fresh 0) = -1 :=
  ⟨⟨(fork_hint_is_int16_of_worker
        (futures_factory.create (World.initial (task_object.create (.ok 0)) 7) 0
          (.ok (42 : Nat))).1
        0 0 7 0 "fork" .thread_priority_default .thread_stacksize_default
        { mode := .thread_schedule_hint_mode_none, hint := -1, runs_as_child := false }
        rfl).2.2.2.2.1 (by decide),
    by decide⟩,
   (fork_hint_is_int16_of_worker
      (futures_factory.create (World.initial (task_object.create (.ok 0)) 7) 0
        (.ok (42 : Nat))).1
      0 0 7 0 "fork" .thread_priority_default .thread_stacksize_default
      { mode := .thread_schedule_hint_mode_none, hint := -1, runs_as_child := false }
      rfl).2.2.2.2.2.2⟩

/-! ## The constructors without an executor -/

theorem initialising_constructors_take_pool_path (w : World V) (p pool : Nat)
    (f : Except error V) ( annotation : String) (policy : launch) (priority : thread_priority)
    (stacksize : thread_stacksize) (schedulehint : thread_schedule_hint) :
    ((task_object.construct_copy f).exec_ = none
      ∧ (task_object.construct_move f).exec_ = none
      ∧ (task_object.construct_no_addref_copy f).exec_ = none)
    ∧ ((w.heap p).exec_ = none →
        task_object.apply w p pool annotation policy priority stacksize schedulehint
          = task_object.apply_void w p pool annotation policy priority stacksize schedulehint
        ∧ (task_object.apply w p pool annotation policy priority stacksize
            schedulehint).1.posted = w.posted) := by
  refine ⟨⟨rfl, rfl, rfl⟩, ?_⟩
  intro hx
  have ha : task_object.apply w p pool annotation policy priority stacksize schedulehint
      = task_object.apply_void w p pool annotation policy priority stacksize schedulehint := by
    simp [task_object.apply, hx]
  refine ⟨ha, ?_⟩
  rw [ha]
  unfold task_object.apply_void
  cases hc : (w.heap p).check_started with
  | error e => rfl
  | ok t1 =>
    simp only
    split_ifs <;> simp [register_thread_nullary, set_thread_state, World.store]

/-- C22 (the code at the failing input): a task built by the constructor
`task_object(init_no_addref, F&&)` in storage whose `exec_` slot holds the
address of executor 5 has a non-null `exec_`; `apply` on it, with the default
arguments, posts the unit to that executor and registers nothing with the
pool.  The three other constructors without an executor leave `exec_`
null. -/
theorem construct_no_addref_move_leaves_exec :
    (task_object.construct_no_addref_move (some { id := 5, post_raises := none })
        (.ok (42 : Nat))).exec_ ≠ none
    ∧ (task_object.apply
        ((World.initial (task_object.create (.ok 0)) 0).store 0
          (task_object.construct_no_addref_move (some { id := 5, post_raises := none })
            (.ok (42 : Nat))))
        0 0 "futures_factory::apply" .async .thread_priority_default .thread_stacksize_default
        { mode := .thread_schedule_hint_mode_none, hint := -1, runs_as_child := false }).1.posted
      = [{ exec := 5, this_ := 0,
           schedulehint := { mode := .thread_schedule_hint_mode_none, hint := -1,
                             runs_as_child := false },
           annotation := "futures_factory::apply", done := false }]
    ∧ (task_object.apply
        ((World.initial (task_object.create (.ok 0)) 0).store 0
          (task_object.construct_no_addref_move (some { id := 5, post_raises := none })
            (.ok (42 : Nat))))
        0 0 "futures_factory::apply" .async .thread_priority_default .thread_stacksize_default
        { mode := .thread_schedule_hint_mode_none, hint := -1, runs_as_child := false }).1.threads
      = []
    ∧ (task_object.construct_copy (.ok (42 : Nat))).exec_ = none
    ∧ (task_object.construct_move (.ok (42 : Nat))).exec_ = none
    ∧ (task_object.construct_no_addref_copy (.ok (42 : Nat))).exec_ = none := by
  refine ⟨by simp [task_object.construct_no_addref_move], rfl, rfl, rfl, rfl, rfl⟩

/-! ## Reachable states of a factory -/

theorem get_future_step_eq (fac : futures_factory) :
    fac.get_future_step
      = match fac.get_future with
        | .ok r => (r.2, .ok r.1)
        | .error e => (fac, .error e) := by
  unfold futures_factory.get_future_step futures_factory.get_future
  cases ht : fac.task_ with
  | none => simp
  | some q =>
    cases hf : fac.future_obtained_ <;> simp

theorem get_future_step_obtained (fac : futures_factory) (h : fac.obtained_only_moved) :
    fac.get_future_step.1.obtained_only_moved := by
  unfold futures_factory.get_future_step
  split
  · exact h
  · split
    · exact h
    · intro _
      rfl

theorem step_obtained_only_moved (s : factories V) (o : factory_op V)
    (h : ∀ i, (s.objs i).obtained_only_moved) : ∀ i, ((s.step o).objs i).obtained_only_moved := by
  intro k
  cases o with
  | construct_default i =>
    simp only [factories.step]
    by_cases hk : k = i
    · subst hk
      simp [futures_factory.obtained_only_moved, futures_factory.default_constructed]
    · simpa [Function.update, hk] using h k
  | construct i p f =>
    simp only [factories.step]
    by_cases hk : k = i
    · subst hk
      simp [futures_factory.obtained_only_moved, futures_factory.create]
    · simpa [Function.update, hk] using h k
  | construct_with_executor i p ex f =>
    simp only [factories.step]
    by_cases hk : k = i
    · subst hk
      simp [futures_factory.obtained_only_moved, futures_factory.create_with_executor]
    · simpa [Function.update, hk] using h k
  | move_construct i j =>
    simp only [factories.step]
    by_cases hk : k = i
    · subst hk
      simpa [futures_factory.obtained_only_moved, futures_factory.move_construct] using h j
    · by_cases hj : k = j
      · subst hj
        simp [Function.update, hk, futures_factory.obtained_only_moved,
          futures_factory.move_construct]
      · simpa [Function.update, hk, hj] using h k
  | move_assign i j =>
    simp only [factories.step, futures_factory.move_assign]
    by_cases hij : i = j
    · simpa [hij] using h k
    · simp only [ne_eq, hij, not_false_eq_true, if_true]
      by_cases hj : k = j
      · subst hj
        simp [futures_factory.obtained_only_moved]
      · by_cases hk : k = i
        · subst hk
          simpa [Function.update, hj, futures_factory.obtained_only_moved] using h j
        · simpa [Function.update, hk, hj] using h k
  | get_future i =>
    simp only [factories.step]
    by_cases hk : k = i
    · subst hk
      simpa using get_future_step_obtained _ (h k)
    · simpa [Function.update, hk] using h k
  | call i => exact h k
  | apply i pool a policy priority stacksize schedulehint => exact h k
  | set_exception i e => exact h k

theorem run_obtained_only_moved (ops : List (factory_op V)) (s : factories V)
    (h : ∀ i, (s.objs i).obtained_only_moved) :
    ∀ i, ((s.run ops).objs i).obtained_only_moved := by
  induction ops generalizing s with
  | nil => exact h
  | cons o ops ih => exact ih (s.step o) (step_obtained_only_moved s o h)

/-- C21: in every state of a factory object reached from the constructors by
any sequence of `get_future`, move construction, move assignment,
`operator()()`, `apply` and `set_exception` calls on any objects,
`future_obtained_` is true only if the factory holds no task; so `get_future`
on such a state never ends in the `future_already_retrieved` branch (it
fails with `task_moved` whenever the flag is set). -/
theorem future_obtained_only_without_task (w : World V) (ops : List (factory_op V))
    (i : Nat) :
    ((((factories.initial w).run ops).objs i).future_obtained_ = true →
        (((factories.initial w).run ops).objs i).task_ = none)
    ∧ (((factories.initial w).run ops).objs i).get_future ≠ .error .future_already_retrieved
    ∧ (((factories.initial w).run ops).objs i).get_future_step.2
        ≠ .error .future_already_retrieved
    ∧ ((((factories.initial w).run ops).objs i).future_obtained_ = true →
        (((factories.initial w).run ops).objs i).get_future = .error .task_moved) := by
  have h := run_obtained_only_moved ops (factories.initial w)
    (fun _ => by simp [futures_factory.obtained_only_moved, factories.initial,
      futures_factory.default_constructed]) i
  have hg : (((factories.initial w).run ops).objs i).get_future
      ≠ .error .future_already_retrieved := by
    unfold futures_factory.get_future
    cases ht : (((factories.initial w).run ops).objs i).task_ with
    | none => simp
    | some q =>
      cases hf : (((factories.initial w).run ops).objs i).future_obtained_ with
      | false => simp
      | true =>
        have := h hf
        rw [ht] at this
        cases this
  refine ⟨h, hg, ?_, ?_⟩
  · rw [get_future_step_eq]
    cases hr : (((factories.initial w).run ops).objs i).get_future with
    | ok r => simp
    | error e =>
      simp only [ne_eq, Except.error.injEq]
      intro he
      rw [he] at hr
      exact hg hr
  · intro hf
    simp [futures_factory.get_future, h hf]

/-- C21, witness: object 0 is built from a callable, its future is retrieved,
it is moved into object 1 and object 1 is assigned back to object 0; object 0
then has the flag set and no task. -/
theorem future_obtained_only_without_task_witness :
    (((factories.initial (World.initial (task_object.create (.ok (0 : Nat))) 0)).run
        [.construct 0 0 (.ok 42), .get_future 0, .call 0, .move_construct 1 0,
         .move_assign 0 1]).objs 0).future_obtained_ = true
    ∧ (((factories.initial (World.initial (task_object.create (.ok (0 : Nat))) 0)).run
        [.construct 0 0 (.ok 42), .get_future 0, .call 0, .move_construct 1 0,
         .move_assign 0 1]).objs 0).task_ = none :=
  ⟨rfl,
   (future_obtained_only_without_task (World.initial (task_object.create (.ok (0 : Nat))) 0)
      [.construct 0 0 (.ok 42), .get_future 0, .call 0, .move_construct 1 0,
       .move_assign 0 1] 0).1 rfl⟩

/-- C23: a `get_future` that fails, with `task_moved` or with
`future_already_retrieved`, leaves the task reference and the
`future_obtained_` flag of the factory as they were; `operator()()`, `apply`
and `set_exception` leave them as they were whether they fail or not; and a
move assignment of a factory to itself changes no object. -/
theorem failed_operation_keeps_factory (fac : futures_factory) (s : factories V)
    (objs : Nat → futures_factory) (i pool : Nat) ( annotation : String) (policy : launch)
    (priority : thread_priority) (stacksize : thread_stacksize)
    (schedulehint : thread_schedule_hint) (e : error) :
    (∀ err, fac.get_future_step.2 = .error err →
        fac.get_future_step.1 = fac
        ∧ (err = .task_moved ∨ err = .future_already_retrieved))
    ∧ (∀ err, fac.get_future = .error err → fac.get_future_step = (fac, .error err))
    ∧ (∀ err, (s.objs i).get_future_step.2 = .error err → s.step (.get_future i) = s)
    ∧ (s.step (.call i)).objs = s.objs
    ∧ (s.step (.apply i pool annotation policy priority stacksize schedulehint)).objs = s.objs
    ∧ (s.step (.set_exception i e)).objs = s.objs
    ∧ futures_factory.move_assign objs i i = objs
    ∧ s.step (.move_assign i i) = s := by
  refine ⟨?_, ?_, ?_, rfl, rfl, rfl, ?_, ?_⟩
  · intro err h
    unfold futures_factory.get_future_step at h ⊢
    cases ht : fac.task_ with
    | none =>
      simp only [ht, Option.isNone_none, if_true, Except.error.injEq] at h ⊢
      exact ⟨trivial, Or.inl h.symm⟩
    | some q =>
      cases hf : fac.future_obtained_ with
      | true =>
        simp only [ht, hf, Option.isNone_some, Bool.false_eq_true, if_false, if_true,
          Except.error.injEq] at h ⊢
        exact ⟨trivial, Or.inr h.symm⟩
      | false => simp [ht, hf] at h
  · intro err h
    rw [get_future_step_eq, h]
  · intro err h
    have hfac : (s.objs i).get_future_step.1 = s.objs i := by
      unfold futures_factory.get_future_step at h ⊢
      split
      · rfl
      · split
        · rfl
        · rename_i ht hf
          simp [ht, hf] at h
    simp only [factories.step, hfac, Function.update_eq_self]
  · simp [futures_factory.move_assign]
  · simp [factories.step, futures_factory.move_assign]

/-- C23, witness: `get_future` on a default-constructed factory fails with
`task_moved`, and on a factory with a task and the flag set it fails with
`future_already_retrieved`; both leave the factory as it was. -/
theorem failed_operation_keeps_factory_witness :
    (futures_factory.get_future_step futures_factory.default_constructed).1
        = futures_factory.default_constructed
    ∧ (futures_factory.get_future_step { task_ := some 3, future_obtained_ := true }).1
        = { task_ := some 3, future_obtained_ := true } :=
  ⟨((failed_operation_keeps_factory futures_factory.default_constructed
        (factories.initial (World.initial (task_object.create (.ok (0 : Nat))) 0))
        (fun _ => futures_factory.default_constructed) 0 0 "futures_factory::apply" .async
        .thread_priority_default .thread_stacksize_default
        { mode := .thread_schedule_hint_mode_none, hint := -1, runs_as_child := false }
        (.user 1)).1 .task_moved rfl).1,
   ((failed_operation_keeps_factory { task_ := some 3, future_obtained_ := true }
        (factories.initial (World.initial (task_object.create (.ok (0 : Nat))) 0))
        (fun _ => futures_factory.default_constructed) 0 0 "futures_factory::apply" .async
        .thread_priority_default .thread_stacksize_default
        { mode := .thread_schedule_hint_mode_none, hint := -1, runs_as_child := false }
        (.user 1)).1 .future_already_retrieved rfl).1⟩

/-! ## A retained unit is destroyed at most once -/

theorem keeps_handle_refl (p : Nat) (w : World V) : keeps_handle p w w :=
  ⟨rfl, rfl, rfl, fun _ => rfl⟩

theorem keeps_handle_trans (p : Nat) (w w1 w2 : World V) (h1 : keeps_handle p w w1)
    (h2 : keeps_handle p w1 w2) : keeps_handle p w w2 :=
  ⟨h2.1.trans h1.1, h2.2.1.trans h1.2.1, h2.2.2.1.trans h1.2.2.1,
   fun c => (h2.2.2.2 c).trans (h1.2.2.2 c)⟩

theorem keeps_handle_lifetime (p : Nat) (w w1 : World V) (h : keeps_handle p w w1) :
    potential_le p w1 w ∧ lifetime_le p w1 w := by
  obtain ⟨h1, h2, h3, h4⟩ := h
  refine ⟨⟨?_, fun c => ?_⟩, ?_, fun c => ?_⟩ <;>
    simp [destroy_potential, unit_potential, unstarted, h1, h2, h3, h4]

theorem potential_le_refl (p : Nat) (w : World V) : potential_le p w w :=
  ⟨Nat.le_refl _, fun _ => Nat.le_refl _⟩

theorem potential_le_trans (p : Nat) (w2 w1 w : World V) (h2 : potential_le p w2 w1)
    (h1 : potential_le p w1 w) : potential_le p w2 w :=
  ⟨Nat.le_trans h2.1 h1.1, fun c => Nat.le_trans (h2.2 c) (h1.2 c)⟩

theorem lifetime_le_refl (p : Nat) (w : World V) : lifetime_le p w w :=
  ⟨Nat.le_refl _, fun _ => Nat.le_refl _⟩

theorem lifetime_le_trans (p : Nat) (w2 w1 w : World V) (h2 : lifetime_le p w2 w1)
    (h1 : lifetime_le p w1 w) : lifetime_le p w2 w :=
  ⟨Nat.le_trans h2.1 h1.1, fun c => Nat.le_trans (h2.2 c) (h1.2 c)⟩

theorem destroy_calls_modify (w : World V) (i : Nat) (g : thread_data → thread_data)
    (hg : ∀ u, (g u).destroyed = u.destroyed) :
    destroy_calls (w.modify_thread i g).threads = destroy_calls w.threads := by
  cases h : w.threads[i]? with
  | none => rw [modify_thread_none _ _ _ h]
  | some u =>
    have hs := sum_map_set_add thread_data.destroyed w.threads i u (g u) h
    rw [modify_thread_threads _ _ _ u h]
    simp only [destroy_calls]
    rw [hg u] at hs
    omega

theorem destroyed_at_set (l : List thread_data) (i c : Nat) (u a : thread_data)
    (h : l[i]? = some u) :
    destroyed_at c (l.set i a)
      = if i = c then a.destroyed else destroyed_at c l := by
  by_cases hic : i = c
  · subst hic
    have hl : i < l.length := by
      rcases Nat.lt_or_ge i l.length with hl | hl
      · exact hl
      · rw [List.getElem?_eq_none hl] at h
        cases h
    simp [destroyed_at, List.getElem?_set, hl]
  · simp [destroyed_at, List.getElem?_set, hic]

theorem destroyed_at_modify (w : World V) (i c : Nat) (g : thread_data → thread_data)
    (hg : ∀ u, (g u).destroyed = u.destroyed) :
    destroyed_at c (w.modify_thread i g).threads = destroyed_at c w.threads := by
  cases h : w.threads[i]? with
  | none => rw [modify_thread_none _ _ _ h]
  | some u =>
    rw [modify_thread_threads _ _ _ u h, destroyed_at_set _ i c u _ h]
    split
    · rename_i hic
      subst hic
      simp [destroyed_at, h, hg]
    · rfl

theorem destroyed_at_append (l : List thread_data) (u : thread_data) (c : Nat)
    (hu : u.destroyed = 0) : destroyed_at c (l ++ [u]) = destroyed_at c l := by
  rcases Nat.lt_trichotomy c l.length with hc | hc | hc
  · simp [destroyed_at, List.getElem?_append_left hc]
  · subst hc
    simp [destroyed_at, hu]
  · have h1 : (l ++ [u])[c]? = none := by
      apply List.getElem?_eq_none
      simp
      omega
    have h2 : l[c]? = none := List.getElem?_eq_none (Nat.le_of_lt hc)
    simp [destroyed_at, h1, h2]

theorem modify_keeps_handle (w : World V) (p i : Nat) (g : thread_data → thread_data)
    (hg : ∀ u, (g u).destroyed = u.destroyed) : keeps_handle p w (w.modify_thread i g) :=
  ⟨destroy_calls_modify w i g hg, by simp, by simp, fun c => destroyed_at_modify w i c g hg⟩

theorem store_keeps_handle (w : World V) (p q : Nat) (t : task_object V)
    (h1 : t.runs_as_child_ = (w.heap q).runs_as_child_)
    (h2 : t.started_ = (w.heap q).started_) : keeps_handle p w (w.store q t) := by
  by_cases hq : p = q
  · subst hq
    simp [keeps_handle, h1, h2]
  · simp [keeps_handle, store_heap_other _ _ _ _ hq]

theorem run_impl_keeps_handle (w : World V) (p q : Nat) : keeps_handle p w (run_impl w q) := by
  obtain ⟨s, hs⟩ := do_run_shape (w.heap q)
  unfold run_impl
  rw [hs]
  exact store_keeps_handle w p q _ rfl rfl

theorem execute_thread_keeps_handle (w : World V) (p i : Nat) :
    keeps_handle p w (execute_thread w i).1 := by
  unfold execute_thread
  simp only
  split
  · exact keeps_handle_refl p w
  · split
    · exact keeps_handle_refl p w
    · refine keeps_handle_trans p _ _ _ ?_ (modify_keeps_handle _ p i _ fun _ => rfl)
      exact run_impl_keeps_handle { w with inline_attempts := w.inline_attempts + 1 } p _

theorem pool_claim_keeps_handle (w : World V) (p i : Nat) :
    keeps_handle p w (pool_claim w i) := by
  unfold pool_claim
  split
  · exact keeps_handle_refl p w
  · split
    · exact modify_keeps_handle _ p i _ fun _ => rfl
    · exact keeps_handle_refl p w

theorem pool_finish_keeps_handle (w : World V) (p i : Nat) :
    keeps_handle p w (pool_finish w i) := by
  unfold pool_finish
  split
  · exact keeps_handle_refl p w
  · split
    · exact keeps_handle_trans p _ _ _ (run_impl_keeps_handle w p _)
        (modify_keeps_handle _ p i _ fun _ => rfl)
    · exact keeps_handle_refl p w

theorem executor_run_keeps_handle (w : World V) (p j : Nat) :
    keeps_handle p w (executor_run w j) := by
  unfold executor_run
  split
  · exact keeps_handle_refl p w
  · split
    · exact keeps_handle_refl p w
    · exact keeps_handle_trans p _ _ _ (run_impl_keeps_handle w p _)
        ⟨rfl, rfl, rfl, fun _ => rfl⟩

theorem set_exception_keeps_handle (fac : futures_factory) (w : World V) (p : Nat)
    (e : error) : keeps_handle p w (fac.set_exception w e).1 := by
  unfold futures_factory.set_exception
  split
  · exact keeps_handle_refl p w
  · split
    · exact store_keeps_handle _ p _ _ rfl rfl
    · exact keeps_handle_refl p w

theorem destroy_thread_le (w : World V) (c : Nat) :
    destroy_calls (destroy_thread w c).threads ≤ destroy_calls w.threads + 1
    ∧ (destroy_thread w c).heap = w.heap
    ∧ ∀ i, destroyed_at i (destroy_thread w c).threads
        ≤ destroyed_at i w.threads + (if c = i then 1 else 0) := by
  refine ⟨?_, by simp [destroy_thread], fun i => ?_⟩
  · cases h : w.threads[c]? with
    | none =>
      have : destroy_thread w c = w := modify_thread_none _ _ _ h
      rw [this]
      omega
    | some u =>
      rw [(destroy_thread_calls w c u h).2]
  · cases h : w.threads[c]? with
    | none =>
      have : destroy_thread w c = w := modify_thread_none _ _ _ h
      rw [this]
      omega
    | some u =>
      rw [(destroy_thread_calls w c u h).1, destroyed_at_set _ c i u _ h]
      split
      · rename_i hci
        subst hci
        simp [destroyed_at, h]
      · omega

theorem run_child_inline_none (w : World V) (p : Nat)
    (hc : (w.heap p).runs_as_child_ = none) : task_object.run_child_inline w p = w := by
  simp only [task_object.run_child_inline, hc]

theorem run_child_inline_resolved (w : World V) (p c : Nat)
    (hc : (w.heap p).runs_as_child_ = some c) (he : (w.heap p).state_.is_empty = false) :
    task_object.run_child_inline w p = w := by
  simp only [task_object.run_child_inline, hc, he, Bool.false_eq_true, if_false]

theorem run_child_inline_failed (w : World V) (p c : Nat)
    (hc : (w.heap p).runs_as_child_ = some c) (he : (w.heap p).state_.is_empty = true)
    (hr : (execute_thread w c).2 = false) :
    task_object.run_child_inline w p = (execute_thread w c).1 := by
  simp only [task_object.run_child_inline, hc, he, hr, Bool.false_eq_true, if_false, if_true]

theorem run_child_inline_ran (w : World V) (p c : Nat)
    (hc : (w.heap p).runs_as_child_ = some c) (he : (w.heap p).state_.is_empty = true)
    (hr : (execute_thread w c).2 = true) :
    task_object.run_child_inline w p
      = destroy_thread ((execute_thread w c).1.store p
          { (execute_thread w c).1.heap p with runs_as_child_ := none }) c := by
  simp only [task_object.run_child_inline, hc, he, hr, if_true]

theorem run_child_inline_destroys (w : World V) (p : Nat)
    (h : destroy_calls (task_object.run_child_inline w p).threads ≠ destroy_calls w.threads) :
    ∃ c, (w.heap p).runs_as_child_ = some c ∧ (w.heap p).state_.is_empty = true
      ∧ (execute_thread w c).2 = true
      ∧ task_object.run_child_inline w p
          = destroy_thread ((execute_thread w c).1.store p
              { (execute_thread w c).1.heap p with runs_as_child_ := none }) c
      ∧ ((task_object.run_child_inline w p).heap p).runs_as_child_ = none := by
  cases hc : (w.heap p).runs_as_child_ with
  | none =>
    rw [run_child_inline_none w p hc] at h
    exact absurd rfl h
  | some c =>
    cases he : (w.heap p).state_.is_empty with
    | false =>
      rw [run_child_inline_resolved w p c hc he] at h
      exact absurd rfl h
    | true =>
      cases hr : (execute_thread w c).2 with
      | false =>
        rw [run_child_inline_failed w p c hc he hr] at h
        exact absurd (execute_thread_keeps_handle w p c).1 h
      | true =>
        refine ⟨c, rfl, rfl, hr, run_child_inline_ran w p c hc he hr, ?_⟩
        rw [run_child_inline_ran w p c hc he hr, (destroy_thread_le _ c).2.1, store_heap_same]

theorem run_child_inline_potential (w : World V) (p : Nat) :
    potential_le p (task_object.run_child_inline w p) w
    ∧ ((task_object.run_child_inline w p).heap p).started_ = (w.heap p).started_ := by
  cases hc : (w.heap p).runs_as_child_ with
  | none =>
    rw [run_child_inline_none w p hc]
    exact ⟨potential_le_refl p w, rfl⟩
  | some c =>
    cases he : (w.heap p).state_.is_empty with
    | false =>
      rw [run_child_inline_resolved w p c hc he]
      exact ⟨potential_le_refl p w, rfl⟩
    | true =>
      have hk := execute_thread_keeps_handle w p c
      cases hr : (execute_thread w c).2 with
      | false =>
        rw [run_child_inline_failed w p c hc he hr]
        exact ⟨(keeps_handle_lifetime p _ _ hk).1, hk.2.2.1⟩
      | true =>
        rw [run_child_inline_ran w p c hc he hr]
        have hd := destroy_thread_le
          ((execute_thread w c).1.store p
            { (execute_thread w c).1.heap p with runs_as_child_ := none }) c
        refine ⟨⟨?_, fun i => ?_⟩, ?_⟩
        · have h1 := hd.1
          have h2 : destroy_calls ((execute_thread w c).1.store p
              { (execute_thread w c).1.heap p with runs_as_child_ := none }).threads
              = destroy_calls w.threads := hk.1
          rw [h2] at h1
          simp only [destroy_potential, hd.2.1, store_heap_same, hc, Option.isSome_none,
            Option.isSome_some, Bool.false_eq_true, if_false, if_true, add_zero]
          exact h1
        · have h1 := hd.2.2 i
          have h2 : destroyed_at i ((execute_thread w c).1.store p
              { (execute_thread w c).1.heap p with runs_as_child_ := none }).threads
              = destroyed_at i w.threads := hk.2.2.2 i
          rw [h2] at h1
          simp only [unit_potential, hd.2.1, store_heap_same, hc, Option.some.injEq,
            if_false, add_zero]
          simpa using h1
        · rw [hd.2.1, store_heap_same]
          exact hk.2.2.1

theorem wait_is_run_child_inline (w : World V) (p : Nat) :
    (future.wait w p).1 = task_object.run_child_inline w p := by
  unfold future.wait task_object.get_result_void future_data.get_result_void
  split <;> rfl

theorem wait_potential (w : World V) (p : Nat) :
    potential_le p (future.wait w p).1 w
    ∧ ((future.wait w p).1.heap p).started_ = (w.heap p).started_ := by
  rw [wait_is_run_child_inline]
  exact run_child_inline_potential w p

theorem destructor_le_potential (w : World V) (p : Nat) :
    destroy_calls (task_object.destructor w p).threads ≤ destroy_potential p w
    ∧ ∀ c, destroyed_at c (task_object.destructor w p).threads ≤ unit_potential p c w := by
  unfold task_object.destructor destroy_potential unit_potential
  cases hc : (w.heap p).runs_as_child_ with
  | none => simp
  | some c =>
    refine ⟨by simpa using (destroy_thread_le w c).1, fun i => ?_⟩
    simpa using (destroy_thread_le w c).2.2 i

theorem waits_potential (n : Nat) (w : World V) (p : Nat) :
    potential_le p ((fun x => (future.wait x p).1)^[n] w) w := by
  induction n generalizing w with
  | zero => exact potential_le_refl p w
  | succ n ih =>
    rw [Function.iterate_succ_apply]
    exact potential_le_trans p _ _ _ (ih _) (wait_potential w p).1

theorem starts_lifetime (p : Nat) (w w1 : World V)
    (hd : destroy_calls w1.threads = destroy_calls w.threads)
    (hu : ∀ c, destroyed_at c w1.threads = destroyed_at c w.threads)
    (h0 : (w.heap p).started_ = false) (h1 : (w1.heap p).started_ = true) :
    lifetime_le p w1 w := by
  refine ⟨?_, fun c => ?_⟩
  · simp only [destroy_potential, unstarted, hd, h0, h1, if_true, Bool.false_eq_true,
      if_false]
    split <;> split <;> omega
  · simp only [unit_potential, unstarted, hu, h0, h1, if_true, Bool.false_eq_true,
      if_false]
    split <;> split <;> omega

theorem register_destroy_calls (w : World V) (pool this_ : Nat) (description : String)
    (initial_state : thread_state_enum) (run_now : Bool) (priority : thread_priority)
    (schedulehint : thread_schedule_hint) (stacksize : thread_stacksize) :
    destroy_calls (register_thread_nullary w pool this_ description initial_state run_now
      priority schedulehint stacksize).1.threads = destroy_calls w.threads
    ∧ ∀ c, destroyed_at c (register_thread_nullary w pool this_ description initial_state
        run_now priority schedulehint stacksize).1.threads = destroyed_at c w.threads :=
  ⟨by simp [register_thread_nullary, destroy_calls],
   fun c => destroyed_at_append w.threads _ c rfl⟩

theorem set_thread_state_destroy_calls (w : World V) (id : thread_id_type)
    (st : thread_state_enum) :
    destroy_calls (set_thread_state w id st).threads = destroy_calls w.threads
    ∧ ∀ c, destroyed_at c (set_thread_state w id st).threads = destroyed_at c w.threads := by
  cases id with
  | none => exact ⟨rfl, fun _ => rfl⟩
  | some i =>
    exact ⟨destroy_calls_modify w i _ fun _ => rfl,
      fun c => destroyed_at_modify w i c _ fun _ => rfl⟩

theorem set_thread_state_heap (w : World V) (id : thread_id_type) (st : thread_state_enum) :
    (set_thread_state w id st).heap = w.heap := by
  cases id with
  | none => rfl
  | some i => simp [set_thread_state]

theorem apply_void_starts (w : World V) (p pool : Nat) ( annotation : String)
    (policy : launch) (priority : thread_priority) (stacksize : thread_stacksize)
    (schedulehint : thread_schedule_hint) (h : (w.heap p).started_ = false) :
    destroy_calls (task_object.apply_void w p pool annotation policy priority stacksize
      schedulehint).1.threads = destroy_calls w.threads
    ∧ ((task_object.apply_void w p pool annotation policy priority stacksize
      schedulehint).1.heap p).started_ = true
    ∧ ∀ c, destroyed_at c (task_object.apply_void w p pool annotation policy priority stacksize
        schedulehint).1.threads = destroyed_at c w.threads := by
  have hc : (w.heap p).check_started = .ok { w.heap p with started_ := true } := by
    simp [task_object.check_started, h]
  unfold task_object.apply_void
  rw [hc]
  simp only
  split
  · split
    · exact ⟨by rw [store_threads, (register_destroy_calls _ _ _ _ _ _ _ _ _).1, store_threads],
        by simp [register_thread_nullary],
        fun c => by
          rw [store_threads, (register_destroy_calls _ _ _ _ _ _ _ _ _).2, store_threads]⟩
    · exact ⟨by rw [(register_destroy_calls _ _ _ _ _ _ _ _ _).1, store_threads],
        by simp [register_thread_nullary],
        fun c => by rw [(register_destroy_calls _ _ _ _ _ _ _ _ _).2, store_threads]⟩
  · split
    · exact ⟨by rw [(set_thread_state_destroy_calls _ _ _).1, store_threads,
          (register_destroy_calls _ _ _ _ _ _ _ _ _).1, store_threads],
        by rw [set_thread_state_heap]; simp [register_thread_nullary],
        fun c => by
          rw [(set_thread_state_destroy_calls _ _ _).2, store_threads,
            (register_destroy_calls _ _ _ _ _ _ _ _ _).2, store_threads]⟩
    · exact ⟨by rw [(register_destroy_calls _ _ _ _ _ _ _ _ _).1, store_threads],
        by simp [register_thread_nullary],
        fun c => by rw [(register_destroy_calls _ _ _ _ _ _ _ _ _).2, store_threads]⟩

theorem apply_starts (w : World V) (p pool : Nat) ( annotation : String)
    (policy : launch) (priority : thread_priority) (stacksize : thread_stacksize)
    (schedulehint : thread_schedule_hint) (h : (w.heap p).started_ = false) :
    destroy_calls (task_object.apply w p pool annotation policy priority stacksize
      schedulehint).1.threads = destroy_calls w.threads
    ∧ ((task_object.apply w p pool annotation policy priority stacksize
      schedulehint).1.heap p).started_ = true
    ∧ ∀ c, destroyed_at c (task_object.apply w p pool annotation policy priority stacksize
        schedulehint).1.threads = destroyed_at c w.threads := by
  have hc : (w.heap p).check_started = .ok { w.heap p with started_ := true } := by
    simp [task_object.check_started, h]
  unfold task_object.apply
  cases hx : (w.heap p).exec_ with
  | none => exact apply_void_starts w p pool annotation policy priority stacksize schedulehint h
  | some ex =>
    simp only [hc]
    unfold post
    cases ex.post_raises with
    | none => exact ⟨rfl, by simp, fun _ => rfl⟩
    | some e => exact ⟨rfl, by simp, fun _ => rfl⟩

theorem apply_lifetime (w : World V) (p pool : Nat) ( annotation : String)
    (policy : launch) (priority : thread_priority) (stacksize : thread_stacksize)
    (schedulehint : thread_schedule_hint) :
    lifetime_le p (task_object.apply w p pool annotation policy priority stacksize
      schedulehint).1 w := by
  cases h : (w.heap p).started_ with
  | true =>
    rw [apply_started _ _ _ _ _ _ _ _ h]
    exact lifetime_le_refl p w
  | false =>
    have hs := apply_starts w p pool annotation policy priority stacksize schedulehint h
    exact starts_lifetime p _ _ hs.1 hs.2.2 h hs.2.1

theorem run_lifetime (w : World V) (p : Nat) :
    lifetime_le p (w.store p (w.heap p).run.1) w := by
  cases h : (w.heap p).started_ with
  | true =>
    rw [run_started _ h]
    exact (keeps_handle_lifetime p _ _ (store_keeps_handle w p p _ rfl rfl)).2
  | false =>
    refine starts_lifetime p _ _ rfl (fun _ => rfl) h ?_
    have hc : (w.heap p).check_started = .ok { w.heap p with started_ := true } := by
      simp [task_object.check_started, h]
    obtain ⟨s, hs⟩ := do_run_shape { w.heap p with started_ := true }
    simp only [task_object.run, hc, hs, store_heap_same]

theorem wait_lifetime (w : World V) (p : Nat) : lifetime_le p (future.wait w p).1 w := by
  have h := wait_potential w p
  refine ⟨?_, fun c => ?_⟩
  · have h1 := h.1.1
    simp only [unstarted, h.2]
    omega
  · have h1 := h.1.2 c
    simp only [unstarted, h.2]
    omega

theorem step_lifetime (s : system V) (p : Nat) (o : op) (hr : s.refers_to p) :
    lifetime_le p (s.step o).world s.world := by
  cases o with
  | call =>
    simp only [system.step, futures_factory.call]
    rcases hr.1 with hf | hf
    · simp only [hf]
      exact lifetime_le_refl p _
    · simp only [hf]
      exact run_lifetime _ p
  | apply pool a policy priority stacksize schedulehint =>
    simp only [system.step, futures_factory.apply]
    rcases hr.1 with hf | hf
    · simp only [hf]
      exact lifetime_le_refl p _
    · simp only [hf]
      exact apply_lifetime _ p pool a policy priority stacksize schedulehint
  | get_future =>
    simp only [system.step]
    split <;> exact lifetime_le_refl p _
  | set_exception e =>
    exact (keeps_handle_lifetime p _ _ (set_exception_keeps_handle _ _ p e)).2
  | wait =>
    simp only [system.step]
    rcases hr.2 with hf | hf
    · simp only [hf]
      exact lifetime_le_refl p _
    · simp only [hf]
      exact wait_lifetime _ p
  | pool_claim i =>
    exact (keeps_handle_lifetime p _ _ (pool_claim_keeps_handle _ p i)).2
  | pool_finish i =>
    exact (keeps_handle_lifetime p _ _ (pool_finish_keeps_handle _ p i)).2
  | executor_run j =>
    exact (keeps_handle_lifetime p _ _ (executor_run_keeps_handle _ p j)).2

theorem run_ops_lifetime (ops : List op) (s : system V) (p : Nat) (hr : s.refers_to p) :
    lifetime_le p (s.run ops).world s.world := by
  induction ops generalizing s with
  | nil => exact lifetime_le_refl p _
  | cons o ops ih =>
    have h1 : s.run (o :: ops) = (s.step o).run ops := rfl
    rw [h1]
    exact lifetime_le_trans p _ _ _ (ih _ (step_refers_to s p o hr)) (step_lifetime s p o hr)

theorem start_lifetime (w : World V) (p : Nat) (ex : Option executor) (f : Except error V) :
    (system.start w p ex f).refers_to p
    ∧ destroy_potential p (system.start w p ex f).world
        + unstarted p (system.start w p ex f).world = destroy_calls w.threads + 1
    ∧ ∀ c, unit_potential p c (system.start w p ex f).world
        + unstarted p (system.start w p ex f).world = destroyed_at c w.threads + 1 := by
  cases ex with
  | none =>
    refine ⟨⟨Or.inr rfl, Or.inl rfl⟩, ?_, fun c => ?_⟩ <;>
      simp [system.start, futures_factory.create, unstarted, destroy_potential,
        unit_potential, task_object.create]
  | some e =>
    refine ⟨⟨Or.inr rfl, Or.inl rfl⟩, ?_, fun c => ?_⟩ <;>
      simp [system.start, futures_factory.create_with_executor, unstarted,
        destroy_potential, unit_potential, task_object.create_with_executor,
        task_object.create]

/-- C24: a unit retained as the run-as-child handle of a task is destroyed at
most once over the lifetime of the task.  A wait (`get_result_void`) makes a
destroy call only when a handle `c` is retained, the task is still empty and
the inline execution of `c` succeeded; it then calls `destroy_thread` on `c`
and the handle is cleared in the same step.  The destructor makes a destroy
call only if the handle is still set.  Hence, from any world, any number of
waits followed by destruction makes at most one destroy call in all, and on
each unit `c` at most one, and none unless `c` is the retained handle; and the
same holds over the whole lifetime, from the construction of the factory
through any sequence of operations on the factory, its future, the pool and
the executors to the destruction of the task. -/
theorem retained_child_destroyed_at_most_once (w : World V) (p : Nat) :
    (destroy_calls (future.wait w p).1.threads ≠ destroy_calls w.threads →
      ∃ c, (w.heap p).runs_as_child_ = some c
        ∧ (w.heap p).state_.is_empty = true
        ∧ (execute_thread w c).2 = true
        ∧ (future.wait w p).1
            = destroy_thread ((execute_thread w c).1.store p
                { (execute_thread w c).1.heap p with runs_as_child_ := none }) c
        ∧ ((future.wait w p).1.heap p).runs_as_child_ = none)
    ∧ (destroy_calls (task_object.destructor w p).threads ≠ destroy_calls w.threads →
        (w.heap p).runs_as_child_.isSome = true)
    ∧ (∀ n : Nat,
        destroy_calls
            (task_object.destructor ((fun x => (future.wait x p).1)^[n] w) p).threads
          ≤ destroy_calls w.threads + 1
        ∧ ∀ c, destroyed_at c
            (task_object.destructor ((fun x => (future.wait x p).1)^[n] w) p).threads
          ≤ destroyed_at c w.threads
              + if (w.heap p).runs_as_child_ = some c then 1 else 0)
    ∧ (∀ (ex : Option executor) (f : Except error V) (ops : List op),
        destroy_calls
            (task_object.destructor ((system.start w p ex f).run ops).world p).threads
          ≤ destroy_calls w.threads + 1
        ∧ ∀ c, destroyed_at c
            (task_object.destructor ((system.start w p ex f).run ops).world p).threads
          ≤ destroyed_at c w.threads + 1) := by
  refine ⟨?_, ?_, ?_, ?_⟩
  · rw [wait_is_run_child_inline]
    exact run_child_inline_destroys w p
  · intro h
    cases hc : (w.heap p).runs_as_child_ with
    | none => simp [task_object.destructor, hc] at h
    | some c => rfl
  · intro n
    have hw := waits_potential n w p
    have hd := destructor_le_potential ((fun x => (future.wait x p).1)^[n] w) p
    refine ⟨?_, fun c => ?_⟩
    · have h1 := Nat.le_trans hd.1 hw.1
      have h2 : destroy_potential p w ≤ destroy_calls w.threads + 1 := by
        unfold destroy_potential
        split <;> omega
      exact Nat.le_trans h1 h2
    · exact Nat.le_trans (hd.2 c) (hw.2 c)
  · intro ex f ops
    have hs := start_lifetime w p ex f
    have hl := run_ops_lifetime ops (system.start w p ex f) p hs.1
    have hd := destructor_le_potential ((system.start w p ex f).run ops).world p
    refine ⟨?_, fun c => ?_⟩
    · have h1 := hl.1
      have h2 := hd.1
      have h3 := hs.2.1
      omega
    · have h1 := hl.2 c
      have h2 := hd.2 c
      have h3 := hs.2.2 c
      omega

/-- C24, witness: a task scheduled as a child in an empty pool, whose future
is waited on: the first wait runs the unit inline and destroys it (the destroy
count changes, so the handle is cleared), and two waits followed by the
destructor leave exactly one destroy call. -/
theorem retained_child_destroyed_at_most_once_witness :
    destroy_calls (future.wait
        (child_scenario (World.initial (task_object.create (.ok 0)) 0) 0 0 (42 : Nat)
          "futures_factory::apply" .async .thread_priority_default .thread_stacksize_default
          { mode := .thread_schedule_hint_mode_none, hint := -1, runs_as_child := true }).world
        0).1.threads
      ≠ destroy_calls
          (child_scenario (World.initial (task_object.create (.ok 0)) 0) 0 0 (42 : Nat)
            "futures_factory::apply" .async .thread_priority_default
            .thread_stacksize_default
            { mode := .thread_schedule_hint_mode_none, hint := -1,
              runs_as_child := true }).world.threads
    ∧ ((future.wait
        (child_scenario (World.initial (task_object.create (.ok 0)) 0) 0 0 (42 : Nat)
          "futures_factory::apply" .async .thread_priority_default .thread_stacksize_default
          { mode := .thread_schedule_hint_mode_none, hint := -1, runs_as_child := true }).world
        0).1.heap 0).runs_as_child_ = none
    ∧ destroy_calls (task_object.destructor
        ((system.start (World.initial (task_object.create (.ok 0)) 0) 0 none
            (.ok (42 : Nat))).run
          [.apply 0 "futures_factory::apply" .async .thread_priority_default
              .thread_stacksize_default
              { mode := .thread_schedule_hint_mode_none, hint := -1, runs_as_child := true },
            .get_future, .wait, .wait]).world 0).threads = 1 := by
  have hne : destroy_calls (future.wait
        (child_scenario (World.initial (task_object.create (.ok 0)) 0) 0 0 (42 : Nat)
          "futures_factory::apply" .async .thread_priority_default .thread_stacksize_default
          { mode := .thread_schedule_hint_mode_none, hint := -1, runs_as_child := true }).world
        0).1.threads
      ≠ destroy_calls
          (child_scenario (World.initial (task_object.create (.ok 0)) 0) 0 0 (42 : Nat)
            "futures_factory::apply" .async .thread_priority_default
            .thread_stacksize_default
            { mode := .thread_schedule_hint_mode_none, hint := -1,
              runs_as_child := true }).world.threads := by
    decide
  refine ⟨hne, ?_, ?_⟩
  · obtain ⟨c, hc⟩ := (retained_child_destroyed_at_most_once
      (child_scenario (World.initial (task_object.create (.ok 0)) 0) 0 0 (42 : Nat)
        "futures_factory::apply" .async .thread_priority_default .thread_stacksize_default
        { mode := .thread_schedule_hint_mode_none, hint := -1, runs_as_child := true }).world
      0).1 hne
    exact hc.2.2.2.2
  · have h := ((retained_child_destroyed_at_most_once
      (World.initial (task_object.create (.ok (0 : Nat))) 0) 0).2.2.2 none (.ok 42)
      [.apply 0 "futures_factory::apply" .async .thread_priority_default
          .thread_stacksize_default
          { mode := .thread_schedule_hint_mode_none, hint := -1, runs_as_child := true },
        .get_future, .wait, .wait]).1
    exact Nat.le_antisymm h (by decide)

end hpx
